import Mathlib

/-!
# SVG renderer of Graphviz (`plugin/core/gvrender_core_svg.c`)

A shallow embedding of the renderer callbacks and the proofs of the properties
its specification states about them.

Conventions of the embedding.

* The byte sink of a job is the field `out` of `GVJ_t`; `gvputs` appends to it and
  every `gvprintf` call is the `gvputs` of the text its format string produces.
* Code that is not part of the renderer file (the escapers `xml_string` and
  `xml_url_string`, the naming helpers `agnameof` and `strdup_and_subst_obj`, the
  macro `PENWIDTH_NORMAL`) and the C `double` type with its arithmetic and its
  `printf` conversions are the fields of an `Ext` record: every definition takes
  such a record as its first argument and the general theorems hold for all of them.
* A callback returns an `Outcome`: `ok job` when it runs to its end, `fault job`
  when `assert(0)` fires (the job shows the sink at that moment), `undefined` when the
  C code leaves defined behaviour (a read past the `n` points of an array, a null
  pointer given to `%s`).
-/

namespace GvSvg

/-! ## External collaborators -/

/-- The code the renderer relies on and does not define: the C `double` type with
unary minus, `+`, `-`, `!=` and the two `printf` conversions used on it, the macro
`PENWIDTH_NORMAL`, the two escapers and the two naming helpers. -/
structure Ext where
  /-- The C type `double`. -/
  Double : Type
  /-- Unary minus on `double`. -/
  neg : Double → Double
  /-- Addition on `double`. -/
  add : Double → Double → Double
  /-- Subtraction on `double`. -/
  sub : Double → Double → Double
  /-- The comparison `!=` on `double`. -/
  ne : Double → Double → Bool
  /-- The text `printf` writes for the conversion `%g`. -/
  fmt_g : Double → String
  /-- The text `printf` writes for the conversion `%.2f`. -/
  fmt_2f : Double → String
  /-- The macro `PENWIDTH_NORMAL` of `const.h`. -/
  PENWIDTH_NORMAL : Double
  /-- The XML escaper, `extern char *xml_string(char *str)`. -/
  xml_string : String → String
  /-- The URL escaper, `extern char *xml_url_string(char *str)`. -/
  xml_url_string : String → String
  /-- The name of the graph or node an object pointer refers to. -/
  agnameof : Nat → String
  /-- The helper `strdup_and_subst_obj(str, obj)`. -/
  strdup_and_subst_obj : String → Nat → String

/-! ## Data model -/

/-- A point `pointf` with `double` coordinates. -/
structure pointf (E : Ext) where
  x : E.Double
  y : E.Double

/-- A box `boxf` with its lower-left and upper-right corners. -/
structure boxf (E : Ext) where
  LL : pointf E
  UR : pointf E

/-- Modelled from the spec: the type `gvcolor_t` of `color.h`, a tagged colour whose
variants are a string and four RGBA bytes; `OTHER` stands for a value carrying any
other tag of the `color_type` enumeration. -/
inductive gvcolor_t where
  | COLOR_STRING (string : String)
  | RGBA_BYTE (r g b a : Fin 256)
  | OTHER (tag : Nat)
deriving DecidableEq

/-- Modelled from the spec: the enumeration `pen_type` of `gvcjob.h`, the pen style,
one of solid, dashed and dotted. -/
inductive pen_type where
  | PEN_SOLID
  | PEN_DASHED
  | PEN_DOTTED
deriving DecidableEq

/-- Modelled from the spec: the enumeration `fontname_kind` of `types.h`, the
font-naming mode carried on the graph. -/
inductive fontname_kind where
  | NATIVEFONTS
  | PSFONTS
  | SVGFONTS
deriving DecidableEq

/-- Modelled from the spec: the structure `PostscriptAlias` of `textpara.h`. The
fields the renderer tests against the null pointer are optional. -/
structure PostscriptAlias where
  name : String
  family : String
  weight : Option String
  stretch : Option String
  style : Option String
  svg_font_family : Option String
  svg_font_weight : Option String
  svg_font_style : Option String

/-- Modelled from the spec: the structure `textpara_t`, a text block. -/
structure textpara_t (E : Ext) where
  str : String
  fontname : String
  postscript_alias : Option PostscriptAlias
  fontsize : E.Double
  yoffset_centerline : E.Double
  just : Char

/-- Modelled from the spec: the current object state `obj_state_t`. The field `u`
is the pointer to the graph, node or edge the object stands for. -/
structure obj_state_t (E : Ext) where
  u : Nat
  id : String
  pencolor : gvcolor_t
  fillcolor : gvcolor_t
  pen : pen_type
  penwidth : E.Double

/-- Modelled from the spec: the job context `GVJ_t`. The field `out` is the sink,
`info0`, `info1`, `info2` and `user` are `job->common->info[0..2]` and
`job->common->user`, `stylesheet` is `agget(job->gvc->g, "stylesheet")` and
`fontnames` is `GD_fontnames(job->gvc->g)`. -/
structure GVJ_t (E : Ext) where
  out : String
  obj : obj_state_t E
  info0 : String
  info1 : String
  info2 : String
  user : String
  stylesheet : Option String
  fontnames : fontname_kind
  pagesArraySize_x : Int
  pagesArraySize_y : Int
  width : Nat
  height : Nat
  canvasBox : boxf E
  scale : pointf E
  rotation : Int
  translation : pointf E

/-- The result of running a callback. -/
inductive Outcome (E : Ext) where
  | ok (job : GVJ_t E)
  | fault (job : GVJ_t E)
  | undefined

/-- Sequencing of two pieces of code: the second runs if the first ran to its end. -/
def Outcome.andThen {E : Ext} (o : Outcome E) (f : GVJ_t E → Outcome E) : Outcome E :=
  match o with
  | .ok job => f job
  | .fault job => .fault job
  | .undefined => .undefined

/-! ## The sink and the `printf` conversions on integers and strings -/

/-- The call `gvputs(job, s)`: append `s` to the sink. -/
def gvputs {E : Ext} (job : GVJ_t E) (s : String) : GVJ_t E :=
  { job with out := job.out ++ s }

/-- The character of a digit below sixteen, lowercase. -/
def digitChar (d : Nat) : Char :=
  match d with
  | 0 => '0' | 1 => '1' | 2 => '2' | 3 => '3' | 4 => '4'
  | 5 => '5' | 6 => '6' | 7 => '7' | 8 => '8' | 9 => '9'
  | 10 => 'a' | 11 => 'b' | 12 => 'c' | 13 => 'd' | 14 => 'e'
  | _ => 'f'

/-- The digits of `n` in base `b`, most significant first, in front of `acc`. -/
def digitsAux (b : Nat) : Nat → Nat → List Char → List Char
  | 0, _, acc => acc
  | fuel + 1, n, acc =>
    if n < b then digitChar n :: acc
    else digitsAux b fuel (n / b) (digitChar (n % b) :: acc)

/-- The digits of `n` in base `b` (`2 ≤ b ≤ 16`), without leading zeros. -/
def digits (b n : Nat) : List Char :=
  digitsAux b (n + 1) n []

/-- The text `printf` writes for `%02x` and an unsigned value. -/
def fmt_02x (n : Nat) : String :=
  String.mk (List.replicate (2 - (digits 16 n).length) '0' ++ digits 16 n)

/-- The `int` that a value is read as: two's complement on 32 bits. -/
def int32 (z : Int) : Int :=
  (z + 2147483648) % 4294967296 - 2147483648

/-- The text `printf` writes for `%d`. -/
def fmt_d (z : Int) : String :=
  match z with
  | .ofNat n => String.mk (digits 10 n)
  | .negSucc n => "-" ++ String.mk (digits 10 (n + 1))

/-! ## The renderer -/

/-- SVG dash array. -/
def sdasharray : String := "5,2"

/-- SVG dot array. -/
def sdotarray : String := "1,5"

/-- The loop of `svg_bzptarray`: `k` points remain, `i` is the index and `c` the
command character of the next one. -/
def svg_bzptarray_loop {E : Ext} (A : List (pointf E)) :
    Nat → Nat → Char → GVJ_t E → Outcome E
  | 0, _, _, job => .ok job
  | k + 1, i, c, job =>
    match A[i]? with
    | none => .undefined
    | some P =>
      svg_bzptarray_loop A k (i + 1) (if i = 0 then 'C' else ' ')
        (gvputs job (String.singleton c ++ E.fmt_g P.x ++ "," ++ E.fmt_g (E.neg P.y)))

/-- The function `svg_bzptarray`. -/
def svg_bzptarray {E : Ext} (job : GVJ_t E) (A : List (pointf E)) (n : Nat) : Outcome E :=
  svg_bzptarray_loop A n 0 'M' job

/-- The function `svg_print_color`. -/
def svg_print_color {E : Ext} (job : GVJ_t E) (color : gvcolor_t) : Outcome E :=
  match color with
  | .COLOR_STRING string => .ok (gvputs job string)
  | .RGBA_BYTE r g b a =>
    if a = 0 then .ok (gvputs job "none")
    else .ok (gvputs job ("#" ++ fmt_02x r ++ fmt_02x g ++ fmt_02x b))
  | .OTHER _ => .fault job

/-- The function `svg_grstyle`. -/
def svg_grstyle {E : Ext} (job : GVJ_t E) (filled : Bool) : Outcome E :=
  let obj := job.obj
  let job := gvputs job " fill=\""
  (if filled then svg_print_color job obj.fillcolor else .ok (gvputs job "none")).andThen
  fun job =>
  let job := gvputs job "\" stroke=\""
  (svg_print_color job obj.pencolor).andThen fun job =>
  let job :=
    if E.ne obj.penwidth E.PENWIDTH_NORMAL then
      gvputs job ("\" stroke-width=\"" ++ E.fmt_g obj.penwidth)
    else job
  let job :=
    if obj.pen = .PEN_DASHED then gvputs job ("\" stroke-dasharray=\"" ++ sdasharray)
    else if obj.pen = .PEN_DOTTED then gvputs job ("\" stroke-dasharray=\"" ++ sdotarray)
    else job
  .ok (gvputs job "\"")

/-- The function `svg_comment`. -/
def svg_comment {E : Ext} (job : GVJ_t E) (str : String) : Outcome E :=
  let job := gvputs job "<!-- "
  let job := gvputs job (E.xml_string str)
  .ok (gvputs job " -->\n")

/-- The loop of `isAscii` over the characters of the string. -/
def isAscii_loop : List Char → Bool
  | [] => true
  | c :: s => if c.toNat < 128 then isAscii_loop s else false

/-- The function `isAscii`: true if all characters in the string are ascii. -/
def isAscii (s : String) : Bool :=
  isAscii_loop s.data

/-- The function `svg_begin_job`. -/
def svg_begin_job {E : Ext} (job : GVJ_t E) : Outcome E :=
  let job := gvputs job "<?xml version=\"1.0\" encoding=\"UTF-8\" standalone=\"no\"?>\n"
  let job :=
    match job.stylesheet with
    | some s =>
      if s ≠ "" then
        let job := gvputs job "<?xml-stylesheet href=\""
        let job := gvputs job s
        gvputs job "\" type=\"text/css\"?>\n"
      else job
    | none => job
  let job := gvputs job "<!DOCTYPE svg PUBLIC \"-//W3C//DTD SVG 1.1//EN\"\n"
  let job := gvputs job " \"http://www.w3.org/Graphics/SVG/1.1/DTD/svg11.dtd\">\n"
  let job := gvputs job "<!-- Generated by "
  let job := gvputs job (E.xml_string job.info0)
  let job := gvputs job " version "
  let job := gvputs job (E.xml_string job.info1)
  let job := gvputs job " ("
  let job := gvputs job (E.xml_string job.info2)
  let job :=
    if isAscii job.user then
      let job := gvputs job ")\n     For user: "
      gvputs job (E.xml_string job.user)
    else gvputs job ")\n"
  .ok (gvputs job " -->\n")

/-- The function `svg_begin_graph`. -/
def svg_begin_graph {E : Ext} (job : GVJ_t E) : Outcome E :=
  let obj := job.obj
  let job := gvputs job "<!--"
  let job :=
    if E.agnameof obj.u ≠ "" then
      let job := gvputs job " Title: "
      gvputs job (E.xml_string (E.agnameof obj.u))
    else job
  let job := gvputs job
    (" Pages: " ++ fmt_d (int32 (job.pagesArraySize_x * job.pagesArraySize_y)) ++ " -->\n")
  let job := gvputs job
    ("<svg width=\"" ++ fmt_d (int32 job.width) ++ "pt\" height=\""
      ++ fmt_d (int32 job.height) ++ "pt\"\n")
  let job := gvputs job
    (" viewBox=\"" ++ E.fmt_2f job.canvasBox.LL.x ++ " " ++ E.fmt_2f job.canvasBox.LL.y
      ++ " " ++ E.fmt_2f job.canvasBox.UR.x ++ " " ++ E.fmt_2f job.canvasBox.UR.y ++ "\"")
  let job := gvputs job " xmlns=\"http://www.w3.org/2000/svg\""
  let job := gvputs job " xmlns:xlink=\"http://www.w3.org/1999/xlink\""
  .ok (gvputs job ">\n")

/-- The function `svg_end_graph`. -/
def svg_end_graph {E : Ext} (job : GVJ_t E) : Outcome E :=
  .ok (gvputs job "</svg>\n")

/-- The function `svg_begin_layer`. -/
def svg_begin_layer {E : Ext} (job : GVJ_t E) (layername : String)
    (_layerNum _numLayers : Int) : Outcome E :=
  let job := gvputs job "<g id=\""
  let job := gvputs job (E.xml_string layername)
  .ok (gvputs job "\" class=\"layer\">\n")

/-- The function `svg_end_layer`. -/
def svg_end_layer {E : Ext} (job : GVJ_t E) : Outcome E :=
  .ok (gvputs job "</g>\n")

/-- The function `svg_begin_page`. -/
def svg_begin_page {E : Ext} (job : GVJ_t E) : Outcome E :=
  let obj := job.obj
  let job := gvputs job "<g id=\""
  let job := gvputs job (E.xml_string obj.id)
  let job := gvputs job "\" class=\"graph\""
  let job := gvputs job
    (" transform=\"scale(" ++ E.fmt_g job.scale.x ++ " " ++ E.fmt_g job.scale.y
      ++ ") rotate(" ++ fmt_d (int32 (-job.rotation))
      ++ ") translate(" ++ E.fmt_g job.translation.x ++ " "
      ++ E.fmt_g (E.neg job.translation.y) ++ ")\">\n")
  let job :=
    if E.agnameof obj.u ≠ "" then
      let job := gvputs job "<title>"
      let job := gvputs job (E.xml_string (E.agnameof obj.u))
      gvputs job "</title>\n"
    else job
  .ok job

/-- The function `svg_end_page`. -/
def svg_end_page {E : Ext} (job : GVJ_t E) : Outcome E :=
  .ok (gvputs job "</g>\n")

/-- The function `svg_begin_cluster`. -/
def svg_begin_cluster {E : Ext} (job : GVJ_t E) : Outcome E :=
  let obj := job.obj
  let job := gvputs job "<g id=\""
  let job := gvputs job (E.xml_string obj.id)
  let job := gvputs job "\" class=\"cluster\">"
  let job := gvputs job "<title>"
  let job := gvputs job (E.xml_string (E.agnameof obj.u))
  .ok (gvputs job "</title>\n")

/-- The function `svg_end_cluster`. -/
def svg_end_cluster {E : Ext} (job : GVJ_t E) : Outcome E :=
  .ok (gvputs job "</g>\n")

/-- The function `svg_begin_node`. -/
def svg_begin_node {E : Ext} (job : GVJ_t E) : Outcome E :=
  let obj := job.obj
  let job := gvputs job "<g id=\""
  let job := gvputs job (E.xml_string obj.id)
  let job := gvputs job "\" class=\"node\">"
  let job := gvputs job "<title>"
  let job := gvputs job (E.xml_string (E.agnameof obj.u))
  .ok (gvputs job "</title>\n")

/-- The function `svg_end_node`. -/
def svg_end_node {E : Ext} (job : GVJ_t E) : Outcome E :=
  .ok (gvputs job "</g>\n")

/-- The function `svg_begin_edge`. -/
def svg_begin_edge {E : Ext} (job : GVJ_t E) : Outcome E :=
  let obj := job.obj
  let job := gvputs job "<g id=\""
  let job := gvputs job (E.xml_string obj.id)
  let job := gvputs job "\" class=\"edge\">"
  let job := gvputs job "<title>"
  let ename := E.strdup_and_subst_obj "\\E" obj.u
  let job := gvputs job (E.xml_string ename)
  .ok (gvputs job "</title>\n")

/-- The function `svg_end_edge`. -/
def svg_end_edge {E : Ext} (job : GVJ_t E) : Outcome E :=
  .ok (gvputs job "</g>\n")

/-- The test `p && p[0]` on a string pointer: the string when it is present and not
empty. -/
def nonEmpty (p : Option String) : Option String :=
  match p with
  | some s => if s ≠ "" then some s else none
  | none => none

/-- The function `svg_begin_anchor`. -/
def svg_begin_anchor {E : Ext} (job : GVJ_t E) (href tooltip target : Option String)
    (_id : Option String) : Outcome E :=
  let job := gvputs job "<a"
  let job :=
    match nonEmpty href with
    | some href => gvputs job (" xlink:href=\"" ++ E.xml_url_string href ++ "\"")
    | none => job
  let job :=
    match nonEmpty tooltip with
    | some tooltip => gvputs job (" xlink:title=\"" ++ E.xml_string tooltip ++ "\"")
    | none => job
  let job :=
    match nonEmpty target with
    | some target => gvputs job (" target=\"" ++ E.xml_string target ++ "\"")
    | none => job
  .ok (gvputs job ">\n")

/-- The function `svg_end_anchor`. -/
def svg_end_anchor {E : Ext} (job : GVJ_t E) : Outcome E :=
  .ok (gvputs job "</a>\n")

/-- A call `gvprintf(job, fmt, s)` whose format is `before%safter` and whose string
argument may be the null pointer: undefined for the null pointer. -/
def gvprintf_s {E : Ext} (job : GVJ_t E) (before : String) (s : Option String)
    (after : String) : Outcome E :=
  match s with
  | some s => .ok (gvputs job (before ++ s ++ after))
  | none => .undefined

/-- The statement `if (s) gvprintf(job, fmt, s)` with the format `before%safter`. -/
def gvprintf_if {E : Ext} (job : GVJ_t E) (before : String) (s : Option String)
    (after : String) : GVJ_t E :=
  match s with
  | some s => gvputs job (before ++ s ++ after)
  | none => job

/-- The ASCII lower-case letter of a character. -/
def asciiLower (c : Char) : Char :=
  if 65 ≤ c.toNat ∧ c.toNat ≤ 90 then Char.ofNat (c.toNat + 32) else c

/-- The comparison `strcasecmp(a, b) != 0` of the C library. -/
def strcasecmp_ne (a b : String) : Bool :=
  a.data.map asciiLower != b.data.map asciiLower

/-- The font attributes of `svg_textpara` (the statement `if (pA) ... else ...`):
the family, weight and style chosen by the font-naming mode of the graph. -/
def svg_textpara_font {E : Ext} (job : GVJ_t E) (para : textpara_t E) : Outcome E :=
  match para.postscript_alias with
  | some pA =>
    let family : Option String :=
      match job.fontnames with
      | .PSFONTS => some pA.name
      | .SVGFONTS => pA.svg_font_family
      | .NATIVEFONTS => some pA.family
    let weight : Option String :=
      match job.fontnames with
      | .PSFONTS => pA.weight
      | .SVGFONTS => pA.svg_font_weight
      | .NATIVEFONTS => pA.weight
    let style : Option String :=
      match job.fontnames with
      | .PSFONTS => pA.style
      | .SVGFONTS => pA.svg_font_style
      | .NATIVEFONTS => pA.style
    let stretch := pA.stretch
    (gvprintf_s job " font-family=\"" family "").andThen fun job =>
    let job := gvprintf_if job "," pA.svg_font_family ""
    let job := gvputs job "\""
    let job := gvprintf_if job " font-weight=\"" weight "\""
    let job := gvprintf_if job " font-stretch=\"" stretch "\""
    let job := gvprintf_if job " font-style=\"" style "\""
    .ok job
  | none => .ok (gvputs job (" font-family=\"" ++ para.fontname ++ "\""))

/-- The fill attribute of `svg_textpara` (the statement `switch (obj->pencolor.type)`). -/
def svg_textpara_fill {E : Ext} (job : GVJ_t E) : Outcome E :=
  match job.obj.pencolor with
  | .COLOR_STRING string =>
    if strcasecmp_ne string "black" then .ok (gvputs job (" fill=\"" ++ string ++ "\""))
    else .ok job
  | .RGBA_BYTE r g b _ =>
    .ok (gvputs job (" fill=\"#" ++ fmt_02x r ++ fmt_02x g ++ fmt_02x b ++ "\""))
  | .OTHER _ => .fault job

/-- The function `svg_textpara`. -/
def svg_textpara {E : Ext} (job : GVJ_t E) (p : pointf E) (para : textpara_t E) :
    Outcome E :=
  let job := gvputs job "<text"
  let job :=
    if para.just = 'l' then gvputs job " text-anchor=\"start\""
    else if para.just = 'r' then gvputs job " text-anchor=\"end\""
    else gvputs job " text-anchor=\"middle\""
  let p : pointf E := { p with y := E.add p.y para.yoffset_centerline }
  let job := gvputs job (" x=\"" ++ E.fmt_g p.x ++ "\" y=\"" ++ E.fmt_g (E.neg p.y) ++ "\"")
  (svg_textpara_font job para).andThen fun job =>
  let job := gvputs job (" font-size=\"" ++ E.fmt_2f para.fontsize ++ "\"")
  (svg_textpara_fill job).andThen fun job =>
  let job := gvputs job ">"
  let job := gvputs job (E.xml_string para.str)
  .ok (gvputs job "</text>\n")

/-- The function `svg_ellipse`; `A` contains 2 points: the center and corner. -/
def svg_ellipse {E : Ext} (job : GVJ_t E) (A : List (pointf E)) (filled : Bool) :
    Outcome E :=
  let job := gvputs job "<ellipse"
  (svg_grstyle job filled).andThen fun job =>
  match A[0]?, A[1]? with
  | some A0, some A1 =>
    let job := gvputs job
      (" cx=\"" ++ E.fmt_g A0.x ++ "\" cy=\"" ++ E.fmt_g (E.neg A0.y) ++ "\"")
    let job := gvputs job
      (" rx=\"" ++ E.fmt_g (E.sub A1.x A0.x) ++ "\" ry=\"" ++ E.fmt_g (E.sub A1.y A0.y)
        ++ "\"")
    .ok (gvputs job "/>\n")
  | _, _ => .undefined

/-- The function `svg_bezier`. -/
def svg_bezier {E : Ext} (job : GVJ_t E) (A : List (pointf E)) (n : Nat)
    (_arrow_at_start _arrow_at_end : Int) (filled : Bool) : Outcome E :=
  let job := gvputs job "<path"
  (svg_grstyle job filled).andThen fun job =>
  let job := gvputs job " d=\""
  (svg_bzptarray job A n).andThen fun job =>
  .ok (gvputs job "\"/>\n")

/-- The loop `for (i = 0; i < n; i++) gvprintf(job, "%g,%g ", A[i].x, -A[i].y)` of
`svg_polygon` and `svg_polyline`: `k` points remain and `i` is the index of the next. -/
def svg_points_loop {E : Ext} (A : List (pointf E)) : Nat → Nat → GVJ_t E → Outcome E
  | 0, _, job => .ok job
  | k + 1, i, job =>
    match A[i]? with
    | none => .undefined
    | some P =>
      svg_points_loop A k (i + 1)
        (gvputs job (E.fmt_g P.x ++ "," ++ E.fmt_g (E.neg P.y) ++ " "))

/-- The function `svg_polygon`. -/
def svg_polygon {E : Ext} (job : GVJ_t E) (A : List (pointf E)) (n : Nat)
    (filled : Bool) : Outcome E :=
  let job := gvputs job "<polygon"
  (svg_grstyle job filled).andThen fun job =>
  let job := gvputs job " points=\""
  (svg_points_loop A n 0 job).andThen fun job =>
  match A[0]? with
  | some A0 =>
    let job := gvputs job (E.fmt_g A0.x ++ "," ++ E.fmt_g (E.neg A0.y))
    .ok (gvputs job "\"/>\n")
  | none => .undefined

/-- The function `svg_polyline`. -/
def svg_polyline {E : Ext} (job : GVJ_t E) (A : List (pointf E)) (n : Nat) : Outcome E :=
  let job := gvputs job "<polyline"
  (svg_grstyle job false).andThen fun job =>
  let job := gvputs job " points=\""
  (svg_points_loop A n 0 job).andThen fun job =>
  .ok (gvputs job "\"/>\n")

/-- The text a callback has left in the sink when it ran to its end. -/
def Outcome.written {E : Ext} (o : Outcome E) : Option String :=
  match o with
  | .ok job => some job.out
  | .fault _ => none
  | .undefined => none

/-! ## A concrete host

The general theorems hold for every `Ext`. The worked examples of the specification
need actual numbers and actual escapers: `IntExt` supplies the `double` values that
are whole numbers, with the sign bit of IEEE 754 (so that `-(+0.0)` is `-0.0`, which
`printf` writes as `-0`), and escapers that encode the markup characters. -/

/-- A `double` whose value is a whole number: the sign bit and the magnitude. The
arithmetic below is the exact one, which is the arithmetic of `double` as long as
the magnitudes stay below `2^53`. -/
structure IntDouble where
  sign : Bool
  mag : Nat
deriving DecidableEq

/-- The value of a whole `double`. -/
def IntDouble.toInt (d : IntDouble) : Int :=
  if d.sign then -(d.mag : Int) else (d.mag : Int)

/-- Unary minus flips the sign bit, also on a zero. -/
def IntDouble.neg (d : IntDouble) : IntDouble :=
  { sign := !d.sign, mag := d.mag }

/-- Addition; a sum that is zero is `-0` only if both operands are negative, as
under the rounding to nearest of IEEE 754. -/
def IntDouble.add (a b : IntDouble) : IntDouble :=
  if a.toInt + b.toInt = 0 then { sign := a.sign && b.sign, mag := 0 }
  else { sign := decide (a.toInt + b.toInt < 0), mag := (a.toInt + b.toInt).natAbs }

/-- Subtraction, the addition of the negated operand. -/
def IntDouble.sub (a b : IntDouble) : IntDouble :=
  a.add b.neg

/-- The comparison `!=` compares values: the two zeros are equal. -/
def IntDouble.ne (a b : IntDouble) : Bool :=
  decide (a.toInt ≠ b.toInt)

/-- A list of digits without its trailing zeros. -/
def stripZeros (ds : List Char) : List Char :=
  (ds.reverse.dropWhile fun c => c.toNat = 48).reverse

/-- The text of `%g` for a magnitude: all the digits below `10^6`, and above it the
exponent form with six significant digits, rounded to nearest with ties to even,
trailing zeros removed, and an exponent of at least two digits. -/
def fmt_g_mag (m : Nat) : List Char :=
  if m < 1000000 then digits 10 m
  else
    let x := (digits 10 m).length - 1
    let q := m / 10 ^ (x - 5)
    let r := m % 10 ^ (x - 5)
    let up : Bool := decide (10 ^ (x - 5) < 2 * r) || (decide (2 * r = 10 ^ (x - 5)) && q % 2 == 1)
    let q1 := if up then q + 1 else q
    let q2 := if q1 = 1000000 then 100000 else q1
    let x2 := if q1 = 1000000 then x + 1 else x
    let frac := stripZeros ((digits 10 q2).drop 1)
    (digits 10 q2).take 1 ++ (if frac.isEmpty then [] else '.' :: frac) ++ ['e', '+']
      ++ (if x2 < 10 then ['0'] else []) ++ digits 10 x2

/-- The text of `%g` for a whole `double`. -/
def IntDouble.fmt_g (d : IntDouble) : String :=
  String.mk ((if d.sign then ['-'] else []) ++ fmt_g_mag d.mag)

/-- The text of `%.2f` for a whole `double`. -/
def IntDouble.fmt_2f (d : IntDouble) : String :=
  String.mk ((if d.sign then ['-'] else []) ++ digits 10 d.mag ++ ['.', '0', '0'])

/-- The whole `double` of an integer; the zero is `+0`. -/
def IntDouble.ofInt (z : Int) : IntDouble :=
  { sign := decide (z < 0), mag := z.natAbs }

/-- The escape of one character: the entity of an ampersand (38), a less-than sign
(60), a greater-than sign (62), a double quote (34) or an apostrophe (39), and the
character itself otherwise. -/
def escapeChar (c : Char) : List Char :=
  if c.toNat = 38 then "&amp;".data
  else if c.toNat = 60 then "&lt;".data
  else if c.toNat = 62 then "&gt;".data
  else if c.toNat = 34 then "&quot;".data
  else if c.toNat = 39 then "&#39;".data
  else [c]

/-- Modelled from the spec: the XML escaper `xml_string`, which is not part of the
renderer file; it encodes `&`, `<`, `>`, the double quote and the apostrophe. -/
def xml_string_model (s : String) : String :=
  String.mk (s.data.flatMap escapeChar)

/-- Modelled from the spec: the URL escaper `xml_url_string`, which is not part of
the renderer file; on the markup characters it encodes as the XML escaper does. -/
def xml_url_string_model (s : String) : String :=
  String.mk (s.data.flatMap escapeChar)

/-- The concrete host: whole doubles, `PENWIDTH_NORMAL` equal to `1.`, the escapers
modelled from the spec, an object `u` named `obj` followed by its number (the object
`0` has the empty name) and an edge `u` named after its two end points. -/
def IntExt : Ext where
  Double := IntDouble
  neg := IntDouble.neg
  add := IntDouble.add
  sub := IntDouble.sub
  ne := IntDouble.ne
  fmt_g := IntDouble.fmt_g
  fmt_2f := IntDouble.fmt_2f
  PENWIDTH_NORMAL := { sign := false, mag := 1 }
  xml_string := xml_string_model
  xml_url_string := xml_url_string_model
  agnameof := fun u => if u = 0 then "" else "obj" ++ String.mk (digits 10 u)
  strdup_and_subst_obj := fun _ u =>
    "obj" ++ String.mk (digits 10 u) ++ " -> obj" ++ String.mk (digits 10 (u + 1))

/-- A point of the concrete host with the given whole coordinates. -/
def ipt (x y : Int) : pointf IntExt :=
  { x := IntDouble.ofInt x, y := IntDouble.ofInt y }

/-- An object state of the concrete host: object `1`, solid pen of normal width. -/
def iobj (pencolor fillcolor : gvcolor_t) (pen : pen_type) : obj_state_t IntExt :=
  { u := 1, id := "node1", pencolor := pencolor, fillcolor := fillcolor, pen := pen,
    penwidth := IntDouble.ofInt 1 }

/-- A job of the concrete host with an empty sink, the generator `gv` version `1`
build `b`, the user `alice`, no stylesheet, native font names, one page and a canvas
of 72 by 72 points. -/
def ijob (obj : obj_state_t IntExt) : GVJ_t IntExt :=
  { out := "", obj := obj, info0 := "gv", info1 := "1", info2 := "b", user := "alice",
    stylesheet := none, fontnames := .NATIVEFONTS, pagesArraySize_x := 1,
    pagesArraySize_y := 1, width := 72, height := 72,
    canvasBox := { LL := ipt 0 0, UR := ipt 72 72 },
    scale := ipt 1 1, rotation := 0, translation := ipt 4 40 }

/-- Opaque black, as four RGBA bytes. -/
def black : gvcolor_t := .RGBA_BYTE 0 0 0 255

/-- Opaque red, as four RGBA bytes. -/
def red : gvcolor_t := .RGBA_BYTE 255 0 0 255

/-! ## The texts the specification describes -/

/-- A coordinate pair as it is written: `x`, a comma and the negated `y`, both in
`%g` form. -/
def coord {E : Ext} (P : pointf E) : String :=
  E.fmt_g P.x ++ "," ++ E.fmt_g (E.neg P.y)

/-- The coordinate pairs of a list of points, each followed by one space. -/
def coordsThenSpace {E : Ext} : List (pointf E) → String
  | [] => ""
  | P :: Ps => coord P ++ " " ++ coordsThenSpace Ps

/-- The coordinate pairs of a list of points, each preceded by one space. -/
def spaceThenCoords {E : Ext} : List (pointf E) → String
  | [] => ""
  | P :: Ps => " " ++ coord P ++ spaceThenCoords Ps

/-- The texts of a list, each preceded by the separator `s`. -/
def sepThenTexts (s : String) : List String → String
  | [] => ""
  | a :: l => s ++ a ++ sepThenTexts s l

/-- The first of a run of points under the command character `c` and the further
ones after a space each. -/
def commandThenCoords {E : Ext} (c : Char) : List (pointf E) → String
  | [] => ""
  | P :: Ps => String.singleton c ++ coord P ++ spaceThenCoords Ps

/-- The path data of the specification: `M` and the first point, `C` and the second
point, and every further point after a single space. -/
def pathData {E : Ext} : List (pointf E) → String
  | [] => ""
  | P0 :: Ps => "M" ++ coord P0 ++ commandThenCoords 'C' Ps

/-- An optional attribute: the text `before`, the string and `after` when the string
is present, and nothing otherwise. -/
def optAttr (before : String) (s : Option String) (after : String) : String :=
  match s with
  | some s => before ++ s ++ after
  | none => ""

/-- A text block of the concrete host: the text `a<b` in the font `Times` of size 14,
without alias, left-justified, with the vertical offset 5. -/
def ipara : textpara_t IntExt :=
  { str := "a<b", fontname := "Times", postscript_alias := none,
    fontsize := IntDouble.ofInt 14, yoffset_centerline := IntDouble.ofInt 5, just := 'l' }

/-- The processing instruction `svg_begin_job` writes for the stylesheet. -/
def stylesheetText (stylesheet : Option String) : String :=
  match stylesheet with
  | some s => if s ≠ "" then "<?xml-stylesheet href=\"" ++ s ++ "\" type=\"text/css\"?>\n" else ""
  | none => ""

/-- The `<title>` element `svg_begin_page` writes, `escaped` being the escaped name,
for a graph whose name is not empty. -/
def titleText (escaped name : String) : String :=
  if name ≠ "" then "<title>" ++ escaped ++ "</title>\n" else ""

/-! ## The callbacks as events and the tags of a document -/

/-- One call of the engine into the renderer; `ctx` is the job as the engine has
set it up for the call (its sink field is not used: the sink is the one the
preceding calls have written to). -/
inductive Event (E : Ext) where
  | begin_graph (ctx : GVJ_t E)
  | end_graph
  | begin_layer (ctx : GVJ_t E) (layername : String) (layerNum numLayers : Int)
  | end_layer
  | begin_page (ctx : GVJ_t E)
  | end_page
  | begin_cluster (ctx : GVJ_t E)
  | end_cluster
  | begin_node (ctx : GVJ_t E)
  | end_node
  | begin_edge (ctx : GVJ_t E)
  | end_edge
  | begin_anchor (ctx : GVJ_t E) (href tooltip target id : Option String)
  | end_anchor
  | textpara (ctx : GVJ_t E) (p : pointf E) (para : textpara_t E)
  | ellipse (ctx : GVJ_t E) (A : List (pointf E)) (filled : Bool)
  | polygon (ctx : GVJ_t E) (A : List (pointf E)) (n : Nat) (filled : Bool)
  | bezier (ctx : GVJ_t E) (A : List (pointf E)) (n : Nat)
      (arrow_at_start arrow_at_end : Int) (filled : Bool)
  | polyline (ctx : GVJ_t E) (A : List (pointf E)) (n : Nat)
  | comment (ctx : GVJ_t E) (str : String)

/-- The call of the callback of an event on the job whose sink is the current one. -/
def Event.call {E : Ext} (e : Event E) (job : GVJ_t E) : Outcome E :=
  match e with
  | .begin_graph ctx => svg_begin_graph { ctx with out := job.out }
  | .end_graph => svg_end_graph job
  | .begin_layer ctx layername layerNum numLayers =>
    svg_begin_layer { ctx with out := job.out } layername layerNum numLayers
  | .end_layer => svg_end_layer job
  | .begin_page ctx => svg_begin_page { ctx with out := job.out }
  | .end_page => svg_end_page job
  | .begin_cluster ctx => svg_begin_cluster { ctx with out := job.out }
  | .end_cluster => svg_end_cluster job
  | .begin_node ctx => svg_begin_node { ctx with out := job.out }
  | .end_node => svg_end_node job
  | .begin_edge ctx => svg_begin_edge { ctx with out := job.out }
  | .end_edge => svg_end_edge job
  | .begin_anchor ctx href tooltip target id =>
    svg_begin_anchor { ctx with out := job.out } href tooltip target id
  | .end_anchor => svg_end_anchor job
  | .textpara ctx p para => svg_textpara { ctx with out := job.out } p para
  | .ellipse ctx A filled => svg_ellipse { ctx with out := job.out } A filled
  | .polygon ctx A n filled => svg_polygon { ctx with out := job.out } A n filled
  | .bezier ctx A n s e filled => svg_bezier { ctx with out := job.out } A n s e filled
  | .polyline ctx A n => svg_polyline { ctx with out := job.out } A n
  | .comment ctx str => svg_comment { ctx with out := job.out } str

/-- The calls of a sequence of events, one after the other, on the same sink. -/
def run {E : Ext} : List (Event E) → GVJ_t E → Outcome E
  | [], job => .ok job
  | e :: es, job => (e.call job).andThen (run es)

/-- The group a begin callback opens and its end callback closes. -/
inductive Kind where
  | graph | layer | page | cluster | node | edge | anchor
deriving DecidableEq

/-- The group an event opens, if it is a begin callback. -/
def Event.opens {E : Ext} : Event E → Option Kind
  | .begin_graph _ => some .graph
  | .begin_layer _ _ _ _ => some .layer
  | .begin_page _ => some .page
  | .begin_cluster _ => some .cluster
  | .begin_node _ => some .node
  | .begin_edge _ => some .edge
  | .begin_anchor _ _ _ _ _ => some .anchor
  | _ => none

/-- The group an event closes, if it is an end callback. -/
def Event.closes {E : Ext} : Event E → Option Kind
  | .end_graph => some .graph
  | .end_layer => some .layer
  | .end_page => some .page
  | .end_cluster => some .cluster
  | .end_node => some .node
  | .end_edge => some .edge
  | .end_anchor => some .anchor
  | _ => none

/-- A sequence of events is well nested above the open groups `stack` (innermost
first): a begin callback opens a group, an end callback closes the innermost open
group, which must be of its kind, a drawing callback may stand anywhere, and no
group is open at the end. -/
def wellNestedFrom {E : Ext} : List Kind → List (Event E) → Bool
  | stack, [] => stack.isEmpty
  | stack, e :: es =>
    match e.opens, e.closes with
    | some k, _ => wellNestedFrom (k :: stack) es
    | none, some k =>
      match stack with
      | top :: rest => decide (top = k) && wellNestedFrom rest es
      | [] => false
    | none, none => wellNestedFrom stack es

/-- A well-nested sequence of events. -/
def wellNested {E : Ext} (es : List (Event E)) : Bool :=
  wellNestedFrom [] es

/-- A tag of a document: the start tag and the end tag of an element, and the tag
of an element without content (`<x ... />`). -/
inductive Tag where
  | opened (name : List Char)
  | closed (name : List Char)
  | selfClosed (name : List Char)
deriving DecidableEq

/-- Where a reader of the document stands: in character data, in the name of a tag
(after `<` or `</`), in a tag after its name (`slash` tells whether the last
character was a `/`), or in a comment, declaration or processing instruction. -/
inductive Mode where
  | text
  | name (closing : Bool) (acc : List Char)
  | attrs (closing : Bool) (nm : List Char) (slash : Bool)
  | other
deriving DecidableEq

/-- The tag that ends at a `>`. -/
def tagAt (closing : Bool) (nm : List Char) (slash : Bool) : Tag :=
  if closing then .closed nm else if slash then .selfClosed nm else .opened nm

/-- One character read: the new mode and the tag that ends at this character, if
one does. The characters tested are `<` (60), `>` (62), `/` (47), `!` (33), `?`
(63), the blank (32), the newline (10) and the tab (9). -/
def step (m : Mode) (c : Char) : Mode × List Tag :=
  match m with
  | .text => if c.toNat = 60 then (.name false [], []) else (.text, [])
  | .other => if c.toNat = 62 then (.text, []) else (.other, [])
  | .name closing acc =>
    if c.toNat = 62 then (.text, [tagAt closing acc false])
    else if c.toNat = 47 then
      (if acc.isEmpty then .name true [] else .attrs closing acc true, [])
    else if (c.toNat = 33 ∨ c.toNat = 63) ∧ acc.isEmpty then (.other, [])
    else if c.toNat = 32 ∨ c.toNat = 10 ∨ c.toNat = 9 then (.attrs closing acc false, [])
    else (.name closing (acc ++ [c]), [])
  | .attrs closing nm slash =>
    if c.toNat = 62 then (.text, [tagAt closing nm slash])
    else if c.toNat = 47 then (.attrs closing nm true, [])
    else (.attrs closing nm false, [])

/-- One character read, the tags found so far being kept. -/
def stepAcc (s : Mode × List Tag) (c : Char) : Mode × List Tag :=
  match s with
  | (m, ts) =>
    match step m c with
    | (m1, new) => (m1, ts ++ new)

/-- The reading of a run of characters. -/
def scan (s : Mode × List Tag) (cs : List Char) : Mode × List Tag :=
  cs.foldl stepAcc s

/-- The tags of a text that starts in character data, in their order. -/
def tagsOf (t : String) : List Tag :=
  (scan (.text, []) t.data).2

/-- The check of a sequence of tags against the open elements `stack` (innermost
first): an end tag must close the innermost open element, and no element is open at
the end. -/
def balancedFrom : List (List Char) → List Tag → Bool
  | stack, [] => stack.isEmpty
  | stack, .opened nm :: ts => balancedFrom (nm :: stack) ts
  | stack, .selfClosed _ :: ts => balancedFrom stack ts
  | stack, .closed nm :: ts =>
    match stack with
    | top :: rest => decide (top = nm) && balancedFrom rest ts
    | [] => false

/-- A balanced sequence of tags. -/
def balanced (ts : List Tag) : Bool :=
  balancedFrom [] ts

/-- The element of a group: `svg` for the graph, `a` for an anchor, `g` otherwise. -/
def Kind.element : Kind → List Char
  | .graph => "svg".data
  | .anchor => "a".data
  | _ => "g".data

/-- The tags of an event: a begin callback opens the element of its group (and,
for a page with a named graph, a cluster, a node and an edge, a `title` that it
closes), an end callback closes the element of its group, the text emitter opens and
closes a `text`, a shape emitter writes one element without content, and a comment
writes no tag. -/
def Event.tags {E : Ext} : Event E → List Tag
  | .begin_graph _ => [.opened "svg".data]
  | .end_graph => [.closed "svg".data]
  | .begin_layer _ _ _ _ => [.opened "g".data]
  | .end_layer => [.closed "g".data]
  | .begin_page ctx =>
    if E.agnameof ctx.obj.u ≠ "" then
      [.opened "g".data, .opened "title".data, .closed "title".data]
    else [.opened "g".data]
  | .end_page => [.closed "g".data]
  | .begin_cluster _ => [.opened "g".data, .opened "title".data, .closed "title".data]
  | .end_cluster => [.closed "g".data]
  | .begin_node _ => [.opened "g".data, .opened "title".data, .closed "title".data]
  | .end_node => [.closed "g".data]
  | .begin_edge _ => [.opened "g".data, .opened "title".data, .closed "title".data]
  | .end_edge => [.closed "g".data]
  | .begin_anchor _ _ _ _ _ => [.opened "a".data]
  | .end_anchor => [.closed "a".data]
  | .textpara _ _ _ => [.opened "text".data, .closed "text".data]
  | .ellipse _ _ _ => [.selfClosed "ellipse".data]
  | .polygon _ _ _ _ => [.selfClosed "polygon".data]
  | .bezier _ _ _ _ _ _ => [.selfClosed "path".data]
  | .polyline _ _ _ => [.selfClosed "polyline".data]
  | .comment _ _ => []

/-- A text without `<` (60) and `>` (62). -/
def noAngle (cs : List Char) : Bool :=
  cs.all fun c => c.toNat != 60 && c.toNat != 62

/-- A colour whose string, if it is one, has no `<` and `>`. -/
def colorClean (c : gvcolor_t) : Bool :=
  match c with
  | .COLOR_STRING s => noAngle s.data
  | _ => true

/-- An optional string that, if present, has no `<` and `>`. -/
def optClean (s : Option String) : Bool :=
  match s with
  | some s => noAngle s.data
  | none => true

/-- A colour with one of the two tags the renderer supports. -/
def colorSupported (c : gvcolor_t) : Bool :=
  match c with
  | .OTHER _ => false
  | _ => true

/-- The strings an event has the renderer write as they are (colour strings and
font names) have no `<` and `>`. -/
def Event.rawClean {E : Ext} : Event E → Bool
  | .textpara ctx _ para =>
    colorClean ctx.obj.pencolor && noAngle para.fontname.data &&
    (match para.postscript_alias with
      | some pA =>
        noAngle pA.name.data && noAngle pA.family.data && optClean pA.weight
          && optClean pA.stretch && optClean pA.style && optClean pA.svg_font_family
          && optClean pA.svg_font_weight && optClean pA.svg_font_style
      | none => true)
  | .ellipse ctx _ filled =>
    colorClean ctx.obj.pencolor && (!filled || colorClean ctx.obj.fillcolor)
  | .polygon ctx _ _ filled =>
    colorClean ctx.obj.pencolor && (!filled || colorClean ctx.obj.fillcolor)
  | .bezier ctx _ _ _ _ filled =>
    colorClean ctx.obj.pencolor && (!filled || colorClean ctx.obj.fillcolor)
  | .polyline ctx _ _ => colorClean ctx.obj.pencolor
  | _ => true

/-- The inputs on which the callback of an event neither faults nor leaves defined
behaviour: the colours it consults have a supported tag, the arrays hold the points
it reads and the font family it prints is not the null pointer. -/
def Event.defined {E : Ext} : Event E → Bool
  | .textpara ctx _ para =>
    colorSupported ctx.obj.pencolor &&
    (match para.postscript_alias with
      | some pA => decide (ctx.fontnames = .SVGFONTS → pA.svg_font_family ≠ none)
      | none => true)
  | .ellipse ctx A filled =>
    colorSupported ctx.obj.pencolor && (!filled || colorSupported ctx.obj.fillcolor)
      && decide (2 ≤ A.length)
  | .polygon ctx A n filled =>
    colorSupported ctx.obj.pencolor && (!filled || colorSupported ctx.obj.fillcolor)
      && decide (n ≤ A.length) && decide (1 ≤ A.length)
  | .bezier ctx A n _ _ filled =>
    colorSupported ctx.obj.pencolor && (!filled || colorSupported ctx.obj.fillcolor)
      && decide (n ≤ A.length)
  | .polyline ctx A n => colorSupported ctx.obj.pencolor && decide (n ≤ A.length)
  | _ => true

/-- The escapers and the number conversions of a host write no `<` and no `>`. -/
def Ext.Clean (E : Ext) : Prop :=
  (∀ s : String, noAngle (E.xml_string s).data = true)
  ∧ (∀ s : String, noAngle (E.xml_url_string s).data = true)
  ∧ (∀ d : E.Double, noAngle (E.fmt_g d).data = true)
  ∧ (∀ d : E.Double, noAngle (E.fmt_2f d).data = true)

/-- Whether the last character read was a `/` (47), `b` telling it for the
characters before. -/
def slashAfter (b : Bool) (cs : List Char) : Bool :=
  cs.foldl (fun _ c => decide (c.toNat = 47)) b

/-- A piece of a text written by a callback: a literal of the code, or a string
computed from the input (an escaped string, a number, a colour). -/
inductive Piece where
  | lit (s : String)
  | data (s : String)

/-- The text made of pieces. -/
def piecesText : List Piece → String
  | [] => ""
  | .lit s :: ps => s ++ piecesText ps
  | .data s :: ps => s ++ piecesText ps

/-- The computed strings among the pieces have no `<` and `>`. -/
def piecesClean : List Piece → Bool
  | [] => true
  | .lit _ :: ps => piecesClean ps
  | .data s :: ps => noAngle s.data && piecesClean ps

/-- The reading of a computed string without `<` and `>`: the mode is kept. -/
def scanData (s : Mode × List Tag) (d : String) : Mode × List Tag :=
  match s with
  | (.text, ts) => (.text, ts)
  | (.other, ts) => (.other, ts)
  | (.attrs closing nm b, ts) => (.attrs closing nm (slashAfter b d.data), ts)
  | (.name closing acc, ts) => scan (.name closing acc, ts) d.data

/-- The reading of a text piece by piece. -/
def scanPieces : Mode × List Tag → List Piece → Mode × List Tag
  | s, [] => s
  | s, .lit l :: ps => scanPieces (scan s l.data) ps
  | s, .data d :: ps => scanPieces (scanData s d) ps

/-- The `text-anchor` attribute of a justification character. -/
def anchorText (just : Char) : String :=
  if just = 'l' then " text-anchor=\"start\""
  else if just = 'r' then " text-anchor=\"end\""
  else " text-anchor=\"middle\""

/-- A document of the concrete host: a graph with one page and one node, which holds
an anchor around an ellipse, a text and a comment. -/
def idoc : List (Event IntExt) :=
  [.begin_graph (ijob (iobj black red .PEN_SOLID)),
    .begin_page (ijob (iobj black red .PEN_SOLID)),
    .begin_node (ijob (iobj black red .PEN_SOLID)),
    .begin_anchor (ijob (iobj black red .PEN_SOLID)) (some "u") none none none,
    .ellipse (ijob (iobj black red .PEN_SOLID)) [ipt 1 2, ipt 3 4] true,
    .textpara (ijob (iobj black red .PEN_SOLID)) (ipt 1 2) ipara,
    .comment (ijob (iobj black red .PEN_SOLID)) "c",
    .end_anchor, .end_node, .end_page, .end_graph]

/-- The font attributes of a text block under a font-naming mode: the family of the
mode (the empty text stands for a missing SVG family), the SVG family after a comma
if there is one, and the weight, stretch and style that are present. -/
def fontText (fontnames : fontname_kind) (fontname : String)
    (postscript_alias : Option PostscriptAlias) : String :=
  match postscript_alias with
  | none => " font-family=\"" ++ fontname ++ "\""
  | some pA =>
    match fontnames with
    | .NATIVEFONTS =>
      " font-family=\"" ++ pA.family ++ optAttr "," pA.svg_font_family "" ++ "\""
        ++ optAttr " font-weight=\"" pA.weight "\""
        ++ optAttr " font-stretch=\"" pA.stretch "\""
        ++ optAttr " font-style=\"" pA.style "\""
    | .PSFONTS =>
      " font-family=\"" ++ pA.name ++ optAttr "," pA.svg_font_family "" ++ "\""
        ++ optAttr " font-weight=\"" pA.weight "\""
        ++ optAttr " font-stretch=\"" pA.stretch "\""
        ++ optAttr " font-style=\"" pA.style "\""
    | .SVGFONTS =>
      " font-family=\"" ++ pA.svg_font_family.getD "" ++ optAttr "," pA.svg_font_family ""
        ++ "\""
        ++ optAttr " font-weight=\"" pA.svg_font_weight "\""
        ++ optAttr " font-stretch=\"" pA.stretch "\""
        ++ optAttr " font-style=\"" pA.svg_font_style "\""

/-- The fill attribute of a text for a pen colour: none for a colour string equal to
`black` whatever the case of its letters, the string itself for another colour
string, and `#` and the hexadecimal digits of R, G and B for RGBA bytes. -/
def fillText (pencolor : gvcolor_t) : String :=
  match pencolor with
  | .COLOR_STRING s => if strcasecmp_ne s "black" then " fill=\"" ++ s ++ "\"" else ""
  | .RGBA_BYTE r g b _ => " fill=\"#" ++ fmt_02x r ++ fmt_02x g ++ fmt_02x b ++ "\""
  | .OTHER _ => ""

/-- The value of the `font-family` attribute of a text block: the plain font name
when there is no alias, and otherwise the family of the font-naming mode (the empty
text stands for a missing SVG family) followed, when the alias has an SVG family, by
a comma and that SVG family. -/
def familyValue (fontnames : fontname_kind) (fontname : String)
    (postscript_alias : Option PostscriptAlias) : String :=
  match postscript_alias with
  | none => fontname
  | some pA =>
    (match fontnames with
      | .PSFONTS => pA.name
      | .SVGFONTS => pA.svg_font_family.getD ""
      | .NATIVEFONTS => pA.family)
    ++ (match pA.svg_font_family with
      | some s => "," ++ s
      | none => "")

/-- The font attributes after `font-family`: the weight and the style of the
font-naming mode and the stretch of the alias, those that are present. -/
def otherFontAttrs (fontnames : fontname_kind)
    (postscript_alias : Option PostscriptAlias) : String :=
  match postscript_alias with
  | none => ""
  | some pA =>
    optAttr " font-weight=\""
      (match fontnames with
        | .PSFONTS => pA.weight
        | .SVGFONTS => pA.svg_font_weight
        | .NATIVEFONTS => pA.weight) "\""
    ++ optAttr " font-stretch=\"" pA.stretch "\""
    ++ optAttr " font-style=\""
      (match fontnames with
        | .PSFONTS => pA.style
        | .SVGFONTS => pA.svg_font_style
        | .NATIVEFONTS => pA.style) "\""

/-- An alias of the concrete host: the PostScript font `Times-Roman`, whose native
family is `Times` and whose SVG family is `serif`. -/
def ialias : PostscriptAlias :=
  { name := "Times-Roman", family := "Times", weight := none, stretch := none,
    style := none, svg_font_family := some "serif", svg_font_weight := none,
    svg_font_style := none }

/-! ## The known colours and the features of the renderer -/

/-- The table `svg_knowncolors`: the color names of the SVG types, in the order of
the source. -/
def svg_knowncolors : List String := [
    "aliceblue", "antiquewhite", "aqua", "aquamarine", "azure",
    "beige", "bisque", "black", "blanchedalmond", "blue",
    "blueviolet", "brown", "burlywood",
    "cadetblue", "chartreuse", "chocolate", "coral",
    "cornflowerblue", "cornsilk", "crimson", "cyan",
    "darkblue", "darkcyan", "darkgoldenrod", "darkgray",
    "darkgreen", "darkgrey", "darkkhaki", "darkmagenta",
    "darkolivegreen", "darkorange", "darkorchid", "darkred",
    "darksalmon", "darkseagreen", "darkslateblue", "darkslategray",
    "darkslategrey", "darkturquoise", "darkviolet", "deeppink",
    "deepskyblue", "dimgray", "dimgrey", "dodgerblue",
    "firebrick", "floralwhite", "forestgreen", "fuchsia",
    "gainsboro", "ghostwhite", "gold", "goldenrod", "gray",
    "green", "greenyellow", "grey",
    "honeydew", "hotpink", "indianred",
    "indigo", "ivory", "khaki",
    "lavender", "lavenderblush", "lawngreen", "lemonchiffon",
    "lightblue", "lightcoral", "lightcyan", "lightgoldenrodyellow",
    "lightgray", "lightgreen", "lightgrey", "lightpink",
    "lightsalmon", "lightseagreen", "lightskyblue",
    "lightslategray", "lightslategrey", "lightsteelblue",
    "lightyellow", "lime", "limegreen", "linen",
    "magenta", "maroon", "mediumaquamarine", "mediumblue",
    "mediumorchid", "mediumpurple", "mediumseagreen",
    "mediumslateblue", "mediumspringgreen", "mediumturquoise",
    "mediumvioletred", "midnightblue", "mintcream",
    "mistyrose", "moccasin",
    "navajowhite", "navy", "oldlace",
    "olive", "olivedrab", "orange", "orangered", "orchid",
    "palegoldenrod", "palegreen", "paleturquoise",
    "palevioletred", "papayawhip", "peachpuff", "peru", "pink",
    "plum", "powderblue", "purple",
    "red", "rosybrown", "royalblue",
    "saddlebrown", "salmon", "sandybrown", "seagreen", "seashell",
    "sienna", "silver", "skyblue", "slateblue", "slategray",
    "slategrey", "snow", "springgreen", "steelblue",
    "tan", "teal", "thistle", "tomato", "turquoise",
    "violet",
    "wheat", "white", "whitesmoke",
    "yellow", "yellowgreen"
  ]

/-- The flags of a renderer that `render_features_svg` sets. -/
inductive gvrender_flag where
  | GVRENDER_Y_GOES_DOWN
  | GVRENDER_DOES_TRANSFORM
  | GVRENDER_DOES_LABELS
  | GVRENDER_DOES_MAPS
  | GVRENDER_DOES_TARGETS
  | GVRENDER_DOES_TOOLTIPS
  deriving DecidableEq, Repr

/-- The tags of `color_type_t` this file names. -/
inductive color_type_t where
  | COLOR_STRING
  | RGBA_BYTE
  deriving DecidableEq, Repr

/-- The type `gvrender_features_t`, in the order of its initialiser in this file. -/
structure gvrender_features_t where
  flags : List gvrender_flag
  default_pad : Nat
  knowncolors : List String
  sz_knowncolors : Nat
  color_type : color_type_t

/-- The number of bytes of an array of `n` pointers of `sizeof_ptr` bytes each. -/
def sizeof_array (sizeof_ptr n : Nat) : Nat :=
  n * sizeof_ptr

/-- The descriptor `render_features_svg`; `sizeof_ptr` is `sizeof(char *)` on the
host. -/
def render_features_svg (sizeof_ptr : Nat) : gvrender_features_t :=
  { flags := [.GVRENDER_Y_GOES_DOWN, .GVRENDER_DOES_TRANSFORM, .GVRENDER_DOES_LABELS,
      .GVRENDER_DOES_MAPS, .GVRENDER_DOES_TARGETS, .GVRENDER_DOES_TOOLTIPS],
    default_pad := 4,
    knowncolors := svg_knowncolors,
    sz_knowncolors := sizeof_array sizeof_ptr svg_knowncolors.length / sizeof_ptr,
    color_type := .RGBA_BYTE }

/-- The function `strcmp` of the C library, as the sign of its result: the first
position where the two strings differ decides, and a proper prefix comes first. -/
def strcmp : List Char → List Char → Ordering
  | [], [] => .eq
  | [], _ :: _ => .lt
  | _ :: _, [] => .gt
  | a :: s1, b :: s2 =>
    if a.toNat < b.toNat then .lt
    else if b.toNat < a.toNat then .gt
    else strcmp s1 s2

/-- The test that each entry of a table comes before the next one under `strcmp`. -/
def increasing : List String → Bool
  | a :: b :: rest =>
    match strcmp a.data b.data with
    | .lt => increasing (b :: rest)
    | _ => false
  | _ => true

/-- Modelled from the spec: the lookup of the color layer, which is not part of this
file, is a binary search. This is its loop for `key` among the entries `lo`, ...,
`hi - 1` of a table of strings compared by `strcmp`; `fuel` bounds the number of
halvings. -/
def bsearch_loop (key : String) (base : List String) : Nat → Nat → Nat → Bool
  | 0, _, _ => false
  | fuel + 1, lo, hi =>
    if lo < hi then
      match base[(lo + hi) / 2]? with
      | none => false
      | some entry =>
        match strcmp key.data entry.data with
        | .lt => bsearch_loop key base fuel lo ((lo + hi) / 2)
        | .gt => bsearch_loop key base fuel ((lo + hi) / 2 + 1) hi
        | .eq => true
    else false

/-- Modelled from the spec: the lookup of the color layer, a binary search for `key`
in the first `nmemb` entries of a table. -/
def bsearch (key : String) (base : List String) (nmemb : Nat) : Bool :=
  bsearch_loop key base nmemb 0 nmemb

/-- The number of double-quote characters of a text. -/
def quotes (s : String) : Nat :=
  s.data.count (Char.ofNat 34)


/-- A document of the concrete host whose only shape has a pen colour string that
holds `>` and `<`: a graph around an unfilled ellipse. -/
def irawdoc : List (Event IntExt) :=
  [.begin_graph (ijob (iobj black red .PEN_SOLID)),
    .ellipse (ijob (iobj (.COLOR_STRING "x\"><g id=\"y") red .PEN_SOLID))
      [ipt 1 2, ipt 3 4] false,
    .end_graph]

/-! ## The attributes of a start tag -/

/-- Where a reader of a start tag stands: in the tag outside any value, with the
characters of the word read so far, inside a quoted value, or after the `>` that ends
the tag. -/
inductive AttrMode where
  | word (acc : List Char)
  | value
  | finished
deriving DecidableEq

/-- One character read by the reader of a start tag; `names` are the attribute names
met so far. Outside a value a double quote (34) opens a value and makes the word before
it (its `=` left out) an attribute name, a space or a newline starts a new word, and
`>` ends the tag; inside a value only a double quote is special: it closes the value. -/
def attrStep (s : AttrMode × List (List Char)) (c : Char) : AttrMode × List (List Char) :=
  match s with
  | (.word acc, names) =>
    if c = Char.ofNat 34 then (.value, names ++ [acc])
    else if c = Char.ofNat 62 then (.finished, names)
    else if c = Char.ofNat 32 then (.word [], names)
    else if c = Char.ofNat 10 then (.word [], names)
    else if c = Char.ofNat 61 then (.word acc, names)
    else (.word (acc ++ [c]), names)
  | (.value, names) =>
    if c = Char.ofNat 34 then (.word [], names) else (.value, names)
  | (.finished, names) => (.finished, names)

/-- The reader of a start tag over a run of characters. -/
def attrScan (s : AttrMode × List (List Char)) (cs : List Char) :
    AttrMode × List (List Char) :=
  cs.foldl attrStep s

/-- The names of the attributes of the first start tag of a text, in their order. -/
def attributes (t : String) : List (List Char) :=
  (attrScan (.word [], []) t.data).2

/-- The number of double quotes of a string that may be missing. -/
def optQuotes (s : Option String) : Nat :=
  match s with
  | some s => quotes s
  | none => 0

/-- The number of double quotes of the font name and the alias strings of a text
block. -/
def fontQuotes (fontname : String) (postscript_alias : Option PostscriptAlias) : Nat :=
  quotes fontname +
    (match postscript_alias with
      | some pA =>
        quotes pA.name + quotes pA.family + optQuotes pA.weight + optQuotes pA.stretch
          + optQuotes pA.style + optQuotes pA.svg_font_family
          + optQuotes pA.svg_font_weight + optQuotes pA.svg_font_style
      | none => 0)

/-- The number of double quotes of a colour string; none for the other colours. -/
def colorQuotes (c : gvcolor_t) : Nat :=
  match c with
  | .COLOR_STRING s => quotes s
  | _ => 0

/-- The name of an attribute that is written only when its value is present. -/
def optName (w : Option String) (nm : List Char) : List (List Char) :=
  match w with
  | some _ => [nm]
  | none => []

/-- The names of the font attributes after `font-family`: the weight and the style of
the font-naming mode and the stretch of the alias, those that are present. -/
def otherFontNames (fontnames : fontname_kind)
    (postscript_alias : Option PostscriptAlias) : List (List Char) :=
  match postscript_alias with
  | none => []
  | some pA =>
    optName
      (match fontnames with
        | .PSFONTS => pA.weight
        | .SVGFONTS => pA.svg_font_weight
        | .NATIVEFONTS => pA.weight) "font-weight".data
    ++ optName pA.stretch "font-stretch".data
    ++ optName
      (match fontnames with
        | .PSFONTS => pA.style
        | .SVGFONTS => pA.svg_font_style
        | .NATIVEFONTS => pA.style) "font-style".data

/-! ## Basic facts about the sink -/

set_option maxRecDepth 100000

theorem gvputs_gvputs {E : Ext} (job : GVJ_t E) (a b : String) :
    gvputs (gvputs job a) b = gvputs job (a ++ b) := by
  simp [gvputs, String.append_assoc]

theorem gvputs_empty {E : Ext} (job : GVJ_t E) : gvputs job "" = job := by
  simp [gvputs]

theorem gvputs_obj {E : Ext} (job : GVJ_t E) (a : String) : (gvputs job a).obj = job.obj :=
  rfl

@[simp]
theorem gvputs_fields {E : Ext} (job : GVJ_t E) (a : String) :
    (gvputs job a).info0 = job.info0 ∧ (gvputs job a).info1 = job.info1
    ∧ (gvputs job a).info2 = job.info2 ∧ (gvputs job a).user = job.user
    ∧ (gvputs job a).stylesheet = job.stylesheet
    ∧ (gvputs job a).fontnames = job.fontnames
    ∧ (gvputs job a).pagesArraySize_x = job.pagesArraySize_x
    ∧ (gvputs job a).pagesArraySize_y = job.pagesArraySize_y
    ∧ (gvputs job a).width = job.width ∧ (gvputs job a).height = job.height
    ∧ (gvputs job a).canvasBox = job.canvasBox ∧ (gvputs job a).scale = job.scale
    ∧ (gvputs job a).rotation = job.rotation
    ∧ (gvputs job a).translation = job.translation :=
  ⟨rfl, rfl, rfl, rfl, rfl, rfl, rfl, rfl, rfl, rfl, rfl, rfl, rfl, rfl⟩

theorem gvputs_out {E : Ext} (job : GVJ_t E) (a : String) :
    (gvputs job a).out = job.out ++ a :=
  rfl

theorem string_append_cancel (s a b : String) (h : s ++ a = s ++ b) : a = b := by
  have hd : (s ++ a).data = (s ++ b).data := by rw [h]
  simp only [String.data_append] at hd
  exact String.ext (List.append_cancel_left hd)

theorem gvputs_inj {E : Ext} (job : GVJ_t E) (a b : String)
    (h : gvputs job a = gvputs job b) : a = b := by
  have ho : (gvputs job a).out = (gvputs job b).out := by rw [h]
  exact string_append_cancel job.out a b ho

theorem ok_gvputs_congr {E : Ext} (job : GVJ_t E) (a b : String) (h : a.data = b.data) :
    Outcome.ok (gvputs job a) = Outcome.ok (gvputs job b) := by
  rw [String.ext h]

/-- The two digits `%02x` writes for a byte. -/
theorem fmt_02x_byte (v : Fin 256) :
    fmt_02x v = String.mk [digitChar (v / 16), digitChar (v % 16)] := by
  obtain ⟨n, hn⟩ := v
  show fmt_02x n = String.mk [digitChar (n / 16), digitChar (n % 16)]
  by_cases h : n < 16
  · have h0 : n / 16 = 0 := Nat.div_eq_of_lt h
    have h1 : n % 16 = n := Nat.mod_eq_of_lt h
    simp [fmt_02x, digits, digitsAux, h, h0, h1, digitChar, List.replicate]
  · obtain ⟨k, rfl⟩ : ∃ k, n = k + 1 := ⟨n - 1, by omega⟩
    have h2 : (k + 1) / 16 < 16 := by omega
    simp [fmt_02x, digits, digitsAux, h, h2]

/-- What the colour formatter writes does not depend on the job it writes to. -/
theorem svg_print_color_frame {E : Ext} (job job2 : GVJ_t E) (c : gvcolor_t) (F : String)
    (h : svg_print_color job c = .ok (gvputs job F)) :
    svg_print_color job2 c = .ok (gvputs job2 F) := by
  cases c with
  | COLOR_STRING s =>
    simp only [svg_print_color, Outcome.ok.injEq] at h ⊢
    rw [gvputs_inj job s F h]
  | RGBA_BYTE r g b a =>
    simp only [svg_print_color] at h ⊢
    split at h
    · next ha =>
      simp only [Outcome.ok.injEq] at h
      simp only [ha, if_true, Outcome.ok.injEq]
      rw [gvputs_inj job _ F h]
    · next ha =>
      simp only [Outcome.ok.injEq] at h
      simp only [ha, if_false, Outcome.ok.injEq]
      rw [gvputs_inj job _ F h]
  | OTHER t =>
    simp [svg_print_color] at h

/-! ## The colour formatter and the style composer -/

/-- C4: for every colour with a supported tag the colour formatter writes, for a
string colour, exactly the string, unescaped; for RGBA bytes with alpha 0 exactly
the four characters `none`; for RGBA bytes with another alpha exactly seven
characters, `#` and the two lowercase hexadecimal digits of each of R, G and B,
whatever that alpha is. -/
theorem svg_print_color_writes (E : Ext) (job : GVJ_t E) :
    (∀ s : String, svg_print_color job (.COLOR_STRING s) = .ok (gvputs job s)) ∧
    (∀ r g b : Fin 256,
      svg_print_color job (.RGBA_BYTE r g b 0) = .ok (gvputs job "none")
      ∧ "none".length = 4) ∧
    (∀ r g b a : Fin 256, a ≠ 0 →
      svg_print_color job (.RGBA_BYTE r g b a)
        = .ok (gvputs job (String.mk
            ['#', digitChar (r / 16), digitChar (r % 16), digitChar (g / 16),
              digitChar (g % 16), digitChar (b / 16), digitChar (b % 16)]))
      ∧ (String.mk
            ['#', digitChar (r / 16), digitChar (r % 16), digitChar (g / 16),
              digitChar (g % 16), digitChar (b / 16), digitChar (b % 16)]).length = 7
      ∧ (∀ d : Nat, d < 16 → digitChar d ∈ "0123456789abcdef".data)
      ∧ ∀ a2 : Fin 256, a2 ≠ 0 →
          svg_print_color job (.RGBA_BYTE r g b a2)
            = svg_print_color job (.RGBA_BYTE r g b a)) := by
  refine ⟨fun s => rfl, fun r g b => ⟨rfl, rfl⟩, fun r g b a ha => ⟨?_, rfl, ?_, ?_⟩⟩
  · simp only [svg_print_color, ha, if_false, fmt_02x_byte]
    rfl
  · intro d hd
    interval_cases d <;> decide
  · intro a2 ha2
    simp only [svg_print_color, ha, ha2, if_false]

/-- C4, at a concrete colour: the opaque colour (255, 0, 10, 7) is written as
`#ff000a`. -/
theorem svg_print_color_writes_witness :
    (7 : Fin 256) ≠ 0 ∧
    svg_print_color (ijob (iobj black red .PEN_SOLID)) (.RGBA_BYTE 255 0 10 7)
      = .ok (gvputs (ijob (iobj black red .PEN_SOLID)) "#ff000a") :=
  ⟨by decide,
    ((svg_print_color_writes IntExt (ijob (iobj black red .PEN_SOLID))).2.2
      255 0 10 7 (by decide)).1⟩

/-- What the style composer writes, from what the colour formatter writes for the
fill colour (or for a transparent colour when the shape is not filled) and for the
pen colour. -/
theorem svg_grstyle_eq {E : Ext} (job : GVJ_t E) (filled : Bool) (F P : String)
    (hF : svg_print_color job (if filled then job.obj.fillcolor else .RGBA_BYTE 0 0 0 0)
      = .ok (gvputs job F))
    (hP : svg_print_color job job.obj.pencolor = .ok (gvputs job P)) :
    svg_grstyle job filled
      = .ok (gvputs job
          (" fill=\"" ++ F ++ "\"" ++ " stroke=\"" ++ P ++ "\""
            ++ (if E.ne job.obj.penwidth E.PENWIDTH_NORMAL = true
                then " stroke-width=\"" ++ E.fmt_g job.obj.penwidth ++ "\"" else "")
            ++ (match job.obj.pen with
                | .PEN_DASHED => " stroke-dasharray=\"5,2\""
                | .PEN_DOTTED => " stroke-dasharray=\"1,5\""
                | .PEN_SOLID => ""))) := by
  have hfill : (if filled then svg_print_color (gvputs job " fill=\"") job.obj.fillcolor
      else Outcome.ok (gvputs (gvputs job " fill=\"") "none"))
      = .ok (gvputs (gvputs job " fill=\"") F) := by
    cases filled with
    | true =>
      simp only [if_true] at hF ⊢
      exact svg_print_color_frame job _ _ F hF
    | false =>
      have hF2 := svg_print_color_frame job (gvputs job " fill=\"") _ F hF
      simpa [svg_print_color] using hF2
  have hpen := svg_print_color_frame job (gvputs (gvputs (gvputs job " fill=\"") F)
    "\" stroke=\"") _ P hP
  unfold svg_grstyle
  simp only [gvputs_obj, hfill, Outcome.andThen, hpen]
  cases hw : E.ne job.obj.penwidth E.PENWIDTH_NORMAL <;> cases hp : job.obj.pen <;>
    simp only [gvputs_gvputs, sdasharray, sdotarray, if_true, if_false, reduceCtorEq,
      Bool.false_eq_true] <;>
    apply ok_gvputs_congr <;> simp

/-- C3: for every object state and every value of `filled`, the style composer
writes, in this order, ` fill="F"`, where F is what the colour formatter writes for
the fill colour when `filled` is set and `none` otherwise, ` stroke="P"`, where P is
what the colour formatter writes for the pen colour, ` stroke-width="w"` with the
pen width in `%g` form exactly when the pen width differs from the normal sentinel,
and ` stroke-dasharray="5,2"` exactly for a dashed pen, ` stroke-dasharray="1,5"`
exactly for a dotted pen and nothing for a solid pen. A filled shape whose fill
colour is RGBA with alpha 0 gets `fill="none"`, and the same text as when it is not
filled. -/
theorem svg_grstyle_writes (E : Ext) (job : GVJ_t E) (filled : Bool) (F P : String)
    (hF : filled = true → svg_print_color job job.obj.fillcolor = .ok (gvputs job F))
    (hN : filled = false → F = "none")
    (hP : svg_print_color job job.obj.pencolor = .ok (gvputs job P)) :
    svg_grstyle job filled
      = .ok (gvputs job
          (" fill=\"" ++ F ++ "\"" ++ " stroke=\"" ++ P ++ "\""
            ++ (if E.ne job.obj.penwidth E.PENWIDTH_NORMAL = true
                then " stroke-width=\"" ++ E.fmt_g job.obj.penwidth ++ "\"" else "")
            ++ (match job.obj.pen with
                | .PEN_DASHED => " stroke-dasharray=\"5,2\""
                | .PEN_DOTTED => " stroke-dasharray=\"1,5\""
                | .PEN_SOLID => "")))
    ∧ ∀ r g b : Fin 256, job.obj.fillcolor = .RGBA_BYTE r g b 0 →
        F = "none" ∧ svg_grstyle job true = svg_grstyle job false := by
  constructor
  · apply svg_grstyle_eq job filled F P _ hP
    cases filled with
    | true => simpa using hF rfl
    | false => simp [svg_print_color, hN rfl]
  · intro r g b hfill
    constructor
    · cases filled with
      | true =>
        have h := hF rfl
        rw [hfill] at h
        simp only [svg_print_color, if_true, Outcome.ok.injEq] at h
        exact (gvputs_inj job _ _ h).symm
      | false => exact hN rfl
    · simp [svg_grstyle, hfill, svg_print_color]

/-- C3, at a concrete state: a filled shape with a dashed black pen of width 2 and a
red fill. -/
theorem svg_grstyle_writes_witness :
    svg_grstyle
        (ijob { iobj black red .PEN_DASHED with penwidth := IntDouble.ofInt 2 }) true
      = .ok (gvputs (ijob { iobj black red .PEN_DASHED with penwidth := IntDouble.ofInt 2 })
          " fill=\"#ff0000\" stroke=\"#000000\" stroke-width=\"2\" stroke-dasharray=\"5,2\"") :=
  (svg_grstyle_writes IntExt
    (ijob { iobj black red .PEN_DASHED with penwidth := IntDouble.ofInt 2 }) true
    "#ff0000" "#000000" (fun _ => rfl) (fun h => by cases h) rfl).1

/-- The colour formatter either writes a text that depends on the colour only, on
every job, or faults on every job. -/
theorem svg_print_color_cases {E : Ext} (c : gvcolor_t) :
    (∃ F : String, ∀ j : GVJ_t E, svg_print_color j c = .ok (gvputs j F))
    ∨ (∀ j : GVJ_t E, svg_print_color j c = .fault j) := by
  cases c with
  | COLOR_STRING s => exact Or.inl ⟨s, fun _ => rfl⟩
  | RGBA_BYTE r g b a =>
    by_cases ha : a = 0
    · exact Or.inl ⟨"none", fun j => by simp [svg_print_color, ha]⟩
    · exact Or.inl ⟨"#" ++ fmt_02x r ++ fmt_02x g ++ fmt_02x b,
        fun j => by simp [svg_print_color, ha]⟩
  | OTHER t => exact Or.inr fun _ => rfl

/-- When the style composer runs to its end, both colours it consults are written
by the colour formatter and its text is built from what the formatter writes. -/
theorem svg_grstyle_inv {E : Ext} (job : GVJ_t E) (filled : Bool) (S : String)
    (h : svg_grstyle job filled = .ok (gvputs job S)) :
    ∃ F P : String,
      (∀ j : GVJ_t E, svg_print_color j
        (if filled then job.obj.fillcolor else .RGBA_BYTE 0 0 0 0) = .ok (gvputs j F))
      ∧ (∀ j : GVJ_t E, svg_print_color j job.obj.pencolor = .ok (gvputs j P))
      ∧ S = " fill=\"" ++ F ++ "\"" ++ " stroke=\"" ++ P ++ "\""
            ++ (if E.ne job.obj.penwidth E.PENWIDTH_NORMAL = true
                then " stroke-width=\"" ++ E.fmt_g job.obj.penwidth ++ "\"" else "")
            ++ (match job.obj.pen with
                | .PEN_DASHED => " stroke-dasharray=\"5,2\""
                | .PEN_DOTTED => " stroke-dasharray=\"1,5\""
                | .PEN_SOLID => "") := by
  rcases svg_print_color_cases (E := E)
      (if filled then job.obj.fillcolor else .RGBA_BYTE 0 0 0 0) with ⟨F, hF⟩ | hF
  · rcases svg_print_color_cases (E := E) job.obj.pencolor with ⟨P, hP⟩ | hP
    · refine ⟨F, P, hF, hP, ?_⟩
      have h2 := svg_grstyle_eq job filled F P (hF job) (hP job)
      rw [h2] at h
      simp only [Outcome.ok.injEq] at h
      exact (gvputs_inj job _ _ h).symm
    · exfalso
      unfold svg_grstyle at h
      cases filled with
      | true =>
        simp only [if_true] at hF
        simp [gvputs_obj, hF, hP, Outcome.andThen] at h
      | false =>
        simp [gvputs_obj, hP, Outcome.andThen] at h
  · exfalso
    cases filled with
    | true =>
      simp only [if_true] at hF
      unfold svg_grstyle at h
      simp [gvputs_obj, hF, Outcome.andThen] at h
    | false =>
      have := hF job
      simp [svg_print_color] at this

/-- What the style composer writes does not depend on the sink it writes to. -/
theorem svg_grstyle_frame {E : Ext} (job job2 : GVJ_t E) (hobj : job2.obj = job.obj)
    (filled : Bool) (S : String) (h : svg_grstyle job filled = .ok (gvputs job S)) :
    svg_grstyle job2 filled = .ok (gvputs job2 S) := by
  obtain ⟨F, P, hF, hP, hS⟩ := svg_grstyle_inv job filled S h
  have h2 := svg_grstyle_eq job2 filled F P (by rw [hobj]; exact hF job2)
    (by rw [hobj]; exact hP job2)
  rw [h2, hS, hobj]

/-- The points loop writes the pairs it visits, each followed by one space. -/
theorem svg_points_loop_eq {E : Ext} (A : List (pointf E)) (k : Nat) :
    ∀ (i : Nat) (job : GVJ_t E), i + k ≤ A.length →
      svg_points_loop A k i job
        = .ok (gvputs job (coordsThenSpace ((A.drop i).take k))) := by
  induction k with
  | zero =>
    intro i job _
    simp [svg_points_loop, coordsThenSpace, gvputs_empty]
  | succ k ih =>
    intro i job hik
    have hi : i < A.length := by omega
    have hd : A.drop i = A[i] :: A.drop (i + 1) := List.drop_eq_getElem_cons hi
    rw [svg_points_loop, List.getElem?_eq_getElem hi]
    simp only []
    rw [ih (i + 1) _ (by omega), hd, List.take_succ_cons, coordsThenSpace, gvputs_gvputs]
    apply ok_gvputs_congr
    simp [coord]

/-- The path loop writes the first point it visits after the command character and
the further ones after a space each. -/
theorem svg_bzptarray_loop_eq {E : Ext} (A : List (pointf E)) (k : Nat) :
    ∀ (i : Nat) (c : Char) (job : GVJ_t E), 0 < i → i + k ≤ A.length →
      svg_bzptarray_loop A k i c job
        = .ok (gvputs job (commandThenCoords c ((A.drop i).take k))) := by
  induction k with
  | zero =>
    intro i c job _ _
    simp [svg_bzptarray_loop, commandThenCoords, gvputs_empty]
  | succ k ih =>
    intro i c job hi0 hik
    have hi : i < A.length := by omega
    have hd : A.drop i = A[i] :: A.drop (i + 1) := List.drop_eq_getElem_cons hi
    have hne : ¬ i = 0 := by omega
    rw [svg_bzptarray_loop, List.getElem?_eq_getElem hi]
    simp only [hne, if_false]
    rw [ih (i + 1) _ _ (by omega) (by omega), hd, List.take_succ_cons, commandThenCoords,
      gvputs_gvputs]
    apply ok_gvputs_congr
    cases hr : (A.drop (i + 1)).take k with
    | nil => simp [commandThenCoords, spaceThenCoords, coord]
    | cons Q Qs => simp [commandThenCoords, spaceThenCoords, coord, String.singleton]

/-! ## The shape emitters -/

theorem intercalate_go_eq (s : String) (l : List String) :
    ∀ acc : String, String.intercalate.go acc s l = acc ++ sepThenTexts s l := by
  induction l with
  | nil => intro acc; simp [String.intercalate.go, sepThenTexts]
  | cons a l ih =>
    intro acc
    rw [String.intercalate.go, ih, sepThenTexts]
    simp [String.append_assoc]

theorem sepThenTexts_coords {E : Ext} (Ps : List (pointf E)) (Q : pointf E) :
    sepThenTexts " " ((Ps ++ [Q]).map coord) = " " ++ (coordsThenSpace Ps ++ coord Q) := by
  induction Ps with
  | nil => simp [sepThenTexts, coordsThenSpace]
  | cons P Ps ih =>
    rw [List.cons_append, List.map_cons, sepThenTexts, ih, coordsThenSpace]
    simp only [String.append_assoc]

/-- The pairs of the points, each followed by a space, and then the first pair again
are the pairs of the points and of the first point, separated by single spaces. -/
theorem coords_closed_eq {E : Ext} (P : pointf E) (Ps : List (pointf E)) :
    coordsThenSpace (P :: Ps) ++ coord P
      = String.intercalate " " (((P :: Ps) ++ (P :: Ps).take 1).map coord) := by
  simp only [List.take_succ_cons, List.take_zero, List.cons_append, List.map_cons,
    String.intercalate, intercalate_go_eq, sepThenTexts_coords, coordsThenSpace]
  simp [String.append_assoc]

/-- C5: for every array of `n ≥ 1` points and every style state in which the style
composer writes the text S, `svg_polygon` writes `<polygon`, S, ` points="`, the
coordinate pairs of the `n` points followed by the pair of the first point again,
separated by single spaces, and `"/>` (and a newline): `n + 1` pairs, the pair `i`
being `A[i].x`, a comma and the negated `A[i].y`, the last one equal to the first. -/
theorem svg_polygon_writes (E : Ext) (job : GVJ_t E) (A : List (pointf E)) (n : Nat)
    (filled : Bool) (S : String) (hn : A.length = n) (h1 : 1 ≤ n)
    (hS : svg_grstyle job filled = .ok (gvputs job S)) :
    svg_polygon job A n filled
      = .ok (gvputs job ("<polygon" ++ S ++ " points=\""
          ++ String.intercalate " " ((A ++ A.take 1).map coord) ++ "\"/>" ++ "\n"))
    ∧ ((A ++ A.take 1).map coord).length = n + 1
    ∧ (∀ (i : Nat) (hi : i < A.length),
        ((A ++ A.take 1).map coord)[i]?
          = some (E.fmt_g A[i].x ++ "," ++ E.fmt_g (E.neg A[i].y)))
    ∧ ((A ++ A.take 1).map coord)[n]? = ((A ++ A.take 1).map coord)[0]? := by
  cases A with
  | nil => simp at hn; omega
  | cons P Ps =>
    refine ⟨?_, ?_, ?_, ?_⟩
    · have hg := svg_grstyle_frame job (gvputs job "<polygon") rfl filled S hS
      have hl := svg_points_loop_eq (P :: Ps) n 0
        (gvputs (gvputs (gvputs job "<polygon") S) " points=\"") (by omega)
      rw [← coords_closed_eq]
      unfold svg_polygon
      simp only [hg, Outcome.andThen, hl]
      simp only [List.drop_zero, ← hn, List.take_length, List.getElem?_cons_zero,
        gvputs_gvputs]
      apply ok_gvputs_congr
      simp [coord]
    · simp [← hn]
    · intro i hi
      rw [List.getElem?_map, List.getElem?_append_left hi, List.getElem?_eq_getElem hi]
      rfl
    · subst hn
      simp [List.getElem?_append_right]

/-- C5, at a concrete input: a filled red triangle with a solid black pen. -/
theorem svg_polygon_writes_witness :
    1 ≤ 3 ∧
    svg_polygon (ijob (iobj black red .PEN_SOLID)) [ipt 1 1, ipt 10 2, ipt 5 (-7)] 3 true
      = .ok (gvputs (ijob (iobj black red .PEN_SOLID))
          "<polygon fill=\"#ff0000\" stroke=\"#000000\" points=\"1,-1 10,-2 5,7 1,-1\"/>\n") :=
  ⟨by decide,
    (svg_polygon_writes IntExt (ijob (iobj black red .PEN_SOLID))
      [ipt 1 1, ipt 10 2, ipt 5 (-7)] 3 true " fill=\"#ff0000\" stroke=\"#000000\""
      rfl (by decide) rfl).1⟩

/-- The path function writes the path data of the points. -/
theorem svg_bzptarray_eq {E : Ext} (job : GVJ_t E) (A : List (pointf E)) :
    svg_bzptarray job A A.length = .ok (gvputs job (pathData A)) := by
  cases A with
  | nil => simp [svg_bzptarray, svg_bzptarray_loop, pathData, gvputs_empty]
  | cons P Ps =>
    have hl := svg_bzptarray_loop_eq (P :: Ps) Ps.length 1 'C'
      (gvputs job (String.singleton 'M' ++ E.fmt_g P.x ++ "," ++ E.fmt_g (E.neg P.y)))
      (by omega) (by simp; omega)
    simp only [svg_bzptarray, List.length_cons, svg_bzptarray_loop, List.getElem?_cons_zero,
      if_true, Nat.zero_add, hl, gvputs_gvputs, List.drop_succ_cons, List.drop_zero,
      List.take_length, pathData]
    apply ok_gvputs_congr
    simp [coord, String.singleton]

/-- C6 (amended): for every array of `n` control points and every style state in
which the style composer writes the text S, `svg_bezier` writes `<path`, S, ` d="`,
the path data and `"/>` (and a newline), the path data being `M` and the first pair,
`C` and the second pair, and every further pair after a single space, every Y
negated; the arrow arguments have no effect. For the four points (0,0), (1,2),
(3,2), (4,0) the attribute is `d="M0,-0C1,-2 3,-2 4,-0"`: the negated zero is
written as `-0`. -/
theorem svg_bezier_writes (E : Ext) (job : GVJ_t E) (A : List (pointf E)) (n : Nat)
    (arrow_at_start arrow_at_end : Int) (filled : Bool) (S : String)
    (hn : A.length = n) (hS : svg_grstyle job filled = .ok (gvputs job S)) :
    svg_bezier job A n arrow_at_start arrow_at_end filled
      = .ok (gvputs job ("<path" ++ S ++ " d=\"" ++ pathData A ++ "\"/>" ++ "\n"))
    ∧ (∀ s e : Int, svg_bezier job A n s e filled
        = svg_bezier job A n arrow_at_start arrow_at_end filled)
    ∧ (svg_bezier (ijob (iobj black red .PEN_SOLID))
          [ipt 0 0, ipt 1 2, ipt 3 2, ipt 4 0] 4 0 0 false).written
        = some "<path fill=\"none\" stroke=\"#000000\" d=\"M0,-0C1,-2 3,-2 4,-0\"/>\n" := by
  refine ⟨?_, fun _ _ => rfl, rfl⟩
  have hg := svg_grstyle_frame job (gvputs job "<path") rfl filled S hS
  subst hn
  unfold svg_bezier
  simp only [hg, Outcome.andThen, svg_bzptarray_eq]
  simp only [gvputs_gvputs]
  apply ok_gvputs_congr
  simp

/-- C6 (amended), at a concrete input: a curve of four points with a dotted pen. -/
theorem svg_bezier_writes_witness :
    svg_bezier (ijob (iobj black red .PEN_DOTTED))
        [ipt 1 1, ipt 2 3, ipt 4 3, ipt 5 1] 4 1 1 false
      = .ok (gvputs (ijob (iobj black red .PEN_DOTTED))
          ("<path fill=\"none\" stroke=\"#000000\" stroke-dasharray=\"1,5\""
            ++ " d=\"M1,-1C2,-3 4,-3 5,-1\"/>\n")) :=
  (svg_bezier_writes IntExt (ijob (iobj black red .PEN_DOTTED))
    [ipt 1 1, ipt 2 3, ipt 4 3, ipt 5 1] 4 1 1 false
    " fill=\"none\" stroke=\"#000000\" stroke-dasharray=\"1,5\"" rfl rfl).1

/-- C6, the example of the claim fails: for the points (0,0), (1,2), (3,2), (4,0)
the text written does not contain `d="M0,0C1,-2 3,-2 4,0"`. -/
theorem svg_bezier_example_fails :
    (svg_bezier (ijob (iobj black red .PEN_SOLID))
        [ipt 0 0, ipt 1 2, ipt 3 2, ipt 4 0] 4 0 0 false).written
      = some "<path fill=\"none\" stroke=\"#000000\" d=\"M0,-0C1,-2 3,-2 4,-0\"/>\n"
    ∧ ¬ ("d=\"M0,0C1,-2 3,-2 4,0\"".data
          <:+: "<path fill=\"none\" stroke=\"#000000\" d=\"M0,-0C1,-2 3,-2 4,-0\"/>\n".data) := by
  refine ⟨rfl, ?_⟩
  decide

/-- C7 (amended): for every array of `n` points and every style state, `svg_polyline`
writes `<polyline`, the style composed with `filled` false (S, which starts with
` fill="none"` whatever the fill colour is), ` points="`, the pair of each point in
input order followed by one space, also after the last, and `"/>` (and a newline);
the first point is not repeated. For a dashed black pen and the points (0,0),
(10,10), (20,0) the element is `<polyline fill="none" stroke="#000000"
stroke-dasharray="5,2" points="0,-0 10,-10 20,-0 "/>`: the negated zero is written
as `-0`. -/
theorem svg_polyline_writes (E : Ext) (job : GVJ_t E) (A : List (pointf E)) (n : Nat)
    (S : String) (hn : A.length = n) (hS : svg_grstyle job false = .ok (gvputs job S)) :
    svg_polyline job A n
      = .ok (gvputs job ("<polyline" ++ S ++ " points=\"" ++ coordsThenSpace A
          ++ "\"/>" ++ "\n"))
    ∧ (∃ rest : String, S = " fill=\"none\"" ++ rest)
    ∧ (∀ c : gvcolor_t,
        svg_grstyle { job with obj := { job.obj with fillcolor := c } } false
          = .ok (gvputs { job with obj := { job.obj with fillcolor := c } } S))
    ∧ (svg_polyline (ijob (iobj black red .PEN_DASHED))
          [ipt 0 0, ipt 10 10, ipt 20 0] 3).written
        = some ("<polyline fill=\"none\" stroke=\"#000000\" stroke-dasharray=\"5,2\""
            ++ " points=\"0,-0 10,-10 20,-0 \"/>\n") := by
  obtain ⟨F, P, hF, hP, hSeq⟩ := svg_grstyle_inv job false S hS
  have hFn : F = "none" := by
    have h := hF job
    simp only [Bool.false_eq_true, if_false, svg_print_color, if_true,
      Outcome.ok.injEq] at h
    exact (gvputs_inj job _ _ h).symm
  refine ⟨?_, ?_, ?_, rfl⟩
  · have hg := svg_grstyle_frame job (gvputs job "<polyline") rfl false S hS
    have hl := svg_points_loop_eq A n 0
      (gvputs (gvputs (gvputs job "<polyline") S) " points=\"") (by omega)
    subst hn
    unfold svg_polyline
    simp only [hg, Outcome.andThen, hl]
    simp only [List.drop_zero, List.take_length, gvputs_gvputs]
    apply ok_gvputs_congr
    simp
  · refine ⟨" stroke=\"" ++ P ++ "\""
      ++ (if E.ne job.obj.penwidth E.PENWIDTH_NORMAL = true
          then " stroke-width=\"" ++ E.fmt_g job.obj.penwidth ++ "\"" else "")
      ++ (match job.obj.pen with
          | .PEN_DASHED => " stroke-dasharray=\"5,2\""
          | .PEN_DOTTED => " stroke-dasharray=\"1,5\""
          | .PEN_SOLID => ""), ?_⟩
    rw [hSeq, hFn]
    apply String.ext
    simp
  · intro c
    have h2 := svg_grstyle_eq { job with obj := { job.obj with fillcolor := c } } false
      F P (hF _) (hP _)
    rw [h2, hSeq]

/-- C7 (amended), at a concrete input: three points with a dotted black pen. -/
theorem svg_polyline_writes_witness :
    svg_polyline (ijob (iobj black red .PEN_DOTTED)) [ipt 1 1, ipt 10 10, ipt 20 1] 3
      = .ok (gvputs (ijob (iobj black red .PEN_DOTTED))
          ("<polyline fill=\"none\" stroke=\"#000000\" stroke-dasharray=\"1,5\""
            ++ " points=\"1,-1 10,-10 20,-1 \"/>\n")) :=
  (svg_polyline_writes IntExt (ijob (iobj black red .PEN_DOTTED))
    [ipt 1 1, ipt 10 10, ipt 20 1] 3
    " fill=\"none\" stroke=\"#000000\" stroke-dasharray=\"1,5\"" rfl rfl).1

/-- C7, the example of the claim fails: for a dashed black pen and the points (0,0),
(10,10), (20,0) the text written does not contain the element of the claim. -/
theorem svg_polyline_example_fails :
    (svg_polyline (ijob (iobj black red .PEN_DASHED))
        [ipt 0 0, ipt 10 10, ipt 20 0] 3).written
      = some ("<polyline fill=\"none\" stroke=\"#000000\" stroke-dasharray=\"5,2\""
          ++ " points=\"0,-0 10,-10 20,-0 \"/>\n")
    ∧ ¬ (("<polyline fill=\"none\" stroke=\"#000000\" stroke-dasharray=\"5,2\""
            ++ " points=\"0,0 10,-10 20,0 \"/>").data
          <:+: ("<polyline fill=\"none\" stroke=\"#000000\" stroke-dasharray=\"5,2\""
            ++ " points=\"0,-0 10,-10 20,-0 \"/>\n").data) := by
  refine ⟨rfl, ?_⟩
  decide

/-- C8: for every centre `A[0]`, corner `A[1]` and style state in which the style
composer writes the text S, `svg_ellipse` writes `<ellipse`, S, ` cx="x0" cy="-y0"
rx="x1-x0" ry="y1-y0"/>` (and a newline): the centre Y is negated and the radii are
the differences of the coordinates as given. For the centre (10,20), the corner
(30,40), a solid black pen of normal width and the fill (255,0,0,255) with `filled`
set the element is `<ellipse fill="#ff0000" stroke="#000000" cx="10" cy="-20"
rx="20" ry="20"/>`. -/
theorem svg_ellipse_writes (E : Ext) (job : GVJ_t E) (A : List (pointf E))
    (A0 A1 : pointf E) (filled : Bool) (S : String)
    (h0 : A[0]? = some A0) (h1 : A[1]? = some A1)
    (hS : svg_grstyle job filled = .ok (gvputs job S)) :
    svg_ellipse job A filled
      = .ok (gvputs job ("<ellipse" ++ S
          ++ " cx=\"" ++ E.fmt_g A0.x ++ "\" cy=\"" ++ E.fmt_g (E.neg A0.y)
          ++ "\" rx=\"" ++ E.fmt_g (E.sub A1.x A0.x)
          ++ "\" ry=\"" ++ E.fmt_g (E.sub A1.y A0.y) ++ "\"/>" ++ "\n"))
    ∧ (svg_ellipse (ijob (iobj black red .PEN_SOLID)) [ipt 10 20, ipt 30 40] true).written
        = some ("<ellipse fill=\"#ff0000\" stroke=\"#000000\" cx=\"10\" cy=\"-20\""
            ++ " rx=\"20\" ry=\"20\"/>" ++ "\n") := by
  refine ⟨?_, rfl⟩
  have hg := svg_grstyle_frame job (gvputs job "<ellipse") rfl filled S hS
  unfold svg_ellipse
  simp only [hg, Outcome.andThen, h0, h1]
  simp only [gvputs_gvputs]
  apply ok_gvputs_congr
  simp

/-- C8, at a concrete input: an unfilled ellipse with a dashed pen. -/
theorem svg_ellipse_writes_witness :
    svg_ellipse (ijob (iobj black red .PEN_DASHED)) [ipt 5 6, ipt 8 10] false
      = .ok (gvputs (ijob (iobj black red .PEN_DASHED))
          ("<ellipse fill=\"none\" stroke=\"#000000\" stroke-dasharray=\"5,2\""
            ++ " cx=\"5\" cy=\"-6\" rx=\"3\" ry=\"4\"/>\n")) :=
  (svg_ellipse_writes IntExt (ijob (iobj black red .PEN_DASHED)) [ipt 5 6, ipt 8 10]
    (ipt 5 6) (ipt 8 10) false " fill=\"none\" stroke=\"#000000\" stroke-dasharray=\"5,2\""
    rfl rfl rfl).1

theorem IntDouble.toInt_neg (b : IntDouble) : b.neg.toInt = -b.toInt := by
  cases b with
  | mk s m => cases s <;> simp [IntDouble.neg, IntDouble.toInt]

/-- The difference of a whole double from a smaller one is written with a minus sign. -/
theorem IntDouble.fmt_g_sub_lt (a b : IntDouble) (h : a.toInt < b.toInt) :
    (IntDouble.fmt_g (IntDouble.sub a b)).data.head? = some '-' := by
  have hz : ¬ a.toInt + b.neg.toInt = 0 := by rw [IntDouble.toInt_neg]; omega
  have hlt : a.toInt + b.neg.toInt < 0 := by rw [IntDouble.toInt_neg]; omega
  simp [IntDouble.fmt_g, IntDouble.sub, IntDouble.add, hz, hlt]

/-- C9 (amended): for every centre `A[0]` and corner `A[1]`, the rx and ry values
written are the differences `A[1].x - A[0].x` and `A[1].y - A[0].y` themselves, in
`%g` form, not their magnitudes: on whole coordinates, a corner to the left of the
centre gives an rx, and a corner below the centre an ry, that starts with a minus
sign. -/
theorem svg_ellipse_radii_signed (E : Ext) (job : GVJ_t E) (A : List (pointf E))
    (A0 A1 : pointf E) (filled : Bool) (S : String)
    (h0 : A[0]? = some A0) (h1 : A[1]? = some A1)
    (hS : svg_grstyle job filled = .ok (gvputs job S)) :
    (∃ before : String, svg_ellipse job A filled
      = .ok (gvputs job (before ++ " rx=\"" ++ E.fmt_g (E.sub A1.x A0.x)
          ++ "\" ry=\"" ++ E.fmt_g (E.sub A1.y A0.y) ++ "\"/>" ++ "\n")))
    ∧ (∀ C K : pointf IntExt, IntDouble.toInt K.x < IntDouble.toInt C.x →
        (IntExt.fmt_g (IntExt.sub K.x C.x)).data.head? = some '-')
    ∧ (∀ C K : pointf IntExt, IntDouble.toInt K.y < IntDouble.toInt C.y →
        (IntExt.fmt_g (IntExt.sub K.y C.y)).data.head? = some '-') := by
  refine ⟨⟨"<ellipse" ++ S ++ " cx=\"" ++ E.fmt_g A0.x ++ "\" cy=\""
    ++ E.fmt_g (E.neg A0.y) ++ "\"", ?_⟩,
    fun C K h => IntDouble.fmt_g_sub_lt K.x C.x h,
    fun C K h => IntDouble.fmt_g_sub_lt K.y C.y h⟩
  have hg := svg_grstyle_frame job (gvputs job "<ellipse") rfl filled S hS
  unfold svg_ellipse
  simp only [hg, Outcome.andThen, h0, h1]
  simp only [gvputs_gvputs]
  apply ok_gvputs_congr
  simp

/-- C9 (amended), at a concrete input: the corner (1,2) of the centre (4,6). -/
theorem svg_ellipse_radii_signed_witness :
    (∃ before : String,
      svg_ellipse (ijob (iobj black red .PEN_SOLID)) [ipt 4 6, ipt 1 2] true
        = .ok (gvputs (ijob (iobj black red .PEN_SOLID))
            (before ++ " rx=\"" ++ "-3" ++ "\" ry=\"" ++ "-4" ++ "\"/>" ++ "\n"))) :=
  (svg_ellipse_radii_signed IntExt (ijob (iobj black red .PEN_SOLID)) [ipt 4 6, ipt 1 2]
    (ipt 4 6) (ipt 1 2) true " fill=\"#ff0000\" stroke=\"#000000\"" rfl rfl rfl).1

/-- C9, the claim fails: for the centre (30,40) and the corner (10,20) the values
written are `rx="-20"` and `ry="-20"`, not the magnitudes. -/
theorem svg_ellipse_radii_negative :
    (svg_ellipse (ijob (iobj black red .PEN_SOLID)) [ipt 30 40, ipt 10 20] true).written
      = some ("<ellipse fill=\"#ff0000\" stroke=\"#000000\" cx=\"30\" cy=\"-40\""
          ++ " rx=\"-20\" ry=\"-20\"/>\n")
    ∧ (svg_ellipse (ijob (iobj black red .PEN_SOLID)) [ipt 30 40, ipt 10 20] true).written
      ≠ some ("<ellipse fill=\"#ff0000\" stroke=\"#000000\" cx=\"30\" cy=\"-40\""
          ++ " rx=\"20\" ry=\"20\"/>\n") := by
  refine ⟨rfl, ?_⟩
  decide

/-! ## The text emitter -/

theorem gvprintf_if_eq {E : Ext} (job : GVJ_t E) (before : String) (s : Option String)
    (after : String) :
    gvprintf_if job before s after = gvputs job (optAttr before s after) := by
  cases s <;> simp [gvprintf_if, optAttr, gvputs_empty]

/-- The font attributes are written, with a text that depends on the font-naming
mode and the text block only, when the family chosen is not the null pointer. -/
theorem svg_textpara_font_ok {E : Ext} (fontnames : fontname_kind) (para : textpara_t E)
    (hfam : ∀ pA : PostscriptAlias, para.postscript_alias = some pA →
      fontnames = .SVGFONTS → pA.svg_font_family ≠ none) :
    ∃ font : String, ∀ j : GVJ_t E, j.fontnames = fontnames →
      svg_textpara_font j para = .ok (gvputs j font) := by
  cases hpa : para.postscript_alias with
  | none =>
    exact ⟨" font-family=\"" ++ para.fontname ++ "\"",
      fun j _ => by simp only [svg_textpara_font, hpa]⟩
  | some pA =>
    cases hfn : fontnames with
    | NATIVEFONTS =>
      refine ⟨" font-family=\"" ++ pA.family ++ optAttr "," pA.svg_font_family "" ++ "\""
        ++ optAttr " font-weight=\"" pA.weight "\""
        ++ optAttr " font-stretch=\"" pA.stretch "\""
        ++ optAttr " font-style=\"" pA.style "\"", fun j hj => ?_⟩
      simp only [svg_textpara_font, hpa, hj, gvprintf_s, Outcome.andThen, gvprintf_if_eq,
        gvputs_gvputs]
      apply ok_gvputs_congr
      simp
    | PSFONTS =>
      refine ⟨" font-family=\"" ++ pA.name ++ optAttr "," pA.svg_font_family "" ++ "\""
        ++ optAttr " font-weight=\"" pA.weight "\""
        ++ optAttr " font-stretch=\"" pA.stretch "\""
        ++ optAttr " font-style=\"" pA.style "\"", fun j hj => ?_⟩
      simp only [svg_textpara_font, hpa, hj, gvprintf_s, Outcome.andThen, gvprintf_if_eq,
        gvputs_gvputs]
      apply ok_gvputs_congr
      simp
    | SVGFONTS =>
      cases hsv : pA.svg_font_family with
      | none => exact absurd hsv (hfam pA hpa hfn)
      | some fam =>
        refine ⟨" font-family=\"" ++ fam ++ optAttr "," (some fam) "" ++ "\""
          ++ optAttr " font-weight=\"" pA.svg_font_weight "\""
          ++ optAttr " font-stretch=\"" pA.stretch "\""
          ++ optAttr " font-style=\"" pA.svg_font_style "\"", fun j hj => ?_⟩
        simp only [svg_textpara_font, hpa, hj, hsv, gvprintf_s, Outcome.andThen,
          gvprintf_if_eq, gvputs_gvputs]
        apply ok_gvputs_congr
        simp

/-- The fill attribute is written, with a text that depends on the pen colour only,
when the pen colour is a string or RGBA bytes. -/
theorem svg_textpara_fill_ok {E : Ext} (obj : obj_state_t E)
    (hcol : ∀ t : Nat, obj.pencolor ≠ .OTHER t) :
    ∃ fill : String, ∀ j : GVJ_t E, j.obj = obj →
      svg_textpara_fill j = .ok (gvputs j fill) := by
  cases hc : obj.pencolor with
  | COLOR_STRING s =>
    cases hb : strcasecmp_ne s "black" with
    | true =>
      exact ⟨" fill=\"" ++ s ++ "\"", fun j hj => by
        simp only [svg_textpara_fill, hj, hc, hb, if_true]⟩
    | false =>
      exact ⟨"", fun j hj => by
        simp [svg_textpara_fill, hj, hc, hb, gvputs_empty]⟩
  | RGBA_BYTE r g b a =>
    exact ⟨" fill=\"#" ++ fmt_02x r ++ fmt_02x g ++ fmt_02x b ++ "\"", fun j hj => by
      simp only [svg_textpara_fill, hj, hc]⟩
  | OTHER t => exact absurd hc (hcol t)

/-- The text emitter from the font attributes on, given what the font block and the
fill block write. -/
theorem svg_textpara_tail {E : Ext} (job : GVJ_t E) (para : textpara_t E)
    (font fill : String)
    (hfont : ∀ j : GVJ_t E, j.fontnames = job.fontnames →
      svg_textpara_font j para = .ok (gvputs j font))
    (hfill : ∀ j : GVJ_t E, j.obj = job.obj → svg_textpara_fill j = .ok (gvputs j fill)) :
    ∀ j0 : GVJ_t E, j0.fontnames = job.fontnames → j0.obj = job.obj →
      ((svg_textpara_font j0 para).andThen fun job =>
        (svg_textpara_fill
          (gvputs job (" font-size=\"" ++ E.fmt_2f para.fontsize ++ "\""))).andThen
        fun job => Outcome.ok
          (gvputs (gvputs (gvputs job ">") (E.xml_string para.str)) "</text>\n"))
      = .ok (gvputs j0 (font ++ " font-size=\"" ++ E.fmt_2f para.fontsize ++ "\"" ++ fill
          ++ ">" ++ E.xml_string para.str ++ "</text>" ++ "\n")) := by
  intro j0 h1 h2
  rw [hfont j0 h1]
  simp only [Outcome.andThen]
  rw [hfill (gvputs (gvputs j0 font)
    (" font-size=\"" ++ E.fmt_2f para.fontsize ++ "\"")) h2]
  simp only [gvputs_gvputs]
  apply ok_gvputs_congr
  simp

/-- C10: for every position and text block (the pen colour being a string or RGBA
bytes and the font family chosen not the null pointer), `svg_textpara` writes
`<text text-anchor="A" x="px" y="Y"`, where A is `start` for the justification `l`,
`end` for `r` and `middle` for every other one, and Y is the negation of `py` plus
the vertical offset of the block, then the font attributes, then ` font-size="S"`
with the font size in `%.2f` form, then the fill attribute if any, then `>`, the
XML-escaped text, `</text>` and a newline. -/
theorem svg_textpara_writes (E : Ext) (job : GVJ_t E) (p : pointf E) (para : textpara_t E)
    (hcol : ∀ t : Nat, job.obj.pencolor ≠ .OTHER t)
    (hfam : ∀ pA : PostscriptAlias, para.postscript_alias = some pA →
      job.fontnames = .SVGFONTS → pA.svg_font_family ≠ none) :
    ∃ font fill : String,
      svg_textpara job p para
        = .ok (gvputs job ("<text text-anchor=\""
            ++ (if para.just = 'l' then "start" else if para.just = 'r' then "end"
                else "middle")
            ++ "\" x=\"" ++ E.fmt_g p.x ++ "\" y=\""
            ++ E.fmt_g (E.neg (E.add p.y para.yoffset_centerline)) ++ "\""
            ++ font ++ " font-size=\"" ++ E.fmt_2f para.fontsize ++ "\"" ++ fill
            ++ ">" ++ E.xml_string para.str ++ "</text>" ++ "\n")) := by
  obtain ⟨font, hfont⟩ := svg_textpara_font_ok job.fontnames para hfam
  obtain ⟨fill, hfill⟩ := svg_textpara_fill_ok job.obj hcol
  refine ⟨font, fill, ?_⟩
  have key := svg_textpara_tail job para font fill hfont hfill
  unfold svg_textpara
  by_cases hl : para.just = 'l'
  · simp only [hl, if_true]
    rw [key]
    · simp only [gvputs_gvputs]
      apply ok_gvputs_congr
      simp
    · rfl
    · rfl
  · by_cases hr : para.just = 'r'
    · simp only [hr, if_true]
      rw [if_neg (by decide), key]
      · simp only [gvputs_gvputs]
        apply ok_gvputs_congr
        simp
      · rfl
      · rfl
    · simp only [hl, hr, if_false]
      rw [key]
      · simp only [gvputs_gvputs]
        apply ok_gvputs_congr
        simp
      · rfl
      · rfl

/-- C10, at a concrete input: the text `a<b` at (27,18) with the vertical offset 5,
left-justified, in the font `Times` of size 14, with an opaque black pen. -/
theorem svg_textpara_writes_witness :
    ∃ font fill : String,
      svg_textpara (ijob (iobj black red .PEN_SOLID)) (ipt 27 18) ipara
        = .ok (gvputs (ijob (iobj black red .PEN_SOLID))
            ("<text text-anchor=\"" ++ "start" ++ "\" x=\"" ++ "27" ++ "\" y=\"" ++ "-23"
              ++ "\"" ++ font ++ " font-size=\"" ++ "14.00" ++ "\"" ++ fill ++ ">"
              ++ "a&lt;b" ++ "</text>" ++ "\n")) :=
  svg_textpara_writes IntExt (ijob (iobj black red .PEN_SOLID)) (ipt 27 18) ipara
    (fun t h => by simp [ijob, iobj, black] at h) (fun pA h => by simp [ipara] at h)

/-! ## Reading the tags of what the callbacks write -/

theorem scan_nil (s : Mode × List Tag) : scan s [] = s :=
  rfl

theorem scan_cons (s : Mode × List Tag) (c : Char) (cs : List Char) :
    scan s (c :: cs) = scan (stepAcc s c) cs :=
  rfl

theorem scan_append (s : Mode × List Tag) (a b : List Char) :
    scan s (a ++ b) = scan (scan s a) b := by
  simp [scan, List.foldl_append]

theorem noAngle_cons (c : Char) (cs : List Char) :
    noAngle (c :: cs) = true ↔ (c.toNat ≠ 60 ∧ c.toNat ≠ 62) ∧ noAngle cs = true := by
  simp [noAngle]

theorem noAngle_append (a b : List Char) :
    noAngle (a ++ b) = true ↔ noAngle a = true ∧ noAngle b = true := by
  simp [noAngle, List.all_append]

/-- Character data without `<` stays character data. -/
theorem scan_text_clean (cs : List Char) (h : noAngle cs = true) (ts : List Tag) :
    scan (.text, ts) cs = (.text, ts) := by
  induction cs with
  | nil => rfl
  | cons c cs ih =>
    rw [noAngle_cons] at h
    rw [scan_cons]
    simp only [stepAcc, step, h.1.1, if_false, List.append_nil]
    exact ih h.2

/-- A comment is not left by a text without `>`. -/
theorem scan_other_clean (cs : List Char) (h : noAngle cs = true) (ts : List Tag) :
    scan (.other, ts) cs = (.other, ts) := by
  induction cs with
  | nil => rfl
  | cons c cs ih =>
    rw [noAngle_cons] at h
    rw [scan_cons]
    simp only [stepAcc, step, h.1.2, if_false, List.append_nil]
    exact ih h.2

/-- A tag is not left by a text without `>`. -/
theorem scan_attrs_clean (cs : List Char) (h : noAngle cs = true) (closing : Bool)
    (nm : List Char) :
    ∀ (b : Bool) (ts : List Tag),
      scan (.attrs closing nm b, ts) cs = (.attrs closing nm (slashAfter b cs), ts) := by
  induction cs with
  | nil => intro b ts; rfl
  | cons c cs ih =>
    intro b ts
    rw [noAngle_cons] at h
    rw [scan_cons]
    simp only [stepAcc, step, h.1.2, if_false]
    by_cases h47 : c.toNat = 47
    · simp only [h47, if_true, List.append_nil]
      rw [ih h.2]
      simp [slashAfter, h47]
    · simp only [h47, if_false, List.append_nil]
      rw [ih h.2]
      simp [slashAfter, h47]

theorem digitChar_clean (d : Nat) : (digitChar d).toNat ≠ 60 ∧ (digitChar d).toNat ≠ 62 := by
  unfold digitChar
  split <;> decide

theorem digitsAux_clean (b : Nat) :
    ∀ (fuel n : Nat) (acc : List Char), noAngle acc = true →
      noAngle (digitsAux b fuel n acc) = true := by
  intro fuel
  induction fuel with
  | zero => intro n acc h; simpa [digitsAux] using h
  | succ fuel ih =>
    intro n acc h
    unfold digitsAux
    split
    · rw [noAngle_cons]
      exact ⟨digitChar_clean n, h⟩
    · apply ih
      rw [noAngle_cons]
      exact ⟨digitChar_clean _, h⟩

theorem digits_clean (b n : Nat) : noAngle (digits b n) = true :=
  digitsAux_clean b (n + 1) n [] rfl

theorem fmt_d_clean (z : Int) : noAngle (fmt_d z).data = true := by
  cases z with
  | ofNat n => simpa [fmt_d] using digits_clean 10 n
  | negSucc n =>
    simp only [fmt_d, String.data_append, noAngle_append]
    exact ⟨by decide, digits_clean 10 (n + 1)⟩

theorem fmt_02x_clean (n : Nat) : noAngle (fmt_02x n).data = true := by
  simp only [fmt_02x, noAngle_append]
  refine ⟨?_, digits_clean 16 n⟩
  simp [noAngle]

/-- A colour with a supported tag is written, and without `<` and `>` when its
string has none. -/
theorem svg_print_color_clean {E : Ext} (c : gvcolor_t) (hs : colorSupported c = true)
    (hc : colorClean c = true) :
    ∃ F : String, (∀ j : GVJ_t E, svg_print_color j c = .ok (gvputs j F))
      ∧ noAngle F.data = true := by
  cases c with
  | COLOR_STRING s => exact ⟨s, fun _ => rfl, hc⟩
  | RGBA_BYTE r g b a =>
    by_cases ha : a = 0
    · exact ⟨"none", fun j => by simp [svg_print_color, ha], by decide⟩
    · refine ⟨"#" ++ fmt_02x r ++ fmt_02x g ++ fmt_02x b,
        fun j => by simp [svg_print_color, ha], ?_⟩
      simp only [String.data_append, noAngle_append, fmt_02x_clean, and_true]
      decide
  | OTHER t => simp [colorSupported] at hs

/-- The style attributes are written when the colours consulted have a supported
tag, and they are read as attributes of the tag they stand in. -/
theorem svg_grstyle_scan {E : Ext} (hE : E.Clean) (job : GVJ_t E) (filled : Bool)
    (hps : colorSupported job.obj.pencolor = true)
    (hpc : colorClean job.obj.pencolor = true)
    (hfs : (!filled || colorSupported job.obj.fillcolor) = true)
    (hfc : (!filled || colorClean job.obj.fillcolor) = true) :
    ∃ S : String, svg_grstyle job filled = .ok (gvputs job S)
      ∧ ∀ (nm : List Char) (ts : List Tag),
          scan (.name false nm, ts) S.data = (.attrs false nm false, ts) := by
  obtain ⟨P, hP, hPc⟩ := svg_print_color_clean (E := E) job.obj.pencolor hps hpc
  have hfill : ∃ F : String,
      (∀ j : GVJ_t E, svg_print_color j
        (if filled then job.obj.fillcolor else .RGBA_BYTE 0 0 0 0) = .ok (gvputs j F))
      ∧ noAngle F.data = true := by
    cases filled with
    | true =>
      simp only [Bool.not_true, Bool.false_or] at hfs hfc
      simpa using svg_print_color_clean (E := E) job.obj.fillcolor hfs hfc
    | false => exact ⟨"none", fun j => by simp [svg_print_color], by decide⟩
  obtain ⟨F, hF, hFc⟩ := hfill
  refine ⟨_, svg_grstyle_eq job filled F P (hF job) (hP job), ?_⟩
  intro nm ts
  have hw := hE.2.2.1 job.obj.penwidth
  cases E.ne job.obj.penwidth E.PENWIDTH_NORMAL <;> cases job.obj.pen <;>
    simp [scan_append, scan_cons, scan_nil, stepAcc, step, scan_attrs_clean, hFc, hPc, hw]

theorem coord_clean {E : Ext} (hE : E.Clean) (P : pointf E) :
    noAngle (coord P).data = true := by
  simp only [coord, String.data_append, noAngle_append, hE.2.2.1, true_and, and_true]
  decide

theorem coordsThenSpace_clean {E : Ext} (hE : E.Clean) (A : List (pointf E)) :
    noAngle (coordsThenSpace A).data = true := by
  induction A with
  | nil => rfl
  | cons P Ps ih =>
    simp only [coordsThenSpace, String.data_append, noAngle_append, coord_clean hE, ih,
      true_and, and_true]
    decide

theorem spaceThenCoords_clean {E : Ext} (hE : E.Clean) (A : List (pointf E)) :
    noAngle (spaceThenCoords A).data = true := by
  induction A with
  | nil => rfl
  | cons P Ps ih =>
    simp only [spaceThenCoords, String.data_append, noAngle_append, coord_clean hE, ih,
      true_and, and_true]
    decide

theorem pathData_clean {E : Ext} (hE : E.Clean) (A : List (pointf E)) :
    noAngle (pathData A).data = true := by
  cases A with
  | nil => rfl
  | cons P Ps =>
    cases Ps with
    | nil =>
      simp only [pathData, commandThenCoords, String.data_append, noAngle_append,
        coord_clean hE, true_and, and_true]
      decide
    | cons Q Qs =>
      simp only [pathData, commandThenCoords, String.data_append, noAngle_append,
        coord_clean hE, spaceThenCoords_clean hE, true_and, and_true]
      decide

/-- The callbacks of the groups that write escaped strings only. -/
theorem svg_begin_node_scan {E : Ext} (hE : E.Clean) (job : GVJ_t E) :
    ∃ text : String, svg_begin_node job = .ok (gvputs job text)
      ∧ ∀ ts : List Tag, scan (.text, ts) text.data
          = (.text, ts ++ [.opened "g".data, .opened "title".data, .closed "title".data]) := by
  refine ⟨"<g id=\"" ++ E.xml_string job.obj.id ++ "\" class=\"node\">" ++ "<title>"
    ++ E.xml_string (E.agnameof job.obj.u) ++ "</title>\n", ?_, ?_⟩
  · simp only [svg_begin_node, gvputs_gvputs, gvputs_obj]
  · intro ts
    have h1 := hE.1 job.obj.id
    have h2 := hE.1 (E.agnameof job.obj.u)
    simp [scan_append, scan_cons, scan_nil, stepAcc, step, tagAt, scan_attrs_clean, h1, h2,
      scan_text_clean]

theorem svg_begin_cluster_scan {E : Ext} (hE : E.Clean) (job : GVJ_t E) :
    ∃ text : String, svg_begin_cluster job = .ok (gvputs job text)
      ∧ ∀ ts : List Tag, scan (.text, ts) text.data
          = (.text, ts ++ [.opened "g".data, .opened "title".data, .closed "title".data]) := by
  refine ⟨"<g id=\"" ++ E.xml_string job.obj.id ++ "\" class=\"cluster\">" ++ "<title>"
    ++ E.xml_string (E.agnameof job.obj.u) ++ "</title>\n", ?_, ?_⟩
  · simp only [svg_begin_cluster, gvputs_gvputs, gvputs_obj]
  · intro ts
    have h1 := hE.1 job.obj.id
    have h2 := hE.1 (E.agnameof job.obj.u)
    simp [scan_append, scan_cons, scan_nil, stepAcc, step, tagAt, scan_attrs_clean, h1, h2,
      scan_text_clean]

theorem svg_begin_edge_scan {E : Ext} (hE : E.Clean) (job : GVJ_t E) :
    ∃ text : String, svg_begin_edge job = .ok (gvputs job text)
      ∧ ∀ ts : List Tag, scan (.text, ts) text.data
          = (.text, ts ++ [.opened "g".data, .opened "title".data, .closed "title".data]) := by
  refine ⟨"<g id=\"" ++ E.xml_string job.obj.id ++ "\" class=\"edge\">" ++ "<title>"
    ++ E.xml_string (E.strdup_and_subst_obj "\\E" job.obj.u) ++ "</title>\n", ?_, ?_⟩
  · simp only [svg_begin_edge, gvputs_gvputs, gvputs_obj]
  · intro ts
    have h1 := hE.1 job.obj.id
    have h2 := hE.1 (E.strdup_and_subst_obj "\\E" job.obj.u)
    simp [scan_append, scan_cons, scan_nil, stepAcc, step, tagAt, scan_attrs_clean, h1, h2,
      scan_text_clean]

theorem svg_begin_layer_scan {E : Ext} (hE : E.Clean) (job : GVJ_t E) (layername : String)
    (layerNum numLayers : Int) :
    ∃ text : String, svg_begin_layer job layername layerNum numLayers = .ok (gvputs job text)
      ∧ ∀ ts : List Tag, scan (.text, ts) text.data = (.text, ts ++ [.opened "g".data]) := by
  refine ⟨"<g id=\"" ++ E.xml_string layername ++ "\" class=\"layer\">\n", ?_, ?_⟩
  · simp only [svg_begin_layer, gvputs_gvputs]
  · intro ts
    have h1 := hE.1 layername
    simp [scan_append, scan_cons, scan_nil, stepAcc, step, tagAt, scan_attrs_clean, h1]

theorem svg_begin_page_scan {E : Ext} (hE : E.Clean) (job : GVJ_t E) :
    ∃ text : String, svg_begin_page job = .ok (gvputs job text)
      ∧ ∀ ts : List Tag, scan (.text, ts) text.data
          = (.text, ts ++ (if E.agnameof job.obj.u ≠ "" then
              [.opened "g".data, .opened "title".data, .closed "title".data]
              else [.opened "g".data])) := by
  refine ⟨"<g id=\"" ++ E.xml_string job.obj.id ++ "\" class=\"graph\""
    ++ " transform=\"scale(" ++ E.fmt_g job.scale.x ++ " " ++ E.fmt_g job.scale.y
    ++ ") rotate(" ++ fmt_d (int32 (-job.rotation))
    ++ ") translate(" ++ E.fmt_g job.translation.x ++ " "
    ++ E.fmt_g (E.neg job.translation.y) ++ ")\">\n"
    ++ titleText (E.xml_string (E.agnameof job.obj.u)) (E.agnameof job.obj.u), ?_, ?_⟩
  · by_cases hn : E.agnameof job.obj.u = ""
    · simp only [svg_begin_page, gvputs_obj, hn, ne_eq, not_true_eq_false, if_false,
        gvputs_gvputs, titleText]
      apply ok_gvputs_congr
      simp
    · simp only [svg_begin_page, gvputs_obj, hn, ne_eq, not_false_eq_true, if_true,
        gvputs_gvputs, titleText]
      apply ok_gvputs_congr
      simp
  · intro ts
    have h1 := hE.1 job.obj.id
    have h2 := hE.1 (E.agnameof job.obj.u)
    have g1 := hE.2.2.1 job.scale.x
    have g2 := hE.2.2.1 job.scale.y
    have g3 := hE.2.2.1 job.translation.x
    have g4 := hE.2.2.1 (E.neg job.translation.y)
    have d1 := fmt_d_clean (int32 (-job.rotation))
    by_cases hn : E.agnameof job.obj.u = "" <;>
      simp [scan_append, scan_cons, scan_nil, stepAcc, step, tagAt, scan_attrs_clean, h1, h2,
        g1, g2, g3, g4, d1, scan_text_clean, titleText, hn]
theorem scan_acc (cs : List Char) :
    ∀ (m : Mode) (ts : List Tag),
      scan (m, ts) cs = ((scan (m, []) cs).1, ts ++ (scan (m, []) cs).2) := by
  induction cs with
  | nil => intro m ts; simp [scan_nil]
  | cons c cs ih =>
    intro m ts
    rw [scan_cons, scan_cons]
    simp only [stepAcc, List.nil_append]
    rw [ih (step m c).1 (ts ++ (step m c).2), ih (step m c).1 (step m c).2]
    simp [List.append_assoc]

theorem scanData_eq (s : Mode × List Tag) (d : String) (h : noAngle d.data = true) :
    scan s d.data = scanData s d := by
  obtain ⟨m, ts⟩ := s
  cases m with
  | text => exact scan_text_clean _ h ts
  | other => exact scan_other_clean _ h ts
  | attrs closing nm b => exact scan_attrs_clean _ h closing nm b ts
  | name closing acc => rfl

/-- Reading a text made of pieces is reading its pieces, when the computed strings
have no `<` and `>`. -/
theorem scan_pieces (ps : List Piece) :
    ∀ s : Mode × List Tag, piecesClean ps = true →
      scan s (piecesText ps).data = scanPieces s ps := by
  induction ps with
  | nil => intro s _; rfl
  | cons p ps ih =>
    intro s h
    cases p with
    | lit l =>
      simp only [piecesClean] at h
      simp only [piecesText, String.data_append, scan_append, scanPieces]
      exact ih _ h
    | data d =>
      simp only [piecesClean, Bool.and_eq_true] at h
      simp only [piecesText, String.data_append, scan_append, scanPieces]
      rw [scanData_eq _ d h.1]
      exact ih _ h.2

/-- The tags a text made of pieces adds to the tags read before it. -/
theorem scan_pieces_text (ps : List Piece) (h : piecesClean ps = true) (m0 m1 : Mode)
    (new : List Tag) (hr : scanPieces (m0, []) ps = (m1, new)) (ts : List Tag) :
    scan (m0, ts) (piecesText ps).data = (m1, ts ++ new) := by
  rw [scan_acc, scan_pieces ps _ h, hr]

theorem svg_begin_graph_scan {E : Ext} (hE : E.Clean) (job : GVJ_t E) :
    ∃ text : String, svg_begin_graph job = .ok (gvputs job text)
      ∧ ∀ ts : List Tag, scan (.text, ts) text.data = (.text, ts ++ [.opened "svg".data]) := by
  have f := hE.2.2.2
  by_cases hn : E.agnameof job.obj.u = ""
  · refine ⟨piecesText [.lit "<!--", .lit " Pages: ",
      .data (fmt_d (int32 (job.pagesArraySize_x * job.pagesArraySize_y))),
      .lit " -->\n", .lit "<svg width=\"", .data (fmt_d (int32 job.width)),
      .lit "pt\" height=\"", .data (fmt_d (int32 job.height)), .lit "pt\"\n",
      .lit " viewBox=\"", .data (E.fmt_2f job.canvasBox.LL.x), .lit " ",
      .data (E.fmt_2f job.canvasBox.LL.y), .lit " ", .data (E.fmt_2f job.canvasBox.UR.x),
      .lit " ", .data (E.fmt_2f job.canvasBox.UR.y), .lit "\"",
      .lit " xmlns=\"http://www.w3.org/2000/svg\"",
      .lit " xmlns:xlink=\"http://www.w3.org/1999/xlink\"", .lit ">\n"], ?_, ?_⟩
    · simp only [svg_begin_graph, gvputs_obj, hn, ne_eq, not_true_eq_false, if_false,
        gvputs_gvputs, gvputs_fields, piecesText, String.append_assoc, String.append_empty]
    · intro ts
      apply scan_pieces_text _ _ _ _ _ rfl
      simp only [piecesClean, fmt_d_clean, f, Bool.and_self]
  · refine ⟨piecesText [.lit "<!--", .lit " Title: ",
      .data (E.xml_string (E.agnameof job.obj.u)), .lit " Pages: ",
      .data (fmt_d (int32 (job.pagesArraySize_x * job.pagesArraySize_y))),
      .lit " -->\n", .lit "<svg width=\"", .data (fmt_d (int32 job.width)),
      .lit "pt\" height=\"", .data (fmt_d (int32 job.height)), .lit "pt\"\n",
      .lit " viewBox=\"", .data (E.fmt_2f job.canvasBox.LL.x), .lit " ",
      .data (E.fmt_2f job.canvasBox.LL.y), .lit " ", .data (E.fmt_2f job.canvasBox.UR.x),
      .lit " ", .data (E.fmt_2f job.canvasBox.UR.y), .lit "\"",
      .lit " xmlns=\"http://www.w3.org/2000/svg\"",
      .lit " xmlns:xlink=\"http://www.w3.org/1999/xlink\"", .lit ">\n"], ?_, ?_⟩
    · simp only [svg_begin_graph, gvputs_obj, hn, ne_eq, not_false_eq_true, if_true,
        gvputs_gvputs, gvputs_fields, piecesText, String.append_assoc, String.append_empty]
    · intro ts
      apply scan_pieces_text _ _ _ _ _ rfl
      simp only [piecesClean, fmt_d_clean, f, hE.1, Bool.and_self]
theorem svg_comment_scan {E : Ext} (hE : E.Clean) (job : GVJ_t E) (str : String) :
    ∃ text : String, svg_comment job str = .ok (gvputs job text)
      ∧ ∀ ts : List Tag, scan (.text, ts) text.data = (.text, ts ++ []) := by
  refine ⟨"<!-- " ++ E.xml_string str ++ " -->\n", ?_, ?_⟩
  · simp only [svg_comment, gvputs_gvputs]
  · intro ts
    have h1 := hE.1 str
    simp [scan_append, scan_cons, scan_nil, stepAcc, step, scan_other_clean, h1]
theorem svg_ellipse_eq {E : Ext} (job : GVJ_t E) (A : List (pointf E))
    (A0 A1 : pointf E) (filled : Bool) (S : String)
    (h0 : A[0]? = some A0) (h1 : A[1]? = some A1)
    (hS : svg_grstyle job filled = .ok (gvputs job S)) :
    svg_ellipse job A filled
      = .ok (gvputs job ("<ellipse" ++ S
          ++ " cx=\"" ++ E.fmt_g A0.x ++ "\" cy=\"" ++ E.fmt_g (E.neg A0.y)
          ++ "\" rx=\"" ++ E.fmt_g (E.sub A1.x A0.x)
          ++ "\" ry=\"" ++ E.fmt_g (E.sub A1.y A0.y) ++ "\"/>" ++ "\n")) := by
  have hg := svg_grstyle_frame job (gvputs job "<ellipse") rfl filled S hS
  unfold svg_ellipse
  simp only [hg, Outcome.andThen, h0, h1]
  simp only [gvputs_gvputs]
  apply ok_gvputs_congr
  simp
theorem svg_polygon_eq {E : Ext} (job : GVJ_t E) (A : List (pointf E)) (n : Nat)
    (A0 : pointf E) (filled : Bool) (S : String) (hn : n ≤ A.length) (h0 : A[0]? = some A0)
    (hS : svg_grstyle job filled = .ok (gvputs job S)) :
    svg_polygon job A n filled
      = .ok (gvputs job ("<polygon" ++ S ++ " points=\"" ++ coordsThenSpace (A.take n)
          ++ coord A0 ++ "\"/>" ++ "\n")) := by
  have hg := svg_grstyle_frame job (gvputs job "<polygon") rfl filled S hS
  have hl := svg_points_loop_eq A n 0
    (gvputs (gvputs (gvputs job "<polygon") S) " points=\"") (by omega)
  unfold svg_polygon
  simp only [hg, Outcome.andThen, hl, h0]
  simp only [List.drop_zero, gvputs_gvputs]
  apply ok_gvputs_congr
  simp [coord]
theorem svg_polyline_eq {E : Ext} (job : GVJ_t E) (A : List (pointf E)) (n : Nat)
    (S : String) (hn : n ≤ A.length) (hS : svg_grstyle job false = .ok (gvputs job S)) :
    svg_polyline job A n
      = .ok (gvputs job ("<polyline" ++ S ++ " points=\"" ++ coordsThenSpace (A.take n)
          ++ "\"/>" ++ "\n")) := by
  have hg := svg_grstyle_frame job (gvputs job "<polyline") rfl false S hS
  have hl := svg_points_loop_eq A n 0
    (gvputs (gvputs (gvputs job "<polyline") S) " points=\"") (by omega)
  unfold svg_polyline
  simp only [hg, Outcome.andThen, hl]
  simp only [List.drop_zero, gvputs_gvputs]
  apply ok_gvputs_congr
  simp
theorem svg_bzptarray_take {E : Ext} (job : GVJ_t E) (A : List (pointf E)) (n : Nat)
    (hn : n ≤ A.length) :
    svg_bzptarray job A n = .ok (gvputs job (pathData (A.take n))) := by
  have h := svg_bzptarray_eq job (A.take n)
  rw [List.length_take, Nat.min_eq_left hn] at h
  rw [← h]
  unfold svg_bzptarray
  have key : ∀ (k i : Nat) (c : Char) (j : GVJ_t E), i + k ≤ n →
      svg_bzptarray_loop A k i c j = svg_bzptarray_loop (A.take n) k i c j := by
    intro k
    induction k with
    | zero => intro i c j _; rfl
    | succ k ih =>
      intro i c j hik
      have hi : i < n := by omega
      rw [svg_bzptarray_loop, svg_bzptarray_loop, List.getElem?_take_of_lt hi]
      cases A[i]? with
      | none => rfl
      | some P => exact ih _ _ _ (by omega)
  exact key n 0 'M' job (by omega)
theorem svg_bezier_eq {E : Ext} (job : GVJ_t E) (A : List (pointf E)) (n : Nat)
    (s e : Int) (filled : Bool) (S : String) (hn : n ≤ A.length)
    (hS : svg_grstyle job filled = .ok (gvputs job S)) :
    svg_bezier job A n s e filled
      = .ok (gvputs job ("<path" ++ S ++ " d=\"" ++ pathData (A.take n) ++ "\"/>" ++ "\n")) := by
  have hg := svg_grstyle_frame job (gvputs job "<path") rfl filled S hS
  unfold svg_bezier
  simp only [hg, Outcome.andThen, svg_bzptarray_take _ A n hn]
  simp only [gvputs_gvputs]
  apply ok_gvputs_congr
  simp
theorem svg_begin_anchor_scan {E : Ext} (hE : E.Clean) (job : GVJ_t E)
    (href tooltip target id : Option String) :
    ∃ text : String, svg_begin_anchor job href tooltip target id = .ok (gvputs job text)
      ∧ ∀ ts : List Tag, scan (.text, ts) text.data = (.text, ts ++ [.opened "a".data]) := by
  have hu := hE.2.1
  have hx := hE.1
  cases h1 : nonEmpty href <;> cases h2 : nonEmpty tooltip <;> cases h3 : nonEmpty target
  · refine ⟨piecesText [.lit "<a", .lit ">\n"], ?_, fun ts => ?_⟩
    · simp only [svg_begin_anchor, h1, h2, h3, gvputs_gvputs, piecesText, String.append_assoc,
        String.append_empty]
    · apply scan_pieces_text _ _ _ _ _ rfl
      rfl
  · rename_i c
    refine ⟨piecesText [.lit "<a", .lit " target=\"", .data (E.xml_string c), .lit "\"",
      .lit ">\n"], ?_, fun ts => ?_⟩
    · simp only [svg_begin_anchor, h1, h2, h3, gvputs_gvputs, piecesText, String.append_assoc,
        String.append_empty]
    · exact scan_pieces_text _ (by simp only [piecesClean, hx, Bool.and_self]) _ _ _ rfl ts
  · rename_i b
    refine ⟨piecesText [.lit "<a", .lit " xlink:title=\"", .data (E.xml_string b), .lit "\"",
      .lit ">\n"], ?_, fun ts => ?_⟩
    · simp only [svg_begin_anchor, h1, h2, h3, gvputs_gvputs, piecesText, String.append_assoc,
        String.append_empty]
    · exact scan_pieces_text _ (by simp only [piecesClean, hx, Bool.and_self]) _ _ _ rfl ts
  · rename_i b c
    refine ⟨piecesText [.lit "<a", .lit " xlink:title=\"", .data (E.xml_string b), .lit "\"",
      .lit " target=\"", .data (E.xml_string c), .lit "\"", .lit ">\n"], ?_, fun ts => ?_⟩
    · simp only [svg_begin_anchor, h1, h2, h3, gvputs_gvputs, piecesText, String.append_assoc,
        String.append_empty]
    · exact scan_pieces_text _ (by simp only [piecesClean, hx, Bool.and_self]) _ _ _ rfl ts
  · rename_i a
    refine ⟨piecesText [.lit "<a", .lit " xlink:href=\"", .data (E.xml_url_string a),
      .lit "\"", .lit ">\n"], ?_, fun ts => ?_⟩
    · simp only [svg_begin_anchor, h1, h2, h3, gvputs_gvputs, piecesText, String.append_assoc,
        String.append_empty]
    · exact scan_pieces_text _ (by simp only [piecesClean, hu, Bool.and_self]) _ _ _ rfl ts
  · rename_i a c
    refine ⟨piecesText [.lit "<a", .lit " xlink:href=\"", .data (E.xml_url_string a),
      .lit "\"", .lit " target=\"", .data (E.xml_string c), .lit "\"", .lit ">\n"], ?_,
      fun ts => ?_⟩
    · simp only [svg_begin_anchor, h1, h2, h3, gvputs_gvputs, piecesText, String.append_assoc,
        String.append_empty]
    · exact scan_pieces_text _ (by simp only [piecesClean, hx, hu, Bool.and_self]) _ _ _ rfl ts
  · rename_i a b
    refine ⟨piecesText [.lit "<a", .lit " xlink:href=\"", .data (E.xml_url_string a),
      .lit "\"", .lit " xlink:title=\"", .data (E.xml_string b), .lit "\"", .lit ">\n"], ?_,
      fun ts => ?_⟩
    · simp only [svg_begin_anchor, h1, h2, h3, gvputs_gvputs, piecesText, String.append_assoc,
        String.append_empty]
    · exact scan_pieces_text _ (by simp only [piecesClean, hx, hu, Bool.and_self]) _ _ _ rfl ts
  · rename_i a b c
    refine ⟨piecesText [.lit "<a", .lit " xlink:href=\"", .data (E.xml_url_string a),
      .lit "\"", .lit " xlink:title=\"", .data (E.xml_string b), .lit "\"",
      .lit " target=\"", .data (E.xml_string c), .lit "\"", .lit ">\n"], ?_, fun ts => ?_⟩
    · simp only [svg_begin_anchor, h1, h2, h3, gvputs_gvputs, piecesText, String.append_assoc,
        String.append_empty]
    · exact scan_pieces_text _ (by simp only [piecesClean, hx, hu, Bool.and_self]) _ _ _ rfl ts
/-- The tags of a shape element: its name, the style attributes, further attributes
and the end of the tag. -/
theorem scan_shape (first : String) (nm : List Char) (S : String) (ps : List Piece)
    (tag : Tag)
    (hfirst : scan (.text, []) first.data = (.name false nm, []))
    (hS : ∀ (nm : List Char) (ts : List Tag),
      scan (.name false nm, ts) S.data = (.attrs false nm false, ts))
    (hclean : piecesClean ps = true)
    (hrest : scanPieces (.attrs false nm false, []) ps = (.text, [tag])) (ts : List Tag) :
    scan (.text, ts) (first ++ (S ++ piecesText ps)).data = (.text, ts ++ [tag]) := by
  rw [String.data_append, String.data_append, scan_append, scan_append, scan_acc first.data,
    hfirst, hS, scan_acc, scan_pieces ps _ hclean, hrest]
  simp

theorem svg_ellipse_scan {E : Ext} (hE : E.Clean) (job : GVJ_t E) (A : List (pointf E))
    (filled : Bool)
    (hps : colorSupported job.obj.pencolor = true)
    (hpc : colorClean job.obj.pencolor = true)
    (hfs : (!filled || colorSupported job.obj.fillcolor) = true)
    (hfc : (!filled || colorClean job.obj.fillcolor) = true) (hA : 2 ≤ A.length) :
    ∃ text : String, svg_ellipse job A filled = .ok (gvputs job text)
      ∧ ∀ ts : List Tag, scan (.text, ts) text.data
          = (.text, ts ++ [.selfClosed "ellipse".data]) := by
  obtain ⟨S, hS, hscan⟩ := svg_grstyle_scan hE job filled hps hpc hfs hfc
  have g := hE.2.2.1
  have h0 : A[0]? = some A[0] := List.getElem?_eq_getElem (by omega)
  have h1 : A[1]? = some A[1] := List.getElem?_eq_getElem (by omega)
  refine ⟨"<ellipse" ++ (S ++ piecesText [.lit " cx=\"", .data (E.fmt_g A[0].x),
    .lit "\" cy=\"", .data (E.fmt_g (E.neg A[0].y)), .lit "\" rx=\"",
    .data (E.fmt_g (E.sub A[1].x A[0].x)), .lit "\" ry=\"",
    .data (E.fmt_g (E.sub A[1].y A[0].y)), .lit "\"/>", .lit "\n"]), ?_, ?_⟩
  · rw [svg_ellipse_eq job A A[0] A[1] filled S h0 h1 hS]
    simp only [piecesText, String.append_assoc, String.append_empty]
  · intro ts
    refine scan_shape _ "ellipse".data S _ _ ?_ hscan ?_ ?_ ts
    · rfl
    · simp only [piecesClean, g, Bool.and_self]
    · rfl

theorem svg_polygon_scan {E : Ext} (hE : E.Clean) (job : GVJ_t E) (A : List (pointf E))
    (n : Nat) (filled : Bool)
    (hps : colorSupported job.obj.pencolor = true)
    (hpc : colorClean job.obj.pencolor = true)
    (hfs : (!filled || colorSupported job.obj.fillcolor) = true)
    (hfc : (!filled || colorClean job.obj.fillcolor) = true)
    (hn : n ≤ A.length) (hA : 1 ≤ A.length) :
    ∃ text : String, svg_polygon job A n filled = .ok (gvputs job text)
      ∧ ∀ ts : List Tag, scan (.text, ts) text.data
          = (.text, ts ++ [.selfClosed "polygon".data]) := by
  obtain ⟨S, hS, hscan⟩ := svg_grstyle_scan hE job filled hps hpc hfs hfc
  have h0 : A[0]? = some A[0] := List.getElem?_eq_getElem (by omega)
  refine ⟨"<polygon" ++ (S ++ piecesText [.lit " points=\"",
    .data (coordsThenSpace (A.take n)), .data (coord A[0]), .lit "\"/>", .lit "\n"]), ?_, ?_⟩
  · rw [svg_polygon_eq job A n A[0] filled S hn h0 hS]
    simp only [piecesText, String.append_assoc, String.append_empty]
  · intro ts
    refine scan_shape _ "polygon".data S _ _ ?_ hscan ?_ ?_ ts
    · rfl
    · simp only [piecesClean, coordsThenSpace_clean hE, coord_clean hE, Bool.and_self]
    · rfl

theorem svg_polyline_scan {E : Ext} (hE : E.Clean) (job : GVJ_t E) (A : List (pointf E))
    (n : Nat)
    (hps : colorSupported job.obj.pencolor = true)
    (hpc : colorClean job.obj.pencolor = true) (hn : n ≤ A.length) :
    ∃ text : String, svg_polyline job A n = .ok (gvputs job text)
      ∧ ∀ ts : List Tag, scan (.text, ts) text.data
          = (.text, ts ++ [.selfClosed "polyline".data]) := by
  obtain ⟨S, hS, hscan⟩ := svg_grstyle_scan hE job false hps hpc rfl rfl
  refine ⟨"<polyline" ++ (S ++ piecesText [.lit " points=\"",
    .data (coordsThenSpace (A.take n)), .lit "\"/>", .lit "\n"]), ?_, ?_⟩
  · rw [svg_polyline_eq job A n S hn hS]
    simp only [piecesText, String.append_assoc, String.append_empty]
  · intro ts
    refine scan_shape _ "polyline".data S _ _ ?_ hscan ?_ ?_ ts
    · rfl
    · simp only [piecesClean, coordsThenSpace_clean hE, Bool.and_self]
    · rfl

theorem svg_bezier_scan {E : Ext} (hE : E.Clean) (job : GVJ_t E) (A : List (pointf E))
    (n : Nat) (s e : Int) (filled : Bool)
    (hps : colorSupported job.obj.pencolor = true)
    (hpc : colorClean job.obj.pencolor = true)
    (hfs : (!filled || colorSupported job.obj.fillcolor) = true)
    (hfc : (!filled || colorClean job.obj.fillcolor) = true) (hn : n ≤ A.length) :
    ∃ text : String, svg_bezier job A n s e filled = .ok (gvputs job text)
      ∧ ∀ ts : List Tag, scan (.text, ts) text.data
          = (.text, ts ++ [.selfClosed "path".data]) := by
  obtain ⟨S, hS, hscan⟩ := svg_grstyle_scan hE job filled hps hpc hfs hfc
  refine ⟨"<path" ++ (S ++ piecesText [.lit " d=\"",
    .data (pathData (A.take n)), .lit "\"/>", .lit "\n"]), ?_, ?_⟩
  · rw [svg_bezier_eq job A n s e filled S hn hS]
    simp only [piecesText, String.append_assoc, String.append_empty]
  · intro ts
    refine scan_shape _ "path".data S _ _ ?_ hscan ?_ ?_ ts
    · rfl
    · simp only [piecesClean, pathData_clean hE, Bool.and_self]
    · rfl
theorem optAttr_clean (before : String) (s : Option String) (after : String)
    (hb : noAngle before.data = true) (hs : optClean s = true)
    (ha : noAngle after.data = true) : noAngle (optAttr before s after).data = true := by
  cases s with
  | none => rfl
  | some v =>
    simp only [optAttr, String.data_append, noAngle_append]
    exact ⟨⟨hb, hs⟩, ha⟩

/-- The font attributes are written without `<` and `>` when the font names have
none. -/
theorem svg_textpara_font_clean {E : Ext} (fontnames : fontname_kind) (para : textpara_t E)
    (hfam : ∀ pA : PostscriptAlias, para.postscript_alias = some pA →
      fontnames = .SVGFONTS → pA.svg_font_family ≠ none)
    (hname : noAngle para.fontname.data = true)
    (halias : ∀ pA : PostscriptAlias, para.postscript_alias = some pA →
      noAngle pA.name.data = true ∧ noAngle pA.family.data = true
      ∧ optClean pA.weight = true ∧ optClean pA.stretch = true ∧ optClean pA.style = true
      ∧ optClean pA.svg_font_family = true ∧ optClean pA.svg_font_weight = true
      ∧ optClean pA.svg_font_style = true) :
    ∃ font : String, (∀ j : GVJ_t E, j.fontnames = fontnames →
      svg_textpara_font j para = .ok (gvputs j font)) ∧ noAngle font.data = true := by
  cases hpa : para.postscript_alias with
  | none =>
    refine ⟨" font-family=\"" ++ para.fontname ++ "\"",
      fun j _ => by simp only [svg_textpara_font, hpa], ?_⟩
    simp only [String.data_append, noAngle_append, hname, and_true]
    exact ⟨by decide, by decide⟩
  | some pA =>
    obtain ⟨c1, c2, c3, c4, c5, c6, c7, c8⟩ := halias pA hpa
    have q : noAngle "\"".data = true := by decide
    have k1 := optAttr_clean "," pA.svg_font_family "" (by decide) c6 (by decide)
    have k2 := optAttr_clean " font-weight=\"" pA.weight "\"" (by decide) c3 q
    have k3 := optAttr_clean " font-stretch=\"" pA.stretch "\"" (by decide) c4 q
    have k4 := optAttr_clean " font-style=\"" pA.style "\"" (by decide) c5 q
    have k5 := optAttr_clean " font-weight=\"" pA.svg_font_weight "\"" (by decide) c7 q
    have k6 := optAttr_clean " font-style=\"" pA.svg_font_style "\"" (by decide) c8 q
    have k0 : noAngle " font-family=\"".data = true := by decide
    cases hfn : fontnames with
    | NATIVEFONTS =>
      refine ⟨" font-family=\"" ++ pA.family ++ optAttr "," pA.svg_font_family "" ++ "\""
        ++ optAttr " font-weight=\"" pA.weight "\""
        ++ optAttr " font-stretch=\"" pA.stretch "\""
        ++ optAttr " font-style=\"" pA.style "\"", fun j hj => ?_, ?_⟩
      · simp only [svg_textpara_font, hpa, hj, gvprintf_s, Outcome.andThen, gvprintf_if_eq,
          gvputs_gvputs, String.append_assoc, String.append_empty]
      · simp only [String.data_append, noAngle_append, k0, c2, k1, q, k2, k3, k4, and_self]
    | PSFONTS =>
      refine ⟨" font-family=\"" ++ pA.name ++ optAttr "," pA.svg_font_family "" ++ "\""
        ++ optAttr " font-weight=\"" pA.weight "\""
        ++ optAttr " font-stretch=\"" pA.stretch "\""
        ++ optAttr " font-style=\"" pA.style "\"", fun j hj => ?_, ?_⟩
      · simp only [svg_textpara_font, hpa, hj, gvprintf_s, Outcome.andThen, gvprintf_if_eq,
          gvputs_gvputs, String.append_assoc, String.append_empty]
      · simp only [String.data_append, noAngle_append, k0, c1, k1, q, k2, k3, k4, and_self]
    | SVGFONTS =>
      cases hsv : pA.svg_font_family with
      | none => exact absurd hsv (hfam pA hpa hfn)
      | some fam =>
        rw [hsv] at k1 c6
        refine ⟨" font-family=\"" ++ fam ++ optAttr "," (some fam) "" ++ "\""
          ++ optAttr " font-weight=\"" pA.svg_font_weight "\""
          ++ optAttr " font-stretch=\"" pA.stretch "\""
          ++ optAttr " font-style=\"" pA.svg_font_style "\"", fun j hj => ?_, ?_⟩
        · simp only [svg_textpara_font, hpa, hj, hsv, gvprintf_s, Outcome.andThen,
            gvprintf_if_eq, gvputs_gvputs, String.append_assoc, String.append_empty]
        · have c6b : noAngle fam.data = true := c6
          simp only [String.data_append, noAngle_append, k0, c6b, k1, q, k5, k3, k6,
            and_self]

/-- The fill attribute is written when the pen colour has a supported tag: nothing,
or ` fill="`, a value and `"`, the value having no `<` and `>` when a colour string
has none. -/
theorem svg_textpara_fill_form {E : Ext} (obj : obj_state_t E)
    (hs : colorSupported obj.pencolor = true) (hc : colorClean obj.pencolor = true) :
    ∃ fill : String, (∀ j : GVJ_t E, j.obj = obj →
      svg_textpara_fill j = .ok (gvputs j fill))
      ∧ (fill = "" ∨ ∃ v : String, noAngle v.data = true
          ∧ fill = piecesText [.lit " fill=\"", .data v, .lit "\""]) := by
  cases hcol : obj.pencolor with
  | COLOR_STRING s =>
    rw [hcol] at hc
    cases hb : strcasecmp_ne s "black" with
    | true =>
      refine ⟨piecesText [.lit " fill=\"", .data s, .lit "\""], fun j hj => ?_,
        Or.inr ⟨s, hc, rfl⟩⟩
      simp only [svg_textpara_fill, hj, hcol, hb, if_true, piecesText, String.append_assoc,
        String.append_empty]
    | false =>
      exact ⟨"", fun j hj => by simp [svg_textpara_fill, hj, hcol, hb, gvputs_empty],
        Or.inl rfl⟩
  | RGBA_BYTE r g b a =>
    refine ⟨piecesText [.lit " fill=\"", .data ("#" ++ fmt_02x r ++ fmt_02x g ++ fmt_02x b),
      .lit "\""], fun j hj => ?_, Or.inr ⟨_, ?_, rfl⟩⟩
    · have hlit : " fill=\"#" = " fill=\"" ++ "#" := by decide
      simp only [svg_textpara_fill, hj, hcol, hlit, piecesText, String.append_assoc,
        String.append_empty]
    · simp only [String.data_append, noAngle_append, fmt_02x_clean, and_true]
      decide
  | OTHER t =>
    rw [hcol] at hs
    simp [colorSupported] at hs

theorem gvputs_anchorText {E : Ext} (j : GVJ_t E) (just : Char) :
    (if just = 'l' then gvputs j " text-anchor=\"start\""
      else if just = 'r' then gvputs j " text-anchor=\"end\""
      else gvputs j " text-anchor=\"middle\"") = gvputs j (anchorText just) := by
  unfold anchorText
  split
  · rfl
  · split <;> rfl

/-- The text of the text emitter, given what the font block and the fill block
write. -/
theorem svg_textpara_eq {E : Ext} (job : GVJ_t E) (p : pointf E) (para : textpara_t E)
    (font fill : String)
    (hfont : ∀ j : GVJ_t E, j.fontnames = job.fontnames →
      svg_textpara_font j para = .ok (gvputs j font))
    (hfill : ∀ j : GVJ_t E, j.obj = job.obj → svg_textpara_fill j = .ok (gvputs j fill)) :
    svg_textpara job p para
      = .ok (gvputs job ("<text" ++ anchorText para.just ++ " x=\"" ++ E.fmt_g p.x
          ++ "\" y=\"" ++ E.fmt_g (E.neg (E.add p.y para.yoffset_centerline)) ++ "\""
          ++ font ++ " font-size=\"" ++ E.fmt_2f para.fontsize ++ "\"" ++ fill
          ++ ">" ++ E.xml_string para.str ++ "</text>" ++ "\n")) := by
  have key := svg_textpara_tail job para font fill hfont hfill
  unfold svg_textpara
  simp only [gvputs_anchorText]
  rw [key]
  · simp only [gvputs_gvputs, String.append_assoc]
  · rfl
  · rfl
theorem svg_textpara_scan {E : Ext} (hE : E.Clean) (job : GVJ_t E) (p : pointf E)
    (para : textpara_t E)
    (hs : colorSupported job.obj.pencolor = true) (hc : colorClean job.obj.pencolor = true)
    (hfam : ∀ pA : PostscriptAlias, para.postscript_alias = some pA →
      job.fontnames = .SVGFONTS → pA.svg_font_family ≠ none)
    (hname : noAngle para.fontname.data = true)
    (halias : ∀ pA : PostscriptAlias, para.postscript_alias = some pA →
      noAngle pA.name.data = true ∧ noAngle pA.family.data = true
      ∧ optClean pA.weight = true ∧ optClean pA.stretch = true ∧ optClean pA.style = true
      ∧ optClean pA.svg_font_family = true ∧ optClean pA.svg_font_weight = true
      ∧ optClean pA.svg_font_style = true) :
    ∃ text : String, svg_textpara job p para = .ok (gvputs job text)
      ∧ ∀ ts : List Tag, scan (.text, ts) text.data
          = (.text, ts ++ [.opened "text".data, .closed "text".data]) := by
  obtain ⟨font, hfont, hfc⟩ := svg_textpara_font_clean job.fontnames para hfam hname halias
  obtain ⟨fill, hfill, hform⟩ := svg_textpara_fill_form job.obj hs hc
  have heq := svg_textpara_eq job p para font fill hfont hfill
  have g := hE.2.2.1
  have f := hE.2.2.2
  have x := hE.1
  rcases hform with rfl | ⟨v, hv, rfl⟩
  · refine ⟨piecesText [.lit "<text", .lit (anchorText para.just), .lit " x=\"",
      .data (E.fmt_g p.x), .lit "\" y=\"",
      .data (E.fmt_g (E.neg (E.add p.y para.yoffset_centerline))), .lit "\"", .data font,
      .lit " font-size=\"", .data (E.fmt_2f para.fontsize), .lit "\"", .lit ">",
      .data (E.xml_string para.str), .lit "</text>", .lit "\n"], ?_, fun ts => ?_⟩
    · rw [heq]
      simp only [piecesText, String.append_assoc, String.append_empty, String.empty_append]
    · refine scan_pieces_text _ ?_ _ _ _ ?_ ts
      · simp only [piecesClean, g, f, x, hfc, Bool.and_self]
      · unfold anchorText
        split
        · rfl
        · split <;> rfl
  · refine ⟨piecesText [.lit "<text", .lit (anchorText para.just), .lit " x=\"",
      .data (E.fmt_g p.x), .lit "\" y=\"",
      .data (E.fmt_g (E.neg (E.add p.y para.yoffset_centerline))), .lit "\"", .data font,
      .lit " font-size=\"", .data (E.fmt_2f para.fontsize), .lit "\"",
      .lit " fill=\"", .data v, .lit "\"", .lit ">",
      .data (E.xml_string para.str), .lit "</text>", .lit "\n"], ?_, fun ts => ?_⟩
    · rw [heq]
      simp only [piecesText, String.append_assoc, String.append_empty, String.empty_append]
    · refine scan_pieces_text _ ?_ _ _ _ ?_ ts
      · simp only [piecesClean, g, f, x, hfc, hv, Bool.and_self]
      · unfold anchorText
        split
        · rfl
        · split <;> rfl

theorem scan_literal (L : String) (tags : List Tag)
    (h : scan (.text, []) L.data = (.text, tags)) (ts : List Tag) :
    scan (.text, ts) L.data = (.text, ts ++ tags) := by
  rw [scan_acc, h]

/-- The callback of an event runs to its end and writes a text whose tags are the
tags of the event. -/
theorem Event.call_scan {E : Ext} (hE : E.Clean) (e : Event E) (hd : e.defined = true)
    (hc : e.rawClean = true) (job : GVJ_t E) :
    ∃ (j : GVJ_t E) (text : String), e.call job = .ok j ∧ j.out = job.out ++ text
      ∧ ∀ ts : List Tag, scan (.text, ts) text.data = (.text, ts ++ e.tags) := by
  cases e with
  | begin_graph ctx =>
    obtain ⟨text, h, hs⟩ := svg_begin_graph_scan hE { ctx with out := job.out }
    exact ⟨_, text, h, rfl, hs⟩
  | end_graph => exact ⟨_, "</svg>\n", rfl, rfl, scan_literal _ _ rfl⟩
  | begin_layer ctx layername layerNum numLayers =>
    obtain ⟨text, h, hs⟩ :=
      svg_begin_layer_scan hE { ctx with out := job.out } layername layerNum numLayers
    exact ⟨_, text, h, rfl, hs⟩
  | end_layer => exact ⟨_, "</g>\n", rfl, rfl, scan_literal _ _ rfl⟩
  | begin_page ctx =>
    obtain ⟨text, h, hs⟩ := svg_begin_page_scan hE { ctx with out := job.out }
    exact ⟨_, text, h, rfl, hs⟩
  | end_page => exact ⟨_, "</g>\n", rfl, rfl, scan_literal _ _ rfl⟩
  | begin_cluster ctx =>
    obtain ⟨text, h, hs⟩ := svg_begin_cluster_scan hE { ctx with out := job.out }
    exact ⟨_, text, h, rfl, hs⟩
  | end_cluster => exact ⟨_, "</g>\n", rfl, rfl, scan_literal _ _ rfl⟩
  | begin_node ctx =>
    obtain ⟨text, h, hs⟩ := svg_begin_node_scan hE { ctx with out := job.out }
    exact ⟨_, text, h, rfl, hs⟩
  | end_node => exact ⟨_, "</g>\n", rfl, rfl, scan_literal _ _ rfl⟩
  | begin_edge ctx =>
    obtain ⟨text, h, hs⟩ := svg_begin_edge_scan hE { ctx with out := job.out }
    exact ⟨_, text, h, rfl, hs⟩
  | end_edge => exact ⟨_, "</g>\n", rfl, rfl, scan_literal _ _ rfl⟩
  | begin_anchor ctx href tooltip target id =>
    obtain ⟨text, h, hs⟩ :=
      svg_begin_anchor_scan hE { ctx with out := job.out } href tooltip target id
    exact ⟨_, text, h, rfl, hs⟩
  | end_anchor => exact ⟨_, "</a>\n", rfl, rfl, scan_literal _ _ rfl⟩
  | textpara ctx p para =>
    simp only [Event.defined, Event.rawClean, Bool.and_eq_true] at hd hc
    have hfam : ∀ pA : PostscriptAlias, para.postscript_alias = some pA →
        ctx.fontnames = .SVGFONTS → pA.svg_font_family ≠ none := by
      intro pA hpa
      have h2 := hd.2
      rw [hpa] at h2
      exact of_decide_eq_true h2
    have halias : ∀ pA : PostscriptAlias, para.postscript_alias = some pA →
        noAngle pA.name.data = true ∧ noAngle pA.family.data = true
        ∧ optClean pA.weight = true ∧ optClean pA.stretch = true
        ∧ optClean pA.style = true ∧ optClean pA.svg_font_family = true
        ∧ optClean pA.svg_font_weight = true ∧ optClean pA.svg_font_style = true := by
      intro pA hpa
      have h2 := hc.2
      rw [hpa] at h2
      simp only [Bool.and_eq_true] at h2
      tauto
    obtain ⟨text, h, hs⟩ := svg_textpara_scan hE { ctx with out := job.out } p para
      hd.1 hc.1.1 hfam hc.1.2 halias
    exact ⟨_, text, h, rfl, hs⟩
  | ellipse ctx A filled =>
    simp only [Event.defined, Event.rawClean, Bool.and_eq_true, decide_eq_true_eq] at hd hc
    obtain ⟨text, h, hs⟩ := svg_ellipse_scan hE { ctx with out := job.out } A filled
      hd.1.1 hc.1 hd.1.2 hc.2 hd.2
    exact ⟨_, text, h, rfl, hs⟩
  | polygon ctx A n filled =>
    simp only [Event.defined, Event.rawClean, Bool.and_eq_true, decide_eq_true_eq] at hd hc
    obtain ⟨text, h, hs⟩ := svg_polygon_scan hE { ctx with out := job.out } A n filled
      hd.1.1.1 hc.1 hd.1.1.2 hc.2 hd.1.2 hd.2
    exact ⟨_, text, h, rfl, hs⟩
  | bezier ctx A n s e filled =>
    simp only [Event.defined, Event.rawClean, Bool.and_eq_true, decide_eq_true_eq] at hd hc
    obtain ⟨text, h, hs⟩ := svg_bezier_scan hE { ctx with out := job.out } A n s e filled
      hd.1.1 hc.1 hd.1.2 hc.2 hd.2
    exact ⟨_, text, h, rfl, hs⟩
  | polyline ctx A n =>
    simp only [Event.defined, Event.rawClean, Bool.and_eq_true, decide_eq_true_eq] at hd hc
    obtain ⟨text, h, hs⟩ := svg_polyline_scan hE { ctx with out := job.out } A n
      hd.1 hc hd.2
    exact ⟨_, text, h, rfl, hs⟩
  | comment ctx str =>
    obtain ⟨text, h, hs⟩ := svg_comment_scan hE { ctx with out := job.out } str
    exact ⟨_, text, h, rfl, by simpa [Event.tags] using hs⟩
/-- The callbacks of a sequence of events run to their end and the tags of the text
they write are the tags of the events, in order. -/
theorem run_scan {E : Ext} (hE : E.Clean) (es : List (Event E)) :
    ∀ job : GVJ_t E, (∀ e ∈ es, e.defined = true ∧ e.rawClean = true) →
      ∃ (j : GVJ_t E) (text : String), run es job = .ok j ∧ j.out = job.out ++ text
        ∧ ∀ ts : List Tag, scan (.text, ts) text.data = (.text, ts ++ es.flatMap Event.tags) := by
  induction es with
  | nil =>
    intro job _
    exact ⟨job, "", rfl, by simp, fun ts => by simp [scan_nil]⟩
  | cons e es ih =>
    intro job h
    obtain ⟨j1, t1, h1, ho1, hs1⟩ :=
      Event.call_scan hE e (h e (List.mem_cons_self _ _)).1 (h e (List.mem_cons_self _ _)).2 job
    obtain ⟨j2, t2, h2, ho2, hs2⟩ := ih j1 fun x hx => h x (List.mem_cons_of_mem _ hx)
    refine ⟨j2, t1 ++ t2, ?_, ?_, fun ts => ?_⟩
    · simp only [run, h1, Outcome.andThen, h2]
    · rw [ho2, ho1, String.append_assoc]
    · rw [String.data_append, scan_append, hs1, hs2, List.flatMap_cons, List.append_assoc]

/-- The tags of a well-nested sequence of events are balanced above the elements of
the groups that are open. -/
theorem balancedFrom_tags {E : Ext} (es : List (Event E)) :
    ∀ stack : List Kind, wellNestedFrom stack es = true →
      balancedFrom (stack.map Kind.element) (es.flatMap Event.tags) = true := by
  induction es with
  | nil =>
    intro stack h
    cases stack with
    | nil => rfl
    | cons k ks => simp [wellNestedFrom] at h
  | cons e es ih =>
    intro stack h
    rw [List.flatMap_cons]
    cases e
    case begin_page ctx =>
      have h2 := ih (.page :: stack) (by simpa [wellNestedFrom, Event.opens] using h)
      by_cases hn2 : E.agnameof ctx.obj.u = "" <;>
        simpa [Event.tags, balancedFrom, hn2, Kind.element] using h2
    all_goals first
      | (have h2 := ih (_ :: stack) (by simpa [wellNestedFrom, Event.opens] using h)
         simpa [Event.tags, balancedFrom, Kind.element] using h2)
      | (have h2 := ih stack (by simpa [wellNestedFrom, Event.opens, Event.closes] using h)
         simpa [Event.tags, balancedFrom] using h2)
      | (cases stack with
         | nil => simp [wellNestedFrom, Event.opens, Event.closes] at h
         | cons k ks =>
           simp only [wellNestedFrom, Event.opens, Event.closes, Bool.and_eq_true,
             decide_eq_true_eq] at h
           have h2 := ih ks h.2
           simp [Event.tags, balancedFrom, h.1, Kind.element, h2])
theorem noAngle_of_subset (a b : List Char) (h : ∀ c ∈ a, c ∈ b) (hb : noAngle b = true) :
    noAngle a = true := by
  simp only [noAngle, List.all_eq_true] at hb ⊢
  exact fun c hc => hb c (h c hc)

theorem stripZeros_clean (l : List Char) (h : noAngle l = true) :
    noAngle (stripZeros l) = true := by
  apply noAngle_of_subset _ l _ h
  intro c hc
  simp only [stripZeros, List.mem_reverse] at hc
  have := (List.dropWhile_sublist (fun c : Char => decide (c.toNat = 48))).subset hc
  simpa using this

theorem noAngle_ite (c : Prop) [Decidable c] (a b : List Char) (ha : noAngle a = true)
    (hb : noAngle b = true) : noAngle (if c then a else b) = true := by
  split
  · exact ha
  · exact hb

theorem fmt_g_mag_clean (m : Nat) : noAngle (fmt_g_mag m) = true := by
  unfold fmt_g_mag
  apply noAngle_ite
  · exact digits_clean 10 m
  · simp only [noAngle_append]
    refine ⟨⟨⟨⟨?_, ?_⟩, by decide⟩, ?_⟩, digits_clean 10 _⟩
    · exact noAngle_of_subset _ _ (fun c hc => List.mem_of_mem_take hc) (digits_clean 10 _)
    · apply noAngle_ite
      · rfl
      · rw [noAngle_cons]
        refine ⟨by decide, stripZeros_clean _ ?_⟩
        exact noAngle_of_subset _ _ (fun c hc => List.mem_of_mem_drop hc) (digits_clean 10 _)
    · apply noAngle_ite
      · rfl
      · rfl

theorem escapeChar_clean (c : Char) : noAngle (escapeChar c) = true := by
  unfold escapeChar
  split
  · decide
  · split
    · decide
    · split
      · decide
      · split
        · decide
        · split
          · decide
          · rename_i h60 h62 _ _
            simp [noAngle, h60, h62]

theorem escape_clean (l : List Char) : noAngle (l.flatMap escapeChar) = true := by
  induction l with
  | nil => rfl
  | cons c l ih =>
    rw [List.flatMap_cons, noAngle_append]
    exact ⟨escapeChar_clean c, ih⟩

/-- The concrete host writes no `<` and no `>` in escaped strings and numbers. -/
theorem IntExt_clean : IntExt.Clean := by
  refine ⟨fun s => escape_clean s.data, fun s => escape_clean s.data, fun d => ?_, fun d => ?_⟩
  · show noAngle ((if d.sign then ['-'] else []) ++ fmt_g_mag d.mag) = true
    rw [noAngle_append]
    exact ⟨noAngle_ite _ _ _ rfl rfl, fmt_g_mag_clean d.mag⟩
  · show noAngle ((if d.sign then ['-'] else []) ++ digits 10 d.mag ++ ['.', '0', '0']) = true
    rw [noAngle_append, noAngle_append]
    exact ⟨⟨noAngle_ite _ _ _ rfl rfl, digits_clean 10 d.mag⟩, by decide⟩

/-- C1 (amended): for every well-nested sequence of lifecycle and drawing callbacks (on a host
whose escapers and number conversions write no `<` and `>`, with inputs on which
every callback is defined and whose strings written as they are have no `<` and
`>`), the callbacks run to their end and the tags of the text they write are
balanced: they are the tags of the callbacks in order, each begin callback opens
exactly one of `svg`, `g` and `a` (and at most a `title` that it closes itself),
each end callback closes exactly the element of its group and nothing else, so that
every element opened is closed once, innermost first, and each drawing callback
writes tags that are balanced on their own. -/
theorem lifecycle_tags_balanced (E : Ext) (hE : E.Clean) (es : List (Event E))
    (job : GVJ_t E) (hw : wellNested es = true)
    (hd : ∀ e ∈ es, e.defined = true ∧ e.rawClean = true) :
    ∃ (j : GVJ_t E) (text : String), run es job = .ok j ∧ j.out = job.out ++ text
      ∧ tagsOf text = es.flatMap Event.tags
      ∧ balanced (tagsOf text) = true
      ∧ (∀ e ∈ es, ∀ k : Kind, e.opens = some k →
          e.tags = [.opened k.element]
          ∨ e.tags = [.opened k.element, .opened "title".data, .closed "title".data])
      ∧ (∀ e ∈ es, ∀ k : Kind, e.closes = some k → e.tags = [.closed k.element])
      ∧ (∀ e ∈ es, e.opens = none → e.closes = none → balanced e.tags = true) := by
  obtain ⟨j, text, hrun, hout, hscan⟩ := run_scan hE es job hd
  have htags : tagsOf text = es.flatMap Event.tags := by
    simp [tagsOf, hscan]
  refine ⟨j, text, hrun, hout, htags, ?_, ?_, ?_, ?_⟩
  · rw [htags]
    exact balancedFrom_tags es [] hw
  · intro e he k hk
    clear he
    cases e <;> simp only [Event.opens, Option.some.injEq, reduceCtorEq] at hk <;> subst hk
    case begin_page ctx =>
      by_cases hn : E.agnameof ctx.obj.u = "" <;> simp [Event.tags, hn, Kind.element]
    all_goals simp [Event.tags, Kind.element]
  · intro e _ k hk
    cases e <;> simp only [Event.closes, Option.some.injEq, reduceCtorEq] at hk <;> subst hk <;>
      simp [Event.tags, Kind.element]
  · intro e _ ho hc
    cases e <;> simp only [Event.opens, Event.closes, reduceCtorEq] at ho hc <;>
      simp [Event.tags, balanced, balancedFrom]

/-- C1, at a concrete input: a graph with a page and a node that holds an anchor
around an ellipse, a text and a comment. -/
theorem lifecycle_tags_balanced_witness :
    wellNested idoc = true ∧
    ∃ (j : GVJ_t IntExt) (text : String),
      run idoc (ijob (iobj black red .PEN_SOLID)) = .ok j
      ∧ j.out = (ijob (iobj black red .PEN_SOLID)).out ++ text
      ∧ tagsOf text = idoc.flatMap Event.tags
      ∧ balanced (tagsOf text) = true :=
  ⟨by decide,
    (lifecycle_tags_balanced IntExt IntExt_clean idoc (ijob (iobj black red .PEN_SOLID))
      (by decide) (by decide)).imp fun _ h => h.imp fun _ h2 => ⟨h2.1, h2.2.1, h2.2.2.1, h2.2.2.2.1⟩⟩
/-- C1, the claim fails: a graph around an unfilled ellipse whose pen colour is the
string `x"><g id="y` is a well-nested sequence of callbacks that are all defined, and
the tags written are not balanced: the colour string is written as it is, so that the
`ellipse` start tag ends early and is never closed. -/
theorem lifecycle_tags_unbalanced :
    wellNested irawdoc = true
    ∧ (∀ e ∈ irawdoc, e.defined = true)
    ∧ (run irawdoc (ijob (iobj black red .PEN_SOLID))).written
      = some ("<!-- Title: obj1 Pages: 1 -->\n"
          ++ "<svg width=\"72pt\" height=\"72pt\"\n"
          ++ " viewBox=\"0.00 0.00 72.00 72.00\" xmlns=\"http://www.w3.org/2000/svg\""
          ++ " xmlns:xlink=\"http://www.w3.org/1999/xlink\">\n"
          ++ "<ellipse fill=\"none\" stroke=\"x\"><g id=\"y\""
          ++ " cx=\"1\" cy=\"-2\" rx=\"2\" ry=\"2\"/>\n"
          ++ "</svg>\n")
    ∧ tagsOf ("<!-- Title: obj1 Pages: 1 -->\n"
          ++ "<svg width=\"72pt\" height=\"72pt\"\n"
          ++ " viewBox=\"0.00 0.00 72.00 72.00\" xmlns=\"http://www.w3.org/2000/svg\""
          ++ " xmlns:xlink=\"http://www.w3.org/1999/xlink\">\n"
          ++ "<ellipse fill=\"none\" stroke=\"x\"><g id=\"y\""
          ++ " cx=\"1\" cy=\"-2\" rx=\"2\" ry=\"2\"/>\n"
          ++ "</svg>\n")
      = [.opened "svg".data, .opened "ellipse".data, .selfClosed "g".data,
          .closed "svg".data]
    ∧ balanced [.opened "svg".data, .opened "ellipse".data, .selfClosed "g".data,
          .closed "svg".data] = false := by
  refine ⟨by decide, by decide, rfl, ?_, by decide⟩
  rfl
/-- The text of `svg_begin_job`. -/
theorem svg_begin_job_eq {E : Ext} (job : GVJ_t E) :
    svg_begin_job job
      = .ok (gvputs job ("<?xml version=\"1.0\" encoding=\"UTF-8\" standalone=\"no\"?>\n"
          ++ stylesheetText job.stylesheet
          ++ "<!DOCTYPE svg PUBLIC \"-//W3C//DTD SVG 1.1//EN\"\n"
          ++ " \"http://www.w3.org/Graphics/SVG/1.1/DTD/svg11.dtd\">\n"
          ++ "<!-- Generated by " ++ E.xml_string job.info0 ++ " version "
          ++ E.xml_string job.info1 ++ " (" ++ E.xml_string job.info2
          ++ (if isAscii job.user = true then ")\n     For user: " ++ E.xml_string job.user
              else ")\n")
          ++ " -->\n")) := by
  cases hst : job.stylesheet with
  | none =>
    cases hu : isAscii job.user <;>
      simp only [svg_begin_job, hst, hu, stylesheetText, gvputs_fields, gvputs_gvputs,
        String.append_assoc, String.append_empty, String.empty_append, if_true, if_false,
        Bool.false_eq_true]
  | some s =>
    by_cases h : s = ""
    · cases hu : isAscii job.user <;>
        simp only [svg_begin_job, hst, hu, h, stylesheetText, gvputs_fields, gvputs_gvputs,
          String.append_assoc, String.append_empty, String.empty_append, if_true, if_false,
          Bool.false_eq_true, ne_eq, not_true_eq_false]
    · cases hu : isAscii job.user <;>
        simp only [svg_begin_job, hst, hu, h, stylesheetText, gvputs_fields, gvputs_gvputs,
          String.append_assoc, String.append_empty, String.empty_append, if_true, if_false,
          Bool.false_eq_true, ne_eq, not_false_eq_true]
/-- The font block writes the font attributes of the text block. -/
theorem svg_textpara_font_eq {E : Ext} (j : GVJ_t E) (para : textpara_t E)
    (hfam : ∀ pA : PostscriptAlias, para.postscript_alias = some pA →
      j.fontnames = .SVGFONTS → pA.svg_font_family ≠ none) :
    svg_textpara_font j para
      = .ok (gvputs j (fontText j.fontnames para.fontname para.postscript_alias)) := by
  cases hpa : para.postscript_alias with
  | none => simp only [svg_textpara_font, hpa, fontText]
  | some pA =>
    cases hfn : j.fontnames with
    | NATIVEFONTS =>
      simp only [svg_textpara_font, hpa, hfn, gvprintf_s, Outcome.andThen, gvprintf_if_eq,
        gvputs_gvputs, fontText, String.append_assoc, String.append_empty]
    | PSFONTS =>
      simp only [svg_textpara_font, hpa, hfn, gvprintf_s, Outcome.andThen, gvprintf_if_eq,
        gvputs_gvputs, fontText, String.append_assoc, String.append_empty]
    | SVGFONTS =>
      cases hsv : pA.svg_font_family with
      | none => exact absurd hsv (hfam pA hpa hfn)
      | some fam =>
        simp only [svg_textpara_font, hpa, hfn, hsv, gvprintf_s, Outcome.andThen,
          gvprintf_if_eq, gvputs_gvputs, fontText, Option.getD_some, String.append_assoc,
          String.append_empty]

/-- The fill block writes the fill attribute of the pen colour. -/
theorem svg_textpara_fill_eq {E : Ext} (j : GVJ_t E)
    (hcol : ∀ t : Nat, j.obj.pencolor ≠ .OTHER t) :
    svg_textpara_fill j = .ok (gvputs j (fillText j.obj.pencolor)) := by
  cases hc : j.obj.pencolor with
  | COLOR_STRING s =>
    cases hb : strcasecmp_ne s "black" <;>
      simp [svg_textpara_fill, hc, hb, fillText, gvputs_empty]
  | RGBA_BYTE r g b a => simp only [svg_textpara_fill, hc, fillText]
  | OTHER t => exact absurd hc (hcol t)

/-- The text of `svg_begin_graph`. -/
theorem svg_begin_graph_eq {E : Ext} (job : GVJ_t E) :
    svg_begin_graph job
      = .ok (gvputs job ("<!--"
          ++ (if E.agnameof job.obj.u ≠ "" then
                " Title: " ++ E.xml_string (E.agnameof job.obj.u) else "")
          ++ " Pages: " ++ fmt_d (int32 (job.pagesArraySize_x * job.pagesArraySize_y))
          ++ " -->\n"
          ++ "<svg width=\"" ++ fmt_d (int32 job.width) ++ "pt\" height=\""
          ++ fmt_d (int32 job.height) ++ "pt\"\n"
          ++ " viewBox=\"" ++ E.fmt_2f job.canvasBox.LL.x ++ " "
          ++ E.fmt_2f job.canvasBox.LL.y ++ " " ++ E.fmt_2f job.canvasBox.UR.x ++ " "
          ++ E.fmt_2f job.canvasBox.UR.y ++ "\""
          ++ " xmlns=\"http://www.w3.org/2000/svg\""
          ++ " xmlns:xlink=\"http://www.w3.org/1999/xlink\"" ++ ">\n")) := by
  by_cases hn : E.agnameof job.obj.u = ""
  · simp only [svg_begin_graph, gvputs_obj, hn, ne_eq, not_true_eq_false, if_false,
      gvputs_gvputs, gvputs_fields, String.append_assoc, String.append_empty,
      String.empty_append]
  · simp only [svg_begin_graph, gvputs_obj, hn, ne_eq, not_false_eq_true, if_true,
      gvputs_gvputs, gvputs_fields, String.append_assoc, String.append_empty,
      String.empty_append]

/-- The text of `svg_begin_page`. -/
theorem svg_begin_page_eq {E : Ext} (job : GVJ_t E) :
    svg_begin_page job
      = .ok (gvputs job ("<g id=\"" ++ E.xml_string job.obj.id ++ "\" class=\"graph\""
          ++ " transform=\"scale(" ++ E.fmt_g job.scale.x ++ " " ++ E.fmt_g job.scale.y
          ++ ") rotate(" ++ fmt_d (int32 (-job.rotation))
          ++ ") translate(" ++ E.fmt_g job.translation.x ++ " "
          ++ E.fmt_g (E.neg job.translation.y) ++ ")\">\n"
          ++ (if E.agnameof job.obj.u ≠ "" then
                "<title>" ++ E.xml_string (E.agnameof job.obj.u) ++ "</title>\n"
              else ""))) := by
  by_cases hn : E.agnameof job.obj.u = ""
  · simp only [svg_begin_page, gvputs_obj, hn, ne_eq, not_true_eq_false, if_false,
      gvputs_gvputs, gvputs_fields, String.append_assoc, String.append_empty]
  · simp only [svg_begin_page, gvputs_obj, hn, ne_eq, not_false_eq_true, if_true,
      gvputs_gvputs, gvputs_fields, String.append_assoc, String.append_empty]

/-- C2 (amended): the strings the callbacks are given reach the sink only as the
result of the XML escaper, and the anchor href only as the result of the URL
escaper: the generator name, version, build tag and user name of `svg_begin_job`,
the text of the text emitter, the graph name of `svg_begin_graph`, the layer name,
the ids and the names of a page, cluster, node and edge, the tooltip and the target
of an anchor and the text of a comment; a colour string is written as it is by the
colour formatter and in the fill attribute of a text. The texts written for the
stylesheet and for the fonts are left open (`sheet`, `fonts`). -/
theorem escaped_strings_written (E : Ext) :
    ∃ (sheet : Option String → String)
      (fonts : fontname_kind → String → Option PostscriptAlias → String)
      (fill : gvcolor_t → String),
      (∀ s : String, strcasecmp_ne s "black" = true →
          fill (.COLOR_STRING s) = " fill=\"" ++ s ++ "\"")
      ∧ (∀ (job : GVJ_t E) (s : String),
          svg_print_color job (.COLOR_STRING s) = .ok (gvputs job s))
      ∧ (∀ job : GVJ_t E, svg_begin_job job
          = .ok (gvputs job ("<?xml version=\"1.0\" encoding=\"UTF-8\" standalone=\"no\"?>\n"
              ++ sheet job.stylesheet
              ++ "<!DOCTYPE svg PUBLIC \"-//W3C//DTD SVG 1.1//EN\"\n"
              ++ " \"http://www.w3.org/Graphics/SVG/1.1/DTD/svg11.dtd\">\n"
              ++ "<!-- Generated by " ++ E.xml_string job.info0 ++ " version "
              ++ E.xml_string job.info1 ++ " (" ++ E.xml_string job.info2
              ++ (if isAscii job.user = true then
                    ")\n     For user: " ++ E.xml_string job.user else ")\n")
              ++ " -->\n")))
      ∧ (∀ (job : GVJ_t E) (p : pointf E) (para : textpara_t E),
          (∀ t : Nat, job.obj.pencolor ≠ .OTHER t) →
          (∀ pA : PostscriptAlias, para.postscript_alias = some pA →
            job.fontnames = .SVGFONTS → pA.svg_font_family ≠ none) →
          svg_textpara job p para
            = .ok (gvputs job ("<text" ++ anchorText para.just ++ " x=\"" ++ E.fmt_g p.x
                ++ "\" y=\"" ++ E.fmt_g (E.neg (E.add p.y para.yoffset_centerline)) ++ "\""
                ++ fonts job.fontnames para.fontname para.postscript_alias
                ++ " font-size=\"" ++ E.fmt_2f para.fontsize ++ "\""
                ++ fill job.obj.pencolor
                ++ ">" ++ E.xml_string para.str ++ "</text>" ++ "\n")))
      ∧ (∀ job : GVJ_t E, svg_begin_graph job
          = .ok (gvputs job ("<!--"
              ++ (if E.agnameof job.obj.u ≠ "" then
                    " Title: " ++ E.xml_string (E.agnameof job.obj.u) else "")
              ++ " Pages: " ++ fmt_d (int32 (job.pagesArraySize_x * job.pagesArraySize_y))
              ++ " -->\n"
              ++ "<svg width=\"" ++ fmt_d (int32 job.width) ++ "pt\" height=\""
              ++ fmt_d (int32 job.height) ++ "pt\"\n"
              ++ " viewBox=\"" ++ E.fmt_2f job.canvasBox.LL.x ++ " "
              ++ E.fmt_2f job.canvasBox.LL.y ++ " " ++ E.fmt_2f job.canvasBox.UR.x ++ " "
              ++ E.fmt_2f job.canvasBox.UR.y ++ "\""
              ++ " xmlns=\"http://www.w3.org/2000/svg\""
              ++ " xmlns:xlink=\"http://www.w3.org/1999/xlink\"" ++ ">\n")))
      ∧ (∀ (job : GVJ_t E) (layername : String) (layerNum numLayers : Int),
          svg_begin_layer job layername layerNum numLayers
            = .ok (gvputs job ("<g id=\"" ++ E.xml_string layername
                ++ "\" class=\"layer\">\n")))
      ∧ (∀ job : GVJ_t E, svg_begin_page job
          = .ok (gvputs job ("<g id=\"" ++ E.xml_string job.obj.id ++ "\" class=\"graph\""
              ++ " transform=\"scale(" ++ E.fmt_g job.scale.x ++ " " ++ E.fmt_g job.scale.y
              ++ ") rotate(" ++ fmt_d (int32 (-job.rotation))
              ++ ") translate(" ++ E.fmt_g job.translation.x ++ " "
              ++ E.fmt_g (E.neg job.translation.y) ++ ")\">\n"
              ++ (if E.agnameof job.obj.u ≠ "" then
                    "<title>" ++ E.xml_string (E.agnameof job.obj.u) ++ "</title>\n"
                  else ""))))
      ∧ (∀ job : GVJ_t E, svg_begin_cluster job
          = .ok (gvputs job ("<g id=\"" ++ E.xml_string job.obj.id ++ "\" class=\"cluster\">"
              ++ "<title>" ++ E.xml_string (E.agnameof job.obj.u) ++ "</title>\n")))
      ∧ (∀ job : GVJ_t E, svg_begin_node job
          = .ok (gvputs job ("<g id=\"" ++ E.xml_string job.obj.id ++ "\" class=\"node\">"
              ++ "<title>" ++ E.xml_string (E.agnameof job.obj.u) ++ "</title>\n")))
      ∧ (∀ job : GVJ_t E, svg_begin_edge job
          = .ok (gvputs job ("<g id=\"" ++ E.xml_string job.obj.id ++ "\" class=\"edge\">"
              ++ "<title>" ++ E.xml_string (E.strdup_and_subst_obj "\\E" job.obj.u)
              ++ "</title>\n")))
      ∧ (∀ (job : GVJ_t E) (href tooltip target id : Option String),
          svg_begin_anchor job href tooltip target id
            = .ok (gvputs job ("<a"
                ++ optAttr " xlink:href=\"" ((nonEmpty href).map E.xml_url_string) "\""
                ++ optAttr " xlink:title=\"" ((nonEmpty tooltip).map E.xml_string) "\""
                ++ optAttr " target=\"" ((nonEmpty target).map E.xml_string) "\""
                ++ ">\n")))
      ∧ (∀ (job : GVJ_t E) (str : String), svg_comment job str
          = .ok (gvputs job ("<!-- " ++ E.xml_string str ++ " -->\n"))) := by
  refine ⟨stylesheetText, fontText, fillText, ?_, fun _ _ => rfl, svg_begin_job_eq, ?_, ?_,
    ?_, ?_, ?_, ?_, ?_, ?_, ?_⟩
  · intro s hs
    simp only [fillText, hs, if_true]
  · intro job p para hcol hfam
    apply svg_textpara_eq
    · intro j hj
      rw [svg_textpara_font_eq j para (fun pA hpa hsvg => hfam pA hpa (hj ▸ hsvg)), hj]
    · intro j hj
      rw [svg_textpara_fill_eq j (fun t => hj ▸ hcol t), hj]
  · exact svg_begin_graph_eq
  · intro job layername layerNum numLayers
    simp only [svg_begin_layer, gvputs_gvputs]
  · exact svg_begin_page_eq
  · intro job
    simp only [svg_begin_cluster, gvputs_gvputs, gvputs_obj]
  · intro job
    simp only [svg_begin_node, gvputs_gvputs, gvputs_obj]
  · intro job
    simp only [svg_begin_edge, gvputs_gvputs, gvputs_obj]
  · intro job href tooltip target id
    cases h1 : nonEmpty href <;> cases h2 : nonEmpty tooltip <;>
      cases h3 : nonEmpty target <;>
      simp only [svg_begin_anchor, h1, h2, h3, gvputs_gvputs, optAttr, Option.map,
        String.append_assoc, String.append_empty, String.empty_append]
  · intro job str
    simp only [svg_comment, gvputs_gvputs]
/-- C2 (amended), at a concrete input: the text `a<b` reaches the sink as `a&lt;b`. -/
theorem escaped_strings_written_witness :
    ∃ (_sheet : Option String → String)
      (fonts : fontname_kind → String → Option PostscriptAlias → String)
      (fill : gvcolor_t → String),
      svg_textpara (ijob (iobj black red .PEN_SOLID)) (ipt 27 18) ipara
        = .ok (gvputs (ijob (iobj black red .PEN_SOLID))
            ("<text" ++ " text-anchor=\"start\"" ++ " x=\"" ++ "27" ++ "\" y=\"" ++ "-23"
              ++ "\"" ++ fonts .NATIVEFONTS "Times" none ++ " font-size=\"" ++ "14.00" ++ "\""
              ++ fill black ++ ">" ++ "a&lt;b" ++ "</text>" ++ "\n")) :=
  (escaped_strings_written IntExt).imp fun _ h => h.imp fun _ h => h.imp fun _ h =>
    h.2.2.2.1 (ijob (iobj black red .PEN_SOLID)) (ipt 27 18) ipara
      (fun t h => by simp [ijob, iobj, black] at h) (fun pA h => by simp [ipara] at h)

/-- C2, the claim fails: the stylesheet href `a&b.css`, the font name `A&B` and the
colour string `a&b` reach the sink as they are, and not as the escapers would write
them (`a&amp;b.css`, `A&amp;B`, `a&amp;b`). -/
theorem raw_strings_written :
    (svg_begin_job { ijob (iobj black red .PEN_SOLID) with stylesheet := some "a&b.css" }).written
      = some ("<?xml version=\"1.0\" encoding=\"UTF-8\" standalone=\"no\"?>\n"
          ++ "<?xml-stylesheet href=\"a&b.css\" type=\"text/css\"?>\n"
          ++ "<!DOCTYPE svg PUBLIC \"-//W3C//DTD SVG 1.1//EN\"\n"
          ++ " \"http://www.w3.org/Graphics/SVG/1.1/DTD/svg11.dtd\">\n"
          ++ "<!-- Generated by gv version 1 (b)\n     For user: alice -->\n")
    ∧ IntExt.xml_url_string "a&b.css" = "a&amp;b.css"
    ∧ (svg_textpara (ijob (iobj black red .PEN_SOLID)) (ipt 27 18)
          { ipara with fontname := "A&B" }).written
      = some ("<text text-anchor=\"start\" x=\"27\" y=\"-23\" font-family=\"A&B\""
          ++ " font-size=\"14.00\" fill=\"#000000\">a&lt;b</text>\n")
    ∧ IntExt.xml_string "A&B" = "A&amp;B"
    ∧ (svg_grstyle (ijob (iobj (.COLOR_STRING "a&b") red .PEN_SOLID)) false).written
      = some " fill=\"none\" stroke=\"a&b\""
    ∧ IntExt.xml_string "a&b" = "a&amp;b" := by
  refine ⟨rfl, ?_, rfl, ?_, rfl, ?_⟩ <;> decide
/-! ## The font family, the fill and the faults of the text emitter -/

theorem fontText_eq (fontnames : fontname_kind) (fontname : String)
    (pa : Option PostscriptAlias) :
    fontText fontnames fontname pa
      = " font-family=\"" ++ familyValue fontnames fontname pa ++ "\""
          ++ otherFontAttrs fontnames pa := by
  cases pa with
  | none => simp only [fontText, familyValue, otherFontAttrs, String.append_empty]
  | some pA =>
    cases fontnames <;> cases hs : pA.svg_font_family <;>
      simp only [fontText, familyValue, otherFontAttrs, optAttr, hs, Option.getD_some,
        Option.getD_none, String.append_assoc, String.append_empty, String.empty_append]

/-- C11 (amended): when the text block carries a PostScript alias, the value of the
`font-family` attribute written by `svg_textpara` is the family chosen by the
font-naming mode (PostScript: `alias.name`; SVG: `alias.svg_font_family`; native:
`alias.family`), followed by a comma and the SVG family whenever the alias has an SVG
family, whatever the mode: in SVG mode the value is the SVG family, a comma and the
SVG family again. When no alias is present the attribute is
`font-family="<plain font name>"`. -/
theorem svg_textpara_font_family (E : Ext) (job : GVJ_t E) (p : pointf E)
    (para : textpara_t E) (hcol : ∀ t : Nat, job.obj.pencolor ≠ .OTHER t)
    (hfam : ∀ pA : PostscriptAlias, para.postscript_alias = some pA →
      job.fontnames = .SVGFONTS → pA.svg_font_family ≠ none) :
    svg_textpara job p para
      = .ok (gvputs job ("<text" ++ anchorText para.just ++ " x=\"" ++ E.fmt_g p.x
          ++ "\" y=\"" ++ E.fmt_g (E.neg (E.add p.y para.yoffset_centerline)) ++ "\""
          ++ " font-family=\""
          ++ familyValue job.fontnames para.fontname para.postscript_alias ++ "\""
          ++ otherFontAttrs job.fontnames para.postscript_alias
          ++ " font-size=\"" ++ E.fmt_2f para.fontsize ++ "\""
          ++ fillText job.obj.pencolor
          ++ ">" ++ E.xml_string para.str ++ "</text>" ++ "\n"))
    ∧ (para.postscript_alias = none →
        familyValue job.fontnames para.fontname para.postscript_alias = para.fontname)
    ∧ (∀ pA : PostscriptAlias, para.postscript_alias = some pA →
        (pA.svg_font_family = none →
          (job.fontnames = .PSFONTS →
            familyValue job.fontnames para.fontname para.postscript_alias = pA.name)
          ∧ (job.fontnames = .NATIVEFONTS →
            familyValue job.fontnames para.fontname para.postscript_alias = pA.family))
        ∧ (∀ s : String, pA.svg_font_family = some s →
          (job.fontnames = .PSFONTS →
            familyValue job.fontnames para.fontname para.postscript_alias
              = pA.name ++ "," ++ s)
          ∧ (job.fontnames = .NATIVEFONTS →
            familyValue job.fontnames para.fontname para.postscript_alias
              = pA.family ++ "," ++ s)
          ∧ (job.fontnames = .SVGFONTS →
            familyValue job.fontnames para.fontname para.postscript_alias
              = s ++ "," ++ s))) := by
  refine ⟨?_, ?_, ?_⟩
  · have h := svg_textpara_eq job p para
      (fontText job.fontnames para.fontname para.postscript_alias)
      (fillText job.obj.pencolor)
      (fun j hj => by
        rw [svg_textpara_font_eq j para (fun pA hpa hsvg => hfam pA hpa (hj ▸ hsvg)), hj])
      (fun j hj => by rw [svg_textpara_fill_eq j (fun t => hj ▸ hcol t), hj])
    rw [h, fontText_eq]
    simp only [String.append_assoc]
  · intro hpa
    simp only [familyValue, hpa]
  · intro pA hpa
    refine ⟨fun hs => ⟨fun hm => ?_, fun hm => ?_⟩,
      fun s hs => ⟨fun hm => ?_, fun hm => ?_, fun hm => ?_⟩⟩ <;>
      simp only [familyValue, hpa, hm, hs, Option.getD_some, String.append_empty,
        String.append_assoc]

/-- C11 (amended), at a concrete input: the alias `Times-Roman` under the native font
names is written as `font-family="Times,serif"`. -/
theorem svg_textpara_font_family_witness :
    svg_textpara (ijob (iobj black red .PEN_SOLID)) (ipt 27 18)
        { ipara with postscript_alias := some ialias }
      = .ok (gvputs (ijob (iobj black red .PEN_SOLID))
          ("<text text-anchor=\"start\" x=\"27\" y=\"-23\" font-family=\"Times,serif\""
            ++ " font-size=\"14.00\" fill=\"#000000\">a&lt;b</text>\n")) :=
  (svg_textpara_font_family IntExt (ijob (iobj black red .PEN_SOLID)) (ipt 27 18)
    { ipara with postscript_alias := some ialias }
    (fun t h => by simp [ijob, iobj, black] at h)
    (fun pA _ h => by simp [ijob] at h)).1

/-- C11, the claim fails: in SVG mode the alias whose SVG family is `serif` is written
as `font-family="serif,serif"`, not as `font-family="serif"`. -/
theorem svg_textpara_svg_family_twice :
    (svg_textpara { ijob (iobj black red .PEN_SOLID) with fontnames := .SVGFONTS }
        (ipt 27 18) { ipara with postscript_alias := some ialias }).written
      = some ("<text text-anchor=\"start\" x=\"27\" y=\"-23\" font-family=\"serif,serif\""
          ++ " font-size=\"14.00\" fill=\"#000000\">a&lt;b</text>\n")
    ∧ ¬ (" font-family=\"serif\"".data
          <:+: ("<text text-anchor=\"start\" x=\"27\" y=\"-23\" font-family=\"serif,serif\""
          ++ " font-size=\"14.00\" fill=\"#000000\">a&lt;b</text>\n").data) := by
  refine ⟨rfl, ?_⟩
  decide
/-- The whole text of `svg_textpara` for a supported pen colour. -/
theorem svg_textpara_text {E : Ext} (job : GVJ_t E) (p : pointf E) (para : textpara_t E)
    (hcol : ∀ t : Nat, job.obj.pencolor ≠ .OTHER t)
    (hfam : ∀ pA : PostscriptAlias, para.postscript_alias = some pA →
      job.fontnames = .SVGFONTS → pA.svg_font_family ≠ none) :
    svg_textpara job p para
      = .ok (gvputs job ("<text" ++ anchorText para.just ++ " x=\"" ++ E.fmt_g p.x
          ++ "\" y=\"" ++ E.fmt_g (E.neg (E.add p.y para.yoffset_centerline)) ++ "\""
          ++ fontText job.fontnames para.fontname para.postscript_alias
          ++ " font-size=\"" ++ E.fmt_2f para.fontsize ++ "\""
          ++ fillText job.obj.pencolor
          ++ ">" ++ E.xml_string para.str ++ "</text>" ++ "\n")) :=
  svg_textpara_eq job p para
    (fontText job.fontnames para.fontname para.postscript_alias)
    (fillText job.obj.pencolor)
    (fun j hj => by
      rw [svg_textpara_font_eq j para (fun pA hpa hsvg => hfam pA hpa (hj ▸ hsvg)), hj])
    (fun j hj => by rw [svg_textpara_fill_eq j (fun t => hj ▸ hcol t), hj])

theorem strcasecmp_ne_black (s : String) :
    strcasecmp_ne s "black" = false ↔ s.data.map asciiLower = "black".data := by
  have hb : "black".data.map asciiLower = "black".data := by decide
  simp only [strcasecmp_ne, hb, bne_eq_false_iff_eq]

theorem fill_attr_ne_empty (V : String) : " fill=\"" ++ V ++ "\"" ≠ "" := by
  intro h
  have h2 := congrArg String.length h
  simp at h2
  exact absurd h2.2 (by decide)

/-- The fill attribute is missing exactly for the string colour that is `black` up to
the case of its ASCII letters. -/
theorem fillText_empty_iff (c : gvcolor_t) (hcol : ∀ t : Nat, c ≠ .OTHER t) :
    fillText c = ""
      ↔ ∃ s : String, c = .COLOR_STRING s ∧ s.data.map asciiLower = "black".data := by
  cases c with
  | COLOR_STRING s =>
    cases hb : strcasecmp_ne s "black"
    · simp only [fillText, hb, Bool.false_eq_true, if_false, true_iff]
      exact ⟨s, rfl, (strcasecmp_ne_black s).1 hb⟩
    · simp only [fillText, hb, if_true]
      constructor
      · intro h
        exact absurd h (fill_attr_ne_empty s)
      · rintro ⟨s2, hs, hl⟩
        cases hs
        have := (strcasecmp_ne_black s).2 hl
        rw [hb] at this
        cases this
  | RGBA_BYTE r g b a =>
    simp only [fillText]
    constructor
    · intro h
      have h2 := congrArg String.length h
      simp at h2
      exact absurd h2.2 (by decide)
    · rintro ⟨s2, hs, _⟩
      cases hs
  | OTHER t => exact absurd rfl (hcol t)

theorem fillText_form (c : gvcolor_t)
    (h : ¬ ∃ s : String, c = .COLOR_STRING s ∧ s.data.map asciiLower = "black".data)
    (hcol : ∀ t : Nat, c ≠ .OTHER t) :
    ∃ V : String, fillText c = " fill=\"" ++ V ++ "\"" := by
  cases c with
  | COLOR_STRING s =>
    cases hb : strcasecmp_ne s "black"
    · exact absurd ⟨s, rfl, (strcasecmp_ne_black s).1 hb⟩ h
    · exact ⟨s, by simp only [fillText, hb, if_true]⟩
  | RGBA_BYTE r g b a =>
    refine ⟨"#" ++ fmt_02x r ++ fmt_02x g ++ fmt_02x b, ?_⟩
    simp only [fillText]
    apply String.ext
    simp
  | OTHER t => exact absurd rfl (hcol t)

/-! ## The attributes of the `<text>` start tag -/

theorem quotes_append (a b : String) : quotes (a ++ b) = quotes a + quotes b := by
  simp only [quotes, String.data_append, List.count_append]

theorem attrScan_append (s : AttrMode × List (List Char)) (a b : List Char) :
    attrScan s (a ++ b) = attrScan (attrScan s a) b := by
  simp only [attrScan, List.foldl_append]

theorem attrScan_nil (s : AttrMode × List (List Char)) : attrScan s [] = s := rfl

/-- Inside a value, characters other than the double quote are passed over. -/
theorem attrScan_value_list (names : List (List Char)) (cs : List Char)
    (h : cs.count (Char.ofNat 34) = 0) : attrScan (.value, names) cs = (.value, names) := by
  induction cs with
  | nil => rfl
  | cons c cs ih =>
    have hc : c ≠ Char.ofNat 34 := by
      intro hc
      rw [hc, List.count_cons_self] at h
      omega
    have hcs : cs.count (Char.ofNat 34) = 0 := by
      rw [List.count_cons_of_ne (Ne.symm hc)] at h
      exact h
    show attrScan (attrStep (.value, names) c) cs = (.value, names)
    simp only [attrStep, hc, if_false]
    exact ih hcs

theorem attrScan_value (names : List (List Char)) (v : String) (h : quotes v = 0) :
    attrScan (.value, names) v.data = (.value, names) :=
  attrScan_value_list names v.data h

theorem attrScan_finished (names : List (List Char)) (cs : List Char) :
    attrScan (.finished, names) cs = (.finished, names) := by
  induction cs with
  | nil => rfl
  | cons c cs ih => exact ih

theorem digitChar_ne_quote (d : Nat) : digitChar d ≠ Char.ofNat 34 := by
  unfold digitChar
  split <;> decide

theorem quotes_fmt_02x (v : Fin 256) : quotes (fmt_02x v) = 0 := by
  rw [fmt_02x_byte]
  simp only [quotes, List.count_cons, List.count_nil, beq_iff_eq, digitChar_ne_quote,
    if_false, Nat.add_zero]

/-- An attribute that may be missing adds its name when it is written. -/
theorem attrScan_optAttr (names : List (List Char)) (lit : String) (nm : List Char)
    (w : Option String)
    (hlit : ∀ names : List (List Char),
      attrScan (.word [], names) lit.data = (.value, names ++ [nm]))
    (hw : optQuotes w = 0) :
    attrScan (.word [], names) (optAttr lit w "\"").data
      = (.word [], names ++ optName w nm) := by
  cases w with
  | none => simp only [optAttr, optName, List.append_nil]; rfl
  | some v =>
    simp only [optAttr, optName, String.data_append, attrScan_append, hlit,
      attrScan_value _ v hw]
    rfl

theorem optQuotes_getD (w : Option String) (h : optQuotes w = 0) : quotes (w.getD "") = 0 := by
  cases w with
  | none => rfl
  | some v => exact h

theorem quotes_optAttr_comma (w : Option String) (h : optQuotes w = 0) :
    quotes (optAttr "," w "") = 0 := by
  cases w with
  | none => rfl
  | some v =>
    have hv : quotes v = 0 := h
    have h1 : quotes "," = 0 := by decide
    have h2 : quotes "" = 0 := by decide
    simp only [optAttr, quotes_append, hv, h1, h2]

theorem count_fill_optName (w : Option String) (nm : List Char) (h : nm ≠ "fill".data) :
    (optName w nm).count "fill".data = 0 := by
  cases w with
  | none => rfl
  | some v =>
    simp only [optName, List.count_cons, List.count_nil, beq_iff_eq, h, if_false]

theorem count_fill_otherFontNames (fontnames : fontname_kind) (pa : Option PostscriptAlias) :
    (otherFontNames fontnames pa).count "fill".data = 0 := by
  cases pa with
  | none => rfl
  | some pA =>
    simp only [otherFontNames, List.count_append,
      count_fill_optName _ "font-weight".data (by decide),
      count_fill_optName _ "font-stretch".data (by decide),
      count_fill_optName _ "font-style".data (by decide)]

/-- The font block adds the attribute `font-family` and the other font attributes it
writes, when the font name and the alias strings have no double quote. -/
theorem attrScan_fontText (names : List (List Char)) (fontnames : fontname_kind)
    (fontname : String) (pa : Option PostscriptAlias) (hq : fontQuotes fontname pa = 0) :
    attrScan (.word [], names) (fontText fontnames fontname pa).data
      = (.word [], names ++ ["font-family".data] ++ otherFontNames fontnames pa) := by
  have hfam : ∀ names : List (List Char),
      attrScan (.word [], names) " font-family=\"".data
        = (.value, names ++ ["font-family".data]) := fun _ => rfl
  have hclose : ∀ names : List (List Char),
      attrScan (.value, names) "\"".data = (.word [], names) := fun _ => rfl
  cases pa with
  | none =>
    have hn : quotes fontname = 0 := by
      simp only [fontQuotes, Nat.add_zero] at hq
      exact hq
    simp only [fontText, otherFontNames, String.data_append, attrScan_append, hfam,
      attrScan_value _ _ hn, hclose, List.append_nil]
  | some pA =>
    simp only [fontQuotes, Nat.add_eq_zero_iff] at hq
    obtain ⟨_, ⟨⟨⟨⟨⟨⟨h1, h2⟩, h3⟩, h4⟩, h5⟩, h6⟩, h7⟩, h8⟩ := hq
    have hc := quotes_optAttr_comma pA.svg_font_family h6
    have hg := optQuotes_getD pA.svg_font_family h6
    have hw : ∀ names : List (List Char),
        attrScan (.word [], names) " font-weight=\"".data
          = (.value, names ++ ["font-weight".data]) := fun _ => rfl
    have hs : ∀ names : List (List Char),
        attrScan (.word [], names) " font-stretch=\"".data
          = (.value, names ++ ["font-stretch".data]) := fun _ => rfl
    have hy : ∀ names : List (List Char),
        attrScan (.word [], names) " font-style=\"".data
          = (.value, names ++ ["font-style".data]) := fun _ => rfl
    cases fontnames with
    | NATIVEFONTS =>
      simp only [fontText, otherFontNames, String.data_append, attrScan_append, hfam,
        attrScan_value _ _ h2, attrScan_value _ _ hc, hclose,
        attrScan_optAttr _ _ _ _ hw h3, attrScan_optAttr _ _ _ _ hs h4,
        attrScan_optAttr _ _ _ _ hy h5, List.append_assoc]
    | PSFONTS =>
      simp only [fontText, otherFontNames, String.data_append, attrScan_append, hfam,
        attrScan_value _ _ h1, attrScan_value _ _ hc, hclose,
        attrScan_optAttr _ _ _ _ hw h3, attrScan_optAttr _ _ _ _ hs h4,
        attrScan_optAttr _ _ _ _ hy h5, List.append_assoc]
    | SVGFONTS =>
      simp only [fontText, otherFontNames, String.data_append, attrScan_append, hfam,
        attrScan_value _ _ hg, attrScan_value _ _ hc, hclose,
        attrScan_optAttr _ _ _ _ hw h7, attrScan_optAttr _ _ _ _ hs h4,
        attrScan_optAttr _ _ _ _ hy h8, List.append_assoc]

/-- The fill block adds the attribute `fill` once when it writes anything, and
nothing otherwise, when the colour string has no double quote. -/
theorem attrScan_fillText (names : List (List Char)) (c : gvcolor_t)
    (hq : colorQuotes c = 0) :
    attrScan (.word [], names) (fillText c).data
      = (.word [], names ++ (if fillText c = "" then [] else ["fill".data])) := by
  have hclose : ∀ names : List (List Char),
      attrScan (.value, names) "\"".data = (.word [], names) := fun _ => rfl
  cases c with
  | COLOR_STRING s =>
    have hs : quotes s = 0 := hq
    have hfill : ∀ names : List (List Char),
        attrScan (.word [], names) " fill=\"".data = (.value, names ++ ["fill".data]) :=
      fun _ => rfl
    cases hb : strcasecmp_ne s "black"
    · simp only [fillText, hb, Bool.false_eq_true, if_false, if_true, List.append_nil]
      rfl
    · simp only [fillText, hb, if_true, fill_attr_ne_empty, if_false, String.data_append,
        attrScan_append, hfill, attrScan_value _ _ hs, hclose]
  | RGBA_BYTE r g b a =>
    have hfill : ∀ names : List (List Char),
        attrScan (.word [], names) " fill=\"#".data = (.value, names ++ ["fill".data]) :=
      fun _ => rfl
    have hne : " fill=\"#" ++ fmt_02x r ++ fmt_02x g ++ fmt_02x b ++ "\"" ≠ "" := by
      intro h
      have h2 := congrArg String.length h
      simp at h2
      exact absurd h2.2 (by decide)
    simp only [fillText, hne, if_false, String.data_append, attrScan_append, hfill,
      attrScan_value _ _ (quotes_fmt_02x r), attrScan_value _ _ (quotes_fmt_02x g),
      attrScan_value _ _ (quotes_fmt_02x b), hclose]
  | OTHER t =>
    simp only [fillText, if_true, List.append_nil]
    rfl

/-- The attributes of the `<text>` start tag, when the values written have no double
quote: the anchor, the position, the font attributes, the font size and, when the fill
block writes anything, `fill`. -/
theorem attributes_text (just : Char) (X Y S content : String)
    (fontnames : fontname_kind) (fontname : String) (pa : Option PostscriptAlias)
    (c : gvcolor_t) (hX : quotes X = 0) (hY : quotes Y = 0) (hS : quotes S = 0)
    (hf : fontQuotes fontname pa = 0) (hc : colorQuotes c = 0) :
    attributes ("<text" ++ anchorText just ++ " x=\"" ++ X ++ "\" y=\"" ++ Y ++ "\""
        ++ fontText fontnames fontname pa ++ " font-size=\"" ++ S ++ "\""
        ++ fillText c ++ ">" ++ content ++ "</text>" ++ "\n")
      = ["text-anchor".data, "x".data, "y".data, "font-family".data]
          ++ otherFontNames fontnames pa ++ ["font-size".data]
          ++ (if fillText c = "" then [] else ["fill".data]) := by
  have h0 : attrScan (.word [], []) "<text".data = (.word "<text".data, []) := rfl
  have hanchor : ∀ (acc : List Char) (names : List (List Char)),
      attrScan (.word acc, names) (anchorText just).data
        = (.word [], names ++ ["text-anchor".data]) := by
    intro acc names
    unfold anchorText
    split
    · rfl
    · split <;> rfl
  have hx : ∀ names : List (List Char),
      attrScan (.word [], names) " x=\"".data = (.value, names ++ ["x".data]) := fun _ => rfl
  have hy : ∀ names : List (List Char),
      attrScan (.value, names) "\" y=\"".data = (.value, names ++ ["y".data]) := fun _ => rfl
  have hclose : ∀ names : List (List Char),
      attrScan (.value, names) "\"".data = (.word [], names) := fun _ => rfl
  have hsize : ∀ names : List (List Char),
      attrScan (.word [], names) " font-size=\"".data
        = (.value, names ++ ["font-size".data]) := fun _ => rfl
  have hend : ∀ names : List (List Char),
      attrScan (.word [], names) ">".data = (.finished, names) := fun _ => rfl
  simp only [attributes, String.append_assoc, String.data_append, attrScan_append, h0,
    hanchor, hx, attrScan_value _ _ hX, hy, attrScan_value _ _ hY, hclose,
    attrScan_fontText _ _ _ _ hf, hsize, attrScan_value _ _ hS, attrScan_fillText _ _ hc,
    hend, attrScan_finished]
  simp only [List.nil_append, List.append_assoc, List.cons_append, List.singleton_append]

/-- C12 (amended): for every text block and every pen colour that is a string or RGBA
bytes, where the font name, the alias strings, the pen colour string and the numbers
written contain no double quote, the `<text>` element written by `svg_textpara` has no
fill attribute if and only if the pen colour is a string colour equal to `black` under
ASCII case-insensitive comparison (`black`, `Black`, `BLACK`); for every other pen
colour, such as `red`, the start tag has exactly one fill attribute. -/
theorem svg_textpara_fill_unless_black (E : Ext) (job : GVJ_t E) (p : pointf E)
    (para : textpara_t E) (hcol : ∀ t : Nat, job.obj.pencolor ≠ .OTHER t)
    (hfam : ∀ pA : PostscriptAlias, para.postscript_alias = some pA →
      job.fontnames = .SVGFONTS → pA.svg_font_family ≠ none)
    (hX : quotes (E.fmt_g p.x) = 0)
    (hY : quotes (E.fmt_g (E.neg (E.add p.y para.yoffset_centerline))) = 0)
    (hS : quotes (E.fmt_2f para.fontsize) = 0)
    (hf : fontQuotes para.fontname para.postscript_alias = 0)
    (hc : colorQuotes job.obj.pencolor = 0) :
    (∃ text : String, svg_textpara job p para = .ok (gvputs job text)
      ∧ attributes text
          = ["text-anchor".data, "x".data, "y".data, "font-family".data]
            ++ otherFontNames job.fontnames para.postscript_alias ++ ["font-size".data]
            ++ (if (attributes text).count "fill".data = 0 then [] else ["fill".data])
      ∧ ((attributes text).count "fill".data = 0
          ↔ ∃ s : String, job.obj.pencolor = .COLOR_STRING s
              ∧ s.data.map asciiLower = "black".data)
      ∧ ((¬ ∃ s : String, job.obj.pencolor = .COLOR_STRING s
              ∧ s.data.map asciiLower = "black".data)
          → (attributes text).count "fill".data = 1))
    ∧ strcasecmp_ne "black" "black" = false ∧ strcasecmp_ne "Black" "black" = false
    ∧ strcasecmp_ne "BLACK" "black" = false ∧ strcasecmp_ne "red" "black" = true := by
  refine ⟨⟨_, svg_textpara_text job p para hcol hfam, ?_⟩, by decide, by decide, by decide,
    by decide⟩
  have hattr := attributes_text para.just (E.fmt_g p.x)
    (E.fmt_g (E.neg (E.add p.y para.yoffset_centerline))) (E.fmt_2f para.fontsize)
    (E.xml_string para.str) job.fontnames para.fontname para.postscript_alias
    job.obj.pencolor hX hY hS hf hc
  have hcount : (attributes ("<text" ++ anchorText para.just ++ " x=\"" ++ E.fmt_g p.x
        ++ "\" y=\"" ++ E.fmt_g (E.neg (E.add p.y para.yoffset_centerline)) ++ "\""
        ++ fontText job.fontnames para.fontname para.postscript_alias
        ++ " font-size=\"" ++ E.fmt_2f para.fontsize ++ "\""
        ++ fillText job.obj.pencolor
        ++ ">" ++ E.xml_string para.str ++ "</text>" ++ "\n")).count "fill".data
      = if fillText job.obj.pencolor = "" then 0 else 1 := by
    rw [hattr]
    have hbase : (["text-anchor".data, "x".data, "y".data, "font-family".data]).count
        "fill".data = 0 := by decide
    have hsize : (["font-size".data]).count "fill".data = 0 := by decide
    have hnil : ([] : List (List Char)).count "fill".data = 0 := rfl
    have hone : (["fill".data]).count "fill".data = 1 := by decide
    rw [List.count_append, List.count_append, List.count_append, hbase,
      count_fill_otherFontNames, hsize]
    by_cases hb : fillText job.obj.pencolor = ""
    · rw [if_pos hb, if_pos hb, hnil]
    · rw [if_neg hb, if_neg hb, hone]
  have hiff := fillText_empty_iff job.obj.pencolor hcol
  by_cases hb : fillText job.obj.pencolor = ""
  · rw [hb] at hcount hattr ⊢
    simp only [if_true] at hcount hattr
    refine ⟨?_, ?_, ?_⟩
    · rw [hcount, hattr]
      simp only [if_true]
    · rw [hcount]
      simp only [true_iff]
      exact hiff.1 hb
    · intro hne
      exact absurd (hiff.1 hb) hne
  · simp only [hb, if_false] at hcount hattr
    refine ⟨?_, ?_, ?_⟩
    · rw [hcount, hattr]
      simp only [Nat.one_ne_zero, if_false]
    · rw [hcount]
      simp only [Nat.one_ne_zero, false_iff]
      intro h
      exact hb (hiff.2 h)
    · intro _
      exact hcount

/-- C12 (amended), at a concrete input: the pen colour `BLACK` gives a `<text>` start
tag without a fill attribute. -/
theorem svg_textpara_fill_unless_black_witness :
    ∃ text : String,
      svg_textpara (ijob (iobj (.COLOR_STRING "BLACK") red .PEN_SOLID)) (ipt 27 18) ipara
        = .ok (gvputs (ijob (iobj (.COLOR_STRING "BLACK") red .PEN_SOLID)) text)
      ∧ attributes text
          = ["text-anchor".data, "x".data, "y".data, "font-family".data]
            ++ otherFontNames .NATIVEFONTS none ++ ["font-size".data]
            ++ (if (attributes text).count "fill".data = 0 then [] else ["fill".data])
      ∧ ((attributes text).count "fill".data = 0
          ↔ ∃ s : String, GvSvg.gvcolor_t.COLOR_STRING "BLACK" = .COLOR_STRING s
              ∧ s.data.map asciiLower = "black".data)
      ∧ ((¬ ∃ s : String, GvSvg.gvcolor_t.COLOR_STRING "BLACK" = .COLOR_STRING s
              ∧ s.data.map asciiLower = "black".data)
          → (attributes text).count "fill".data = 1) :=
  (svg_textpara_fill_unless_black IntExt
    (ijob (iobj (.COLOR_STRING "BLACK") red .PEN_SOLID)) (ipt 27 18) ipara
    (fun t h => by simp [ijob, iobj] at h)
    (fun pA h _ => by simp [ipara] at h)
    (by decide) (by decide) (by decide) (by decide) (by decide)).1

/-- C12, the claim fails: with the pen colour `black` and the font name
`Times" fill="red` the `<text>` start tag has a fill attribute, and with the pen colour
string `red" fill="blue` it has two. -/
theorem svg_textpara_fill_injected :
    (svg_textpara (ijob (iobj (.COLOR_STRING "black") red .PEN_SOLID)) (ipt 27 18)
        { ipara with fontname := "Times\" fill=\"red" }).written
      = some ("<text text-anchor=\"start\" x=\"27\" y=\"-23\""
          ++ " font-family=\"Times\" fill=\"red\" font-size=\"14.00\">a&lt;b</text>\n")
    ∧ (attributes ("<text text-anchor=\"start\" x=\"27\" y=\"-23\""
          ++ " font-family=\"Times\" fill=\"red\" font-size=\"14.00\">a&lt;b</text>\n")).count
        "fill".data = 1
    ∧ (svg_textpara (ijob (iobj (.COLOR_STRING "red\" fill=\"blue") red .PEN_SOLID))
        (ipt 27 18) ipara).written
      = some ("<text text-anchor=\"start\" x=\"27\" y=\"-23\" font-family=\"Times\""
          ++ " font-size=\"14.00\" fill=\"red\" fill=\"blue\">a&lt;b</text>\n")
    ∧ (attributes ("<text text-anchor=\"start\" x=\"27\" y=\"-23\" font-family=\"Times\""
          ++ " font-size=\"14.00\" fill=\"red\" fill=\"blue\">a&lt;b</text>\n")).count
        "fill".data = 2 := by
  refine ⟨rfl, ?_, rfl, ?_⟩ <;> decide

/-- C13, the code departs from the colour formatter: for RGBA bytes the fill block of
`svg_textpara` writes `#rrggbb` whatever the alpha byte is, so for the transparent
pen colour (255, 0, 0, 0) the `<text>` element carries `fill="#ff0000"`, where
`svg_print_color` writes `none` for the same colour. -/
theorem svg_textpara_transparent_pen :
    (∀ (E : Ext) (job : GVJ_t E) (r g b a : Fin 256),
      svg_textpara_fill { job with obj := { job.obj with pencolor := .RGBA_BYTE r g b a } }
        = .ok (gvputs { job with obj := { job.obj with pencolor := .RGBA_BYTE r g b a } }
            (" fill=\"#" ++ fmt_02x r ++ fmt_02x g ++ fmt_02x b ++ "\"")))
    ∧ (svg_textpara (ijob (iobj (.RGBA_BYTE 255 0 0 0) red .PEN_SOLID)) (ipt 27 18)
        ipara).written
      = some ("<text text-anchor=\"start\" x=\"27\" y=\"-23\" font-family=\"Times\""
          ++ " font-size=\"14.00\" fill=\"#ff0000\">a&lt;b</text>\n")
    ∧ (svg_print_color (ijob (iobj (.RGBA_BYTE 255 0 0 0) red .PEN_SOLID))
        (.RGBA_BYTE 255 0 0 0)).written = some "none" := by
  refine ⟨?_, rfl, rfl⟩
  intro E job r g b a
  simp only [svg_textpara_fill]
/-! ## The anchor, the job, the graph and the page -/

/-- The text of `svg_begin_anchor`. -/
theorem svg_begin_anchor_eq {E : Ext} (job : GVJ_t E) (href tooltip target id : Option String) :
    svg_begin_anchor job href tooltip target id
      = .ok (gvputs job ("<a"
          ++ optAttr " xlink:href=\"" ((nonEmpty href).map E.xml_url_string) "\""
          ++ optAttr " xlink:title=\"" ((nonEmpty tooltip).map E.xml_string) "\""
          ++ optAttr " target=\"" ((nonEmpty target).map E.xml_string) "\""
          ++ ">\n")) := by
  cases h1 : nonEmpty href <;> cases h2 : nonEmpty tooltip <;>
    cases h3 : nonEmpty target <;>
    simp only [svg_begin_anchor, h1, h2, h3, gvputs_gvputs, optAttr, Option.map,
      String.append_assoc, String.append_empty, String.empty_append]

theorem nonEmpty_eq_some (p : Option String) (s : String) :
    nonEmpty p = some s ↔ p = some s ∧ s ≠ "" := by
  cases p with
  | none => simp [nonEmpty]
  | some t =>
    by_cases ht : t = ""
    · subst ht
      simp only [nonEmpty, ne_eq, not_true_eq_false, if_false, Option.some.injEq]
      constructor
      · intro h
        cases h
      · rintro ⟨h, h2⟩
        exact absurd h.symm h2
    · simp only [nonEmpty, ne_eq, ht, not_false_eq_true, if_true, Option.some.injEq]
      constructor
      · intro h
        exact ⟨h, h ▸ ht⟩
      · intro h
        exact h.1

/-- C14: `svg_begin_anchor` writes `<a`, then ` xlink:href="U"` if and only if the
href is present and non-empty (U its URL-escaped form), then ` xlink:title="T"` if and
only if the tooltip is present and non-empty, then ` target="G"` if and only if the
target is present and non-empty (T and G XML-escaped), then `>` and a newline, in that
order; the element is still written when the href is empty, and the output does not
depend on the id argument. With the escapers of the concrete host, the href
`http://x/?a&b`, the tooltip `hi<>` and the target `_blank` give
`<a xlink:href="http://x/?a&amp;b" xlink:title="hi&lt;&gt;" target="_blank">` and a
newline. -/
theorem svg_begin_anchor_writes (E : Ext) (job : GVJ_t E)
    (href tooltip target id : Option String) :
    svg_begin_anchor job href tooltip target id
      = .ok (gvputs job ("<a"
          ++ optAttr " xlink:href=\"" ((nonEmpty href).map E.xml_url_string) "\""
          ++ optAttr " xlink:title=\"" ((nonEmpty tooltip).map E.xml_string) "\""
          ++ optAttr " target=\"" ((nonEmpty target).map E.xml_string) "\""
          ++ ">\n"))
    ∧ (∀ (p : Option String) (s : String), nonEmpty p = some s ↔ p = some s ∧ s ≠ "")
    ∧ (∀ (before after : String) (s : Option String),
        optAttr before s after
          = match s with
            | some v => before ++ v ++ after
            | none => "")
    ∧ svg_begin_anchor job (some "") none none id = .ok (gvputs job ("<a" ++ ">\n"))
    ∧ svg_begin_anchor job none none none id = .ok (gvputs job ("<a" ++ ">\n"))
    ∧ (∀ other : Option String,
        svg_begin_anchor job href tooltip target id
          = svg_begin_anchor job href tooltip target other)
    ∧ (svg_begin_anchor (ijob (iobj black red .PEN_SOLID)) (some "http://x/?a&b")
          (some "hi<>") (some "_blank") id).written
        = some ("<a xlink:href=\"http://x/?a&amp;b\" xlink:title=\"hi&lt;&gt;\""
            ++ " target=\"_blank\">\n") := by
  refine ⟨svg_begin_anchor_eq job href tooltip target id, nonEmpty_eq_some, ?_, ?_, ?_,
    fun _ => rfl, rfl⟩
  · intro before after s
    cases s <;> rfl
  · simp only [svg_begin_anchor, nonEmpty, ne_eq, not_true_eq_false, if_false, gvputs_gvputs]
  · simp only [svg_begin_anchor, nonEmpty, gvputs_gvputs]
theorem isAscii_loop_iff (s : List Char) :
    isAscii_loop s = true ↔ ∀ c ∈ s, c.toNat < 128 := by
  induction s with
  | nil => simp [isAscii_loop]
  | cons c s ih =>
    by_cases hc : c.toNat < 128
    · simp only [isAscii_loop, hc, if_true, ih, List.mem_cons, forall_eq_or_imp, true_and]
    · simp only [isAscii_loop, hc, if_false, List.mem_cons, forall_eq_or_imp, false_and,
        Bool.false_eq_true]

/-- C15: the generator comment written by `svg_begin_job` contains the line
`For user: <name>` if and only if every character of the user name is ASCII (`isAscii`
returns true, which includes the empty name): with an ASCII name the comment is
`<!-- Generated by G version V (B)`, a newline, five spaces and `For user: U -->`,
and with a name holding a non-ASCII character it is `<!-- Generated by G version V (B)`,
a newline and ` -->`, with no user text at all; G, V, B and U are the escaped
generator name, version, build tag and user name. For the generator `gv`, version `1`,
build `b` and user `alice` the comment is `<!-- Generated by gv version 1 (b)`, a
newline and `     For user: alice -->`. -/
theorem svg_begin_job_comment (E : Ext) (job : GVJ_t E) :
    svg_begin_job job
      = .ok (gvputs job ("<?xml version=\"1.0\" encoding=\"UTF-8\" standalone=\"no\"?>\n"
          ++ stylesheetText job.stylesheet
          ++ "<!DOCTYPE svg PUBLIC \"-//W3C//DTD SVG 1.1//EN\"\n"
          ++ " \"http://www.w3.org/Graphics/SVG/1.1/DTD/svg11.dtd\">\n"
          ++ (if isAscii job.user = true then
                "<!-- Generated by " ++ E.xml_string job.info0 ++ " version "
                  ++ E.xml_string job.info1 ++ " (" ++ E.xml_string job.info2
                  ++ ")\n     For user: " ++ E.xml_string job.user ++ " -->\n"
              else
                "<!-- Generated by " ++ E.xml_string job.info0 ++ " version "
                  ++ E.xml_string job.info1 ++ " (" ++ E.xml_string job.info2
                  ++ ")\n" ++ " -->\n")))
    ∧ (isAscii job.user = true ↔ ∀ c ∈ job.user.data, c.toNat < 128)
    ∧ isAscii "" = true
    ∧ (svg_begin_job (ijob (iobj black red .PEN_SOLID))).written
        = some ("<?xml version=\"1.0\" encoding=\"UTF-8\" standalone=\"no\"?>\n"
            ++ "<!DOCTYPE svg PUBLIC \"-//W3C//DTD SVG 1.1//EN\"\n"
            ++ " \"http://www.w3.org/Graphics/SVG/1.1/DTD/svg11.dtd\">\n"
            ++ "<!-- Generated by gv version 1 (b)\n     For user: alice -->\n")
    ∧ (svg_begin_job { ijob (iobj black red .PEN_SOLID) with user := "zoë" }).written
        = some ("<?xml version=\"1.0\" encoding=\"UTF-8\" standalone=\"no\"?>\n"
            ++ "<!DOCTYPE svg PUBLIC \"-//W3C//DTD SVG 1.1//EN\"\n"
            ++ " \"http://www.w3.org/Graphics/SVG/1.1/DTD/svg11.dtd\">\n"
            ++ "<!-- Generated by gv version 1 (b)\n -->\n") := by
  refine ⟨?_, isAscii_loop_iff job.user.data, rfl, rfl, rfl⟩
  rw [svg_begin_job_eq]
  cases hu : isAscii job.user <;>
    simp only [if_true, if_false, Bool.false_eq_true, String.append_assoc]
/-- The `%d` text of an unsigned value below 2^31 is its decimal digits. -/
theorem fmt_d_nat (n : Nat) (h : n < 2147483648) :
    fmt_d (int32 (n : Int)) = String.mk (digits 10 n) := by
  have h2 : int32 (n : Int) = (n : Int) := by
    unfold int32
    omega
  rw [h2]
  rfl

/-- C16 (amended): after its comment, `svg_begin_graph` writes the start tag of the root
element as `<svg width="Wpt" height="Hpt"`, a newline, then
` viewBox="LLx LLy URx URy" xmlns="http://www.w3.org/2000/svg"
xmlns:xlink="http://www.w3.org/1999/xlink">` and a newline, where W and H are the
job's integer width and height (below 2^31) in decimal and the four viewBox numbers are
the canvas box coordinates, each with two fractional digits, LL.y not negated: the
height and the viewBox attribute are separated by a newline and a space, the other
consecutive attributes by a single space. -/
theorem svg_begin_graph_writes (E : Ext) (job : GVJ_t E)
    (hw : job.width < 2147483648) (hh : job.height < 2147483648) :
    svg_begin_graph job
      = .ok (gvputs job ("<!--"
          ++ (if E.agnameof job.obj.u ≠ "" then
                " Title: " ++ E.xml_string (E.agnameof job.obj.u) else "")
          ++ " Pages: " ++ fmt_d (int32 (job.pagesArraySize_x * job.pagesArraySize_y))
          ++ " -->\n"
          ++ "<svg width=\"" ++ String.mk (digits 10 job.width) ++ "pt\" height=\""
          ++ String.mk (digits 10 job.height) ++ "pt\"\n"
          ++ " viewBox=\"" ++ E.fmt_2f job.canvasBox.LL.x ++ " "
          ++ E.fmt_2f job.canvasBox.LL.y ++ " " ++ E.fmt_2f job.canvasBox.UR.x ++ " "
          ++ E.fmt_2f job.canvasBox.UR.y ++ "\""
          ++ " xmlns=\"http://www.w3.org/2000/svg\""
          ++ " xmlns:xlink=\"http://www.w3.org/1999/xlink\"" ++ ">\n")) := by
  rw [svg_begin_graph_eq, fmt_d_nat job.width hw, fmt_d_nat job.height hh]

/-- C16 (amended), at a concrete input: the graph `obj1` on a canvas of 72 by 72
points. -/
theorem svg_begin_graph_writes_witness :
    svg_begin_graph (ijob (iobj black red .PEN_SOLID))
      = .ok (gvputs (ijob (iobj black red .PEN_SOLID))
          ("<!-- Title: obj1 Pages: 1 -->\n"
            ++ "<svg width=\"72pt\" height=\"72pt\"\n"
            ++ " viewBox=\"0.00 0.00 72.00 72.00\" xmlns=\"http://www.w3.org/2000/svg\""
            ++ " xmlns:xlink=\"http://www.w3.org/1999/xlink\">\n")) :=
  svg_begin_graph_writes IntExt (ijob (iobj black red .PEN_SOLID)) (by decide) (by decide)

/-- C16, the claim fails: for a width and a height of 72 and the canvas box
(0,0)-(72,72) the tag does not start with
`<svg width="72pt" height="72pt" viewBox="0.00 0.00 72.00 72.00"`: a newline and a
space, not a single space, stand between the height and the viewBox attribute. -/
theorem svg_begin_graph_newline_before_viewBox :
    (svg_begin_graph (ijob (iobj black red .PEN_SOLID))).written
      = some ("<!-- Title: obj1 Pages: 1 -->\n"
          ++ "<svg width=\"72pt\" height=\"72pt\"\n"
          ++ " viewBox=\"0.00 0.00 72.00 72.00\" xmlns=\"http://www.w3.org/2000/svg\""
          ++ " xmlns:xlink=\"http://www.w3.org/1999/xlink\">\n")
    ∧ ¬ ("<svg width=\"72pt\" height=\"72pt\" viewBox=\"0.00 0.00 72.00 72.00\"".data
          <:+: ("<!-- Title: obj1 Pages: 1 -->\n"
          ++ "<svg width=\"72pt\" height=\"72pt\"\n"
          ++ " viewBox=\"0.00 0.00 72.00 72.00\" xmlns=\"http://www.w3.org/2000/svg\""
          ++ " xmlns:xlink=\"http://www.w3.org/1999/xlink\">\n").data)
    ∧ ¬ ("pt\" viewBox".data
          <:+: ("<!-- Title: obj1 Pages: 1 -->\n"
          ++ "<svg width=\"72pt\" height=\"72pt\"\n"
          ++ " viewBox=\"0.00 0.00 72.00 72.00\" xmlns=\"http://www.w3.org/2000/svg\""
          ++ " xmlns:xlink=\"http://www.w3.org/1999/xlink\">\n").data) := by
  refine ⟨rfl, ?_, ?_⟩ <;> decide
/-- C17: `svg_begin_page` writes
`<g id="I" class="graph" transform="scale(sx sy) rotate(R) translate(tx T)">` and a
newline, where I is the escaped object id, sx and sy the job scale, R the negation of
the job's integer rotation (an `int` whose negation is an `int`), tx the X translation
and T the negated Y translation, and then `<title>`, the escaped graph name, `</title>`
and a newline if and only if the graph name is non-empty, and nothing else. -/
theorem svg_begin_page_writes (E : Ext) (job : GVJ_t E)
    (hlo : -2147483648 < job.rotation) (hhi : job.rotation < 2147483648) :
    svg_begin_page job
      = .ok (gvputs job ("<g id=\"" ++ E.xml_string job.obj.id ++ "\" class=\"graph\""
          ++ " transform=\"scale(" ++ E.fmt_g job.scale.x ++ " " ++ E.fmt_g job.scale.y
          ++ ") rotate(" ++ fmt_d (-job.rotation)
          ++ ") translate(" ++ E.fmt_g job.translation.x ++ " "
          ++ E.fmt_g (E.neg job.translation.y) ++ ")\">\n"
          ++ (if E.agnameof job.obj.u ≠ "" then
                "<title>" ++ E.xml_string (E.agnameof job.obj.u) ++ "</title>\n"
              else ""))) := by
  have h : int32 (-job.rotation) = -job.rotation := by
    unfold int32
    omega
  rw [svg_begin_page_eq, h]

/-- C17, at a concrete input: the page of the graph `obj1` with the id `node1`, the
scale (1, 1), the rotation 90 and the translation (4, 40). -/
theorem svg_begin_page_writes_witness :
    svg_begin_page { ijob (iobj black red .PEN_SOLID) with rotation := 90 }
      = .ok (gvputs { ijob (iobj black red .PEN_SOLID) with rotation := 90 }
          ("<g id=\"node1\" class=\"graph\""
            ++ " transform=\"scale(1 1) rotate(-90) translate(4 -40)\">\n"
            ++ "<title>obj1</title>\n")) :=
  svg_begin_page_writes IntExt { ijob (iobj black red .PEN_SOLID) with rotation := 90 }
    (by decide) (by decide)
/-! ## The known colours -/

theorem strcmp_eq_iff (a b : List Char) : strcmp a b = .eq ↔ a = b := by
  induction a generalizing b with
  | nil => cases b <;> simp [strcmp]
  | cons x s1 ih =>
    cases b with
    | nil => simp [strcmp]
    | cons y s2 =>
      simp only [strcmp, List.cons.injEq]
      by_cases h1 : x.toNat < y.toNat
      · simp only [h1, if_true, reduceCtorEq, false_iff, not_and]
        intro hxy
        subst hxy
        exact absurd h1 (Nat.lt_irrefl _)
      · by_cases h2 : y.toNat < x.toNat
        · simp only [h1, h2, if_true, if_false, reduceCtorEq, false_iff, not_and]
          intro hxy
          subst hxy
          exact absurd h2 (Nat.lt_irrefl _)
        · have hxy : x = y := by
            have h3 : x.toNat = y.toNat := by omega
            rw [← Char.ofNat_toNat x, ← Char.ofNat_toNat y, h3]
          subst hxy
          simp only [Nat.lt_irrefl, if_false, ih, true_and]

theorem strcmp_gt_iff (a b : List Char) : strcmp a b = .gt ↔ strcmp b a = .lt := by
  induction a generalizing b with
  | nil => cases b <;> simp [strcmp]
  | cons x s1 ih =>
    cases b with
    | nil => simp [strcmp]
    | cons y s2 =>
      simp only [strcmp]
      by_cases h1 : x.toNat < y.toNat
      · have h2 : ¬ y.toNat < x.toNat := by omega
        simp [h1, h2]
      · by_cases h2 : y.toNat < x.toNat
        · simp [h1, h2]
        · simp only [h1, h2, if_false, ih]

theorem strcmp_trans (a b c : List Char) (h1 : strcmp a b = .lt) (h2 : strcmp b c = .lt) :
    strcmp a c = .lt := by
  induction a generalizing b c with
  | nil =>
    cases b with
    | nil => simp [strcmp] at h1
    | cons y s2 =>
      cases c with
      | nil => simp [strcmp] at h2
      | cons z s3 => simp [strcmp]
  | cons x s1 ih =>
    cases b with
    | nil => simp [strcmp] at h1
    | cons y s2 =>
      cases c with
      | nil => simp [strcmp] at h2
      | cons z s3 =>
        simp only [strcmp] at h1 h2 ⊢
        by_cases hxy : x.toNat < y.toNat
        · by_cases hyz : y.toNat < z.toNat
          · have : x.toNat < z.toNat := by omega
            simp [this]
          · by_cases hzy : z.toNat < y.toNat
            · simp [hyz, hzy] at h2
            · have : x.toNat < z.toNat := by omega
              simp [this]
        · by_cases hyx : y.toNat < x.toNat
          · simp [hxy, hyx] at h1
          · simp only [hxy, hyx, if_false] at h1
            by_cases hyz : y.toNat < z.toNat
            · have : x.toNat < z.toNat := by omega
              simp [this]
            · by_cases hzy : z.toNat < y.toNat
              · simp [hyz, hzy] at h2
              · simp only [hyz, hzy, if_false] at h2
                have h3 : ¬ x.toNat < z.toNat := by omega
                have h4 : ¬ z.toNat < x.toNat := by omega
                simp only [h3, h4, if_false]
                exact ih s2 s3 h1 h2

/-- A table that passes the test `increasing` is increasing pairwise. -/
theorem increasing_pairwise (l : List String) (h : increasing l = true) :
    l.Pairwise (fun a b => strcmp a.data b.data = .lt) := by
  induction l with
  | nil => exact List.Pairwise.nil
  | cons a l ih =>
    cases l with
    | nil => exact List.pairwise_singleton _ _
    | cons b rest =>
      cases hc : strcmp a.data b.data with
      | lt =>
        simp only [increasing, hc] at h
        have ih2 := ih h
        refine List.Pairwise.cons ?_ ih2
        intro x hx
        rcases List.mem_cons.1 hx with hxb | hxr
        · rw [hxb]
          exact hc
        · exact strcmp_trans _ _ _ hc ((List.pairwise_cons.1 ih2).1 x hxr)
      | eq => simp [increasing, hc] at h
      | gt => simp [increasing, hc] at h

/-- A binary search over an increasing table finds exactly the entries in its
range. -/
theorem bsearch_loop_iff (key : String) (base : List String)
    (hs : base.Pairwise (fun a b => strcmp a.data b.data = .lt))
    (fuel lo hi : Nat) (hf : hi - lo ≤ fuel) (hhi : hi ≤ base.length) :
    bsearch_loop key base fuel lo hi = true
      ↔ ∃ i : Nat, lo ≤ i ∧ i < hi ∧ base[i]? = some key := by
  have hidx : ∀ (i j : Nat) (a b : String), i < j → base[i]? = some a → base[j]? = some b →
      strcmp a.data b.data = .lt := by
    intro i j a b hij ha hb
    obtain ⟨hi1, rfl⟩ := List.getElem?_eq_some_iff.1 ha
    obtain ⟨hj1, rfl⟩ := List.getElem?_eq_some_iff.1 hb
    exact List.pairwise_iff_getElem.1 hs i j hi1 hj1 hij
  induction fuel generalizing lo hi with
  | zero =>
    simp only [bsearch_loop, Bool.false_eq_true, false_iff, not_exists, not_and]
    intro i h1 h2
    omega
  | succ fuel ih =>
    by_cases hlt : lo < hi
    · have hmid : (lo + hi) / 2 < base.length := by omega
      have hget : base[(lo + hi) / 2]? = some (base[(lo + hi) / 2]) :=
        List.getElem?_eq_getElem hmid
      simp only [bsearch_loop, hlt, if_true, hget]
      cases hc : strcmp key.data (base[(lo + hi) / 2]).data with
      | lt =>
        simp only []
        refine (ih lo ((lo + hi) / 2) (by omega) (by omega)).trans ?_
        constructor
        · rintro ⟨i, h1, h2, h3⟩
          exact ⟨i, h1, by omega, h3⟩
        · rintro ⟨i, h1, h2, h3⟩
          refine ⟨i, h1, ?_, h3⟩
          by_contra hge
          rcases Nat.lt_or_ge ((lo + hi) / 2) i with hgt | hle
          · have := hidx _ _ _ _ hgt hget h3
            have h5 := (strcmp_gt_iff _ _).2 this
            rw [hc] at h5
            cases h5
          · have hie : i = (lo + hi) / 2 := by omega
            subst hie
            rw [hget] at h3
            have h6 : base[(lo + hi) / 2] = key := Option.some.inj h3
            rw [h6, (strcmp_eq_iff _ _).2 rfl] at hc
            cases hc
      | gt =>
        simp only []
        refine (ih ((lo + hi) / 2 + 1) hi (by omega) hhi).trans ?_
        constructor
        · rintro ⟨i, h1, h2, h3⟩
          exact ⟨i, by omega, h2, h3⟩
        · rintro ⟨i, h1, h2, h3⟩
          refine ⟨i, ?_, h2, h3⟩
          by_contra hge
          rcases Nat.lt_or_ge i ((lo + hi) / 2) with hgt | hle
          · have := hidx _ _ _ _ hgt h3 hget
            have h5 := (strcmp_gt_iff _ _).1 hc
            have h7 := strcmp_trans _ _ _ this h5
            rw [(strcmp_eq_iff _ _).2 rfl] at h7
            cases h7
          · have hie : i = (lo + hi) / 2 := by omega
            subst hie
            rw [hget] at h3
            have h6 : base[(lo + hi) / 2] = key := Option.some.inj h3
            rw [h6, (strcmp_eq_iff _ _).2 rfl] at hc
            cases hc
      | eq =>
        simp only [true_iff]
        have h6 : key.data = (base[(lo + hi) / 2]).data := (strcmp_eq_iff _ _).1 hc
        refine ⟨(lo + hi) / 2, by omega, by omega, ?_⟩
        rw [hget]
        exact congrArg some (String.ext h6.symm)
    · simp only [bsearch_loop, hlt, if_false, Bool.false_eq_true, false_iff, not_exists,
        not_and]
      intro i h1 h2
      omega

theorem svg_knowncolors_pairwise :
    svg_knowncolors.Pairwise (fun a b => strcmp a.data b.data = .lt) :=
  increasing_pairwise svg_knowncolors (by decide)

/-- C18: the table `svg_knowncolors` has exactly 147 entries, its first entry is
`aliceblue` and its last is `yellowgreen`, its names are made of the letters `a` to
`z`, and it is strictly increasing under `strcmp` (byte-wise order), hence free of
duplicates, so that a binary search over it finds a name if and only if the name is an
entry of the table; `render_features_svg` publishes this table with the count
`sizeof(svg_knowncolors) / sizeof(char *)`, which is 147. -/
theorem svg_knowncolors_sorted (sizeof_ptr : Nat) (hp : 0 < sizeof_ptr) :
    svg_knowncolors.length = 147
    ∧ svg_knowncolors.head? = some "aliceblue"
    ∧ svg_knowncolors.getLast? = some "yellowgreen"
    ∧ (∀ s ∈ svg_knowncolors, ∀ c ∈ s.data, 97 ≤ c.toNat ∧ c.toNat ≤ 122)
    ∧ (∀ (i j : Nat) (a b : String), i < j → svg_knowncolors[i]? = some a →
        svg_knowncolors[j]? = some b → strcmp a.data b.data = .lt)
    ∧ svg_knowncolors.Nodup
    ∧ (∀ name : String, bsearch name svg_knowncolors 147 = true ↔ name ∈ svg_knowncolors)
    ∧ (render_features_svg sizeof_ptr).knowncolors = svg_knowncolors
    ∧ (render_features_svg sizeof_ptr).sz_knowncolors = 147 := by
  have hlen : svg_knowncolors.length = 147 := by decide
  refine ⟨hlen, by decide, by decide, by decide, ?_, ?_, ?_, rfl, ?_⟩
  · intro i j a b hij ha hb
    obtain ⟨hi1, rfl⟩ := List.getElem?_eq_some_iff.1 ha
    obtain ⟨hj1, rfl⟩ := List.getElem?_eq_some_iff.1 hb
    exact List.pairwise_iff_getElem.1 svg_knowncolors_pairwise i j hi1 hj1 hij
  · refine svg_knowncolors_pairwise.imp ?_
    intro a b h hab
    rw [hab, (strcmp_eq_iff _ _).2 rfl] at h
    cases h
  · intro name
    unfold bsearch
    rw [bsearch_loop_iff name svg_knowncolors svg_knowncolors_pairwise 147 0 147
      (by omega) (by rw [hlen])]
    rw [List.mem_iff_getElem?]
    constructor
    · rintro ⟨i, _, _, h⟩
      exact ⟨i, h⟩
    · rintro ⟨i, h⟩
      refine ⟨i, Nat.zero_le _, ?_, h⟩
      have := (List.getElem?_eq_some_iff.1 h).1
      omega
  · show sizeof_array sizeof_ptr svg_knowncolors.length / sizeof_ptr = 147
    rw [hlen]
    unfold sizeof_array
    exact Nat.mul_div_cancel 147 hp

/-- C18, at a concrete input: pointers of eight bytes. -/
theorem svg_knowncolors_sorted_witness :
    0 < 8 ∧ (render_features_svg 8).sz_knowncolors = 147
    ∧ bsearch "grey" svg_knowncolors 147 = true
    ∧ bsearch "gre" svg_knowncolors 147 = false :=
  ⟨by decide, (svg_knowncolors_sorted 8 (by decide)).2.2.2.2.2.2.2.2, by decide, by decide⟩
/-! ## The quoting of the style attributes -/

/-- C19 (amended): in every style state, also when the pen width differs from the
normal sentinel or the pen style is dashed or dotted, `svg_grstyle` closes the double
quote of each attribute before it opens the next one: its output is the sequence of
independently quoted attributes ` fill="F"`, ` stroke="P"`, then ` stroke-width="W"`
when the width differs, then ` stroke-dasharray="D"` for a dashed or dotted pen. When
the colour texts and the width text contain no double quote, the output contains four
double-quote characters, and two more for each of `stroke-width` and
`stroke-dasharray` that is written. -/
theorem svg_grstyle_quoted (E : Ext) (job : GVJ_t E) (filled : Bool) (F P : String)
    (hF : svg_print_color job (if filled then job.obj.fillcolor else .RGBA_BYTE 0 0 0 0)
      = .ok (gvputs job F))
    (hP : svg_print_color job job.obj.pencolor = .ok (gvputs job P))
    (hFq : quotes F = 0) (hPq : quotes P = 0)
    (hWq : quotes (E.fmt_g job.obj.penwidth) = 0) :
    svg_grstyle job filled
      = .ok (gvputs job
          (" fill=\"" ++ F ++ "\"" ++ " stroke=\"" ++ P ++ "\""
            ++ (if E.ne job.obj.penwidth E.PENWIDTH_NORMAL = true
                then " stroke-width=\"" ++ E.fmt_g job.obj.penwidth ++ "\"" else "")
            ++ (match job.obj.pen with
                | .PEN_DASHED => " stroke-dasharray=\"5,2\""
                | .PEN_DOTTED => " stroke-dasharray=\"1,5\""
                | .PEN_SOLID => "")))
    ∧ quotes (" fill=\"" ++ F ++ "\"" ++ " stroke=\"" ++ P ++ "\""
            ++ (if E.ne job.obj.penwidth E.PENWIDTH_NORMAL = true
                then " stroke-width=\"" ++ E.fmt_g job.obj.penwidth ++ "\"" else "")
            ++ (match job.obj.pen with
                | .PEN_DASHED => " stroke-dasharray=\"5,2\""
                | .PEN_DOTTED => " stroke-dasharray=\"1,5\""
                | .PEN_SOLID => ""))
        = 4 + (if E.ne job.obj.penwidth E.PENWIDTH_NORMAL = true then 2 else 0)
            + (if job.obj.pen = .PEN_SOLID then 0 else 2) := by
  refine ⟨svg_grstyle_eq job filled F P hF hP, ?_⟩
  have q1 : quotes " fill=\"" = 1 := by decide
  have q2 : quotes "\"" = 1 := by decide
  have q3 : quotes " stroke=\"" = 1 := by decide
  have q4 : quotes " stroke-width=\"" = 1 := by decide
  have q5 : quotes " stroke-dasharray=\"5,2\"" = 2 := by decide
  have q6 : quotes " stroke-dasharray=\"1,5\"" = 2 := by decide
  have q7 : quotes "" = 0 := by decide
  cases hw : E.ne job.obj.penwidth E.PENWIDTH_NORMAL <;> cases hp : job.obj.pen <;>
    simp only [quotes_append, q1, q2, q3, q4, q5, q6, q7, hFq, hPq, hWq, if_true, if_false,
      Bool.false_eq_true, reduceCtorEq]

/-- C19 (amended), at a concrete input: a filled shape with a red fill and a dashed
black pen of width 2 gets four quoted attributes, with eight double quotes. -/
theorem svg_grstyle_quoted_witness :
    svg_grstyle (ijob { iobj black red .PEN_DASHED with penwidth := IntDouble.ofInt 2 }) true
      = .ok (gvputs (ijob { iobj black red .PEN_DASHED with penwidth := IntDouble.ofInt 2 })
          (" fill=\"#ff0000\" stroke=\"#000000\" stroke-width=\"2\""
            ++ " stroke-dasharray=\"5,2\"")) :=
  (svg_grstyle_quoted IntExt
    (ijob { iobj black red .PEN_DASHED with penwidth := IntDouble.ofInt 2 }) true
    "#ff0000" "#000000" rfl rfl (by decide) (by decide) (by decide)).1

/-- C19, the claim fails: for a dashed black pen of width 2 the output holds eight
double-quote characters, not four; the quote of the stroke colour is closed before
` stroke-width="` and that of the width before ` stroke-dasharray="`. -/
theorem svg_grstyle_not_packed :
    (svg_grstyle (ijob { iobj black red .PEN_DASHED with penwidth := IntDouble.ofInt 2 })
        true).written
      = some (" fill=\"#ff0000\" stroke=\"#000000\" stroke-width=\"2\""
          ++ " stroke-dasharray=\"5,2\"")
    ∧ quotes (" fill=\"#ff0000\" stroke=\"#000000\" stroke-width=\"2\""
          ++ " stroke-dasharray=\"5,2\"") = 8
    ∧ quotes (" fill=\"#ff0000\" stroke=\"#000000\" stroke-width=\"2\""
          ++ " stroke-dasharray=\"5,2\"") ≠ 4 := by
  refine ⟨rfl, ?_, ?_⟩ <;> decide
/-! ## The faults of the colour formatter and of the text emitter -/

/-- The text emitter stops in the fill block, after the font size, when the pen colour
has an unsupported tag. -/
theorem svg_textpara_fault {E : Ext} (job : GVJ_t E) (p : pointf E) (para : textpara_t E)
    (t : Nat) (hc : job.obj.pencolor = .OTHER t)
    (hfam : ∀ pA : PostscriptAlias, para.postscript_alias = some pA →
      job.fontnames = .SVGFONTS → pA.svg_font_family ≠ none) :
    svg_textpara job p para
      = .fault (gvputs job ("<text" ++ anchorText para.just ++ " x=\"" ++ E.fmt_g p.x
          ++ "\" y=\"" ++ E.fmt_g (E.neg (E.add p.y para.yoffset_centerline)) ++ "\""
          ++ fontText job.fontnames para.fontname para.postscript_alias
          ++ " font-size=\"" ++ E.fmt_2f para.fontsize ++ "\"")) := by
  unfold svg_textpara
  simp only [gvputs_anchorText]
  have key := svg_textpara_font_eq
    (gvputs (gvputs (gvputs job "<text") (anchorText para.just))
      (" x=\"" ++ E.fmt_g p.x ++ "\" y=\""
        ++ E.fmt_g (E.neg (E.add p.y para.yoffset_centerline)) ++ "\""))
    para (fun pA hpa hsvg => hfam pA hpa hsvg)
  rw [key]
  simp only [Outcome.andThen, svg_textpara_fill, gvputs_obj, hc, gvputs_gvputs,
    gvputs_fields, String.append_assoc]

/-- C20: `svg_print_color` faults (its assertion fails) if and only if the tag of the
colour is neither the string one nor the RGBA-byte one, and it has then written
nothing to the sink; for every string or RGBA-byte colour it runs to its end. The same
holds for the pen-colour switch of `svg_textpara`: the switch faults exactly for a pen
colour of any other tag, having written nothing itself, and so `svg_textpara` (whose
font family is not the null pointer) faults exactly for such a pen colour, after the
start of the element up to the font size has been written. -/
theorem svg_print_color_faults (E : Ext) (job : GVJ_t E) (color : gvcolor_t)
    (p : pointf E) (para : textpara_t E)
    (hfam : ∀ pA : PostscriptAlias, para.postscript_alias = some pA →
      job.fontnames = .SVGFONTS → pA.svg_font_family ≠ none) :
    ((∃ j : GVJ_t E, svg_print_color job color = .fault j) ↔ ∃ t : Nat, color = .OTHER t)
    ∧ (∀ j : GVJ_t E, svg_print_color job color = .fault j → j = job)
    ∧ svg_print_color job color ≠ .undefined
    ∧ (∀ s : String, ∃ j : GVJ_t E, svg_print_color job (.COLOR_STRING s) = .ok j)
    ∧ (∀ r g b a : Fin 256, ∃ j : GVJ_t E, svg_print_color job (.RGBA_BYTE r g b a) = .ok j)
    ∧ ((∃ j : GVJ_t E, svg_textpara_fill job = .fault j)
        ↔ ∃ t : Nat, job.obj.pencolor = .OTHER t)
    ∧ (∀ j : GVJ_t E, svg_textpara_fill job = .fault j → j = job)
    ∧ ((∃ j : GVJ_t E, svg_textpara job p para = .fault j)
        ↔ ∃ t : Nat, job.obj.pencolor = .OTHER t)
    ∧ (∀ j : GVJ_t E, svg_textpara job p para = .fault j →
        j = gvputs job ("<text" ++ anchorText para.just ++ " x=\"" ++ E.fmt_g p.x
          ++ "\" y=\"" ++ E.fmt_g (E.neg (E.add p.y para.yoffset_centerline)) ++ "\""
          ++ fontText job.fontnames para.fontname para.postscript_alias
          ++ " font-size=\"" ++ E.fmt_2f para.fontsize ++ "\"")) := by
  have hpc : ∀ c : gvcolor_t, (∀ t : Nat, c ≠ .OTHER t) →
      ∃ j : GVJ_t E, svg_print_color job c = .ok j := by
    intro c hc
    cases c with
    | COLOR_STRING s => exact ⟨_, rfl⟩
    | RGBA_BYTE r g b a =>
      by_cases ha : a = 0
      · exact ⟨gvputs job "none", by simp only [svg_print_color, ha, if_true]⟩
      · exact ⟨gvputs job ("#" ++ fmt_02x r ++ fmt_02x g ++ fmt_02x b), by
          simp only [svg_print_color, ha, if_false]⟩
    | OTHER t => exact absurd rfl (hc t)
  have htext : ∀ j : GVJ_t E, svg_textpara job p para = .fault j →
      ∃ t : Nat, job.obj.pencolor = .OTHER t := by
    intro j hj
    by_contra hne
    have hcol : ∀ t : Nat, job.obj.pencolor ≠ .OTHER t := fun t ht => hne ⟨t, ht⟩
    rw [svg_textpara_text job p para hcol hfam] at hj
    cases hj
  refine ⟨⟨?_, ?_⟩, ?_, ?_, fun s => hpc _ (fun t h => by cases h),
    fun r g b a => hpc _ (fun t h => by cases h), ⟨?_, ?_⟩, ?_, ⟨?_, ?_⟩, ?_⟩
  · rintro ⟨j, hj⟩
    by_contra hne
    obtain ⟨j2, hj2⟩ := hpc color (fun t ht => hne ⟨t, ht⟩)
    rw [hj2] at hj
    cases hj
  · rintro ⟨t, rfl⟩
    exact ⟨job, rfl⟩
  · intro j hj
    cases color with
    | COLOR_STRING s => cases hj
    | RGBA_BYTE r g b a =>
      obtain ⟨j2, hj2⟩ := hpc (.RGBA_BYTE r g b a) (fun t h => by cases h)
      rw [hj2] at hj
      cases hj
    | OTHER t =>
      simp only [svg_print_color, Outcome.fault.injEq] at hj
      exact hj.symm
  · cases color with
    | COLOR_STRING s => simp only [svg_print_color, ne_eq, reduceCtorEq, not_false_eq_true]
    | RGBA_BYTE r g b a =>
      obtain ⟨j2, hj2⟩ := hpc (.RGBA_BYTE r g b a) (fun t h => by cases h)
      rw [hj2]
      simp only [ne_eq, reduceCtorEq, not_false_eq_true]
    | OTHER t => simp only [svg_print_color, ne_eq, reduceCtorEq, not_false_eq_true]
  · rintro ⟨j, hj⟩
    by_contra hne
    rw [svg_textpara_fill_eq job (fun t ht => hne ⟨t, ht⟩)] at hj
    cases hj
  · rintro ⟨t, ht⟩
    exact ⟨job, by simp only [svg_textpara_fill, ht]⟩
  · intro j hj
    by_cases hne : ∃ t : Nat, job.obj.pencolor = .OTHER t
    · obtain ⟨t, ht⟩ := hne
      simp only [svg_textpara_fill, ht, Outcome.fault.injEq] at hj
      exact hj.symm
    · rw [svg_textpara_fill_eq job (fun t ht => hne ⟨t, ht⟩)] at hj
      cases hj
  · rintro ⟨j, hj⟩
    exact htext j hj
  · rintro ⟨t, ht⟩
    exact ⟨_, svg_textpara_fault job p para t ht hfam⟩
  · intro j hj
    obtain ⟨t, ht⟩ := htext j hj
    rw [svg_textpara_fault job p para t ht hfam, Outcome.fault.injEq] at hj
    exact hj.symm

/-- C20, at a concrete input: a pen colour of another tag makes the text emitter
fault, and a red pen does not. -/
theorem svg_print_color_faults_witness :
    ((∃ j : GVJ_t IntExt,
        svg_textpara (ijob (iobj (.OTHER 2) red .PEN_SOLID)) (ipt 27 18) ipara = .fault j)
      ↔ ∃ t : Nat, (ijob (iobj (.OTHER 2) red .PEN_SOLID)).obj.pencolor = .OTHER t)
    ∧ (svg_textpara (ijob (iobj (.OTHER 2) red .PEN_SOLID)) (ipt 27 18) ipara).written
        = none
    ∧ (svg_print_color (ijob (iobj (.OTHER 2) red .PEN_SOLID)) (.OTHER 2)).written = none :=
  ⟨(svg_print_color_faults IntExt (ijob (iobj (.OTHER 2) red .PEN_SOLID)) (.OTHER 2)
      (ipt 27 18) ipara (fun pA h _ => by simp [ipara] at h)).2.2.2.2.2.2.2.1, rfl, rfl⟩


end GvSvg
